import Mathlib

/-!
MPDCCP session controller (net/dccp/mpdccp_ctrl.c)

A shallow embedding of the multipath session controller: token derivation,
subflow membership bookkeeping, the close path, the receive admission path
and the transmit path.  Machine integers are naturals or integers with the
reduction modulo `2^32` written out where the C arithmetic wraps.
-/

namespace Mpdccp

/-! ## Token derivation: `mpdccp_key_sha1` -/

/-- Byte order of the host: `memcpy` of a `u64` copies its memory image. -/
inductive ByteOrder where
  | little
  | big
  deriving DecidableEq, Repr

/-- Byte number `i` (0..7) of the memory image of the 64-bit value `key`. -/
def u64_byte (host : ByteOrder) (key i : Nat) : Nat :=
  match host with
  | ByteOrder.little => (key >>> (8 * i)) % 256
  | ByteOrder.big => (key >>> (8 * (7 - i))) % 256

/-- The C `memset (buf + off, val, n)` on a byte buffer indexed from 0. -/
def memset (buf : Nat → Nat) (off val n : Nat) : Nat → Nat :=
  fun i => if off ≤ i ∧ i < off + n then val else buf i

/-- The C `memcpy (buf + off, &key, 8)` of a 64-bit value. -/
def memcpy_u64 (host : ByteOrder) (buf : Nat → Nat) (off key : Nat) : Nat → Nat :=
  fun i => if off ≤ i ∧ i < off + 8 then u64_byte host key (i - off) else buf i

/-- The C assignment `buf[idx] = val`. -/
def store_byte (buf : Nat → Nat) (idx val : Nat) : Nat → Nat :=
  fun i => if i = idx then val else buf i

/-- Rotate a 32-bit word left (`rol32`). -/
def rol32 (word shift : Nat) : Nat :=
  ((word <<< shift) ||| (word >>> (32 - shift))) % 4294967296

/-- Big-endian load of 32-bit word number `t` of a byte buffer (`SHA_SRC`). -/
def get_unaligned_be32 (data : Nat → Nat) (t : Nat) : Nat :=
  data (4 * t) * 16777216 + data (4 * t + 1) * 65536 + data (4 * t + 2) * 256 + data (4 * t + 3)

/-- Working registers of one SHA-1 compression, with the last sixteen words
of the message schedule (newest first). -/
structure ShaRegs where
  a : Nat
  b : Nat
  c : Nat
  d : Nat
  e : Nat
  w : List Nat

/-- Round function of round `t`. -/
def sha_fn (t b c d : Nat) : Nat :=
  if t < 20 then ((c ^^^ d) &&& b) ^^^ d
  else if t < 40 then b ^^^ c ^^^ d
  else if t < 60 then (b &&& c) + (d &&& (b ^^^ c))
  else b ^^^ c ^^^ d

/-- Round constant of round `t`. -/
def sha_k (t : Nat) : Nat :=
  if t < 20 then 0x5a827999
  else if t < 40 then 0x6ed9eba1
  else if t < 60 then 0x8f1bbcdc
  else 0xca62c1d6

/-- Schedule word of round `t`: loaded from the block for the first sixteen
rounds, mixed from the previous words afterwards (`SHA_MIX`). -/
def sha_input (data : Nat → Nat) (w : List Nat) (t : Nat) : Nat :=
  if t < 16 then get_unaligned_be32 data t
  else rol32 (w.getD 2 0 ^^^ w.getD 7 0 ^^^ w.getD 13 0 ^^^ w.getD 15 0) 1

/-- One round (`SHA_ROUND`), written with the registers renamed after the
round instead of the permuted macro arguments. -/
def sha_round (data : Nat → Nat) (r : ShaRegs) (t : Nat) : ShaRegs :=
  let temp := sha_input data r.w t
  { a := (r.e + temp + rol32 r.a 5 + sha_fn t r.b r.c r.d + sha_k t) % 4294967296
    b := r.a
    c := rol32 r.b 30
    d := r.c
    e := r.d
    w := (temp :: r.w).take 16 }

/-- Modelled from the spec: `sha_init` (lib/sha1.c is not among the sources),
the standard SHA-1 initial state. -/
def sha_init : List Nat :=
  [0x67452301, 0xefcdab89, 0x98badcfe, 0x10325476, 0xc3d2e1f0]

/-- Modelled from the spec: `sha_transform` (lib/sha1.c is not among the
sources), one application of the SHA-1 compression function to the 64-byte
block `data`, starting from and added into `digest`.  The workspace argument
of the C function is scratch memory that is written before it is read. -/
def sha_transform (digest : List Nat) (data : Nat → Nat) : List Nat :=
  let r0 : ShaRegs :=
    { a := digest.getD 0 0, b := digest.getD 1 0, c := digest.getD 2 0,
      d := digest.getD 3 0, e := digest.getD 4 0, w := [] }
  let r := (List.range 80).foldl (sha_round data) r0
  [ (digest.getD 0 0 + r.a) % 4294967296, (digest.getD 1 0 + r.b) % 4294967296,
    (digest.getD 2 0 + r.c) % 4294967296, (digest.getD 3 0 + r.d) % 4294967296,
    (digest.getD 4 0 + r.e) % 4294967296 ]

/-- The 64-byte `input` buffer of `mpdccp_key_sha1` after its five writes;
`stack` is the indeterminate content the automatic array starts with. -/
def key_sha1_input (host : ByteOrder) (key1 key2 : Nat) (stack : Nat → Nat) : Nat → Nat :=
  let input := memset stack 17 0 (64 - 18)
  let input := memcpy_u64 host input 0 key1
  let input := memcpy_u64 host input 8 key2
  let input := store_byte input 16 0x80
  store_byte input 63 0x80

/-- The function `mpdccp_key_sha1 (key1, key2, token)`.  `token` is the
destination: `none` for a null pointer, `some old` for a word holding `old`.
The result is the content of the destination afterwards. -/
def mpdccp_key_sha1 (host : ByteOrder) (key1 key2 : Nat) (token : Option Nat)
    (stack : Nat → Nat) : Option Nat :=
  let input := key_sha1_input host key1 key2 stack
  let mptcp_hashed_key := sha_transform sha_init input
  match token with
  | some _ => some (mptcp_hashed_key.getD 0 0)
  | none => none

/-- The block of the specification: bytes 0..7 are the first key, bytes
8..15 the second, byte 16 is 0x80, bytes 17..62 are zero, byte 63 is 0x80. -/
def spec_block (host : ByteOrder) (key1 key2 : Nat) : Nat → Nat :=
  fun i =>
    if i < 8 then u64_byte host key1 i
    else if i < 16 then u64_byte host key2 (i - 8)
    else if i = 16 then 0x80
    else if i < 63 then 0
    else if i = 63 then 0x80
    else 0

/-- The token as the specification words it: first word of one compression
of the specified block from the standard initial state. -/
def spec_token (host : ByteOrder) (key1 key2 : Nat) : Nat :=
  (sha_transform sha_init (spec_block host key1 key2)).getD 0 0

/-- The token a caller with a token variable on its stack obtains (the
variable and the stack array start as zeros here; the result does not depend
on them).  The byte order is matched first, so that the definition unfolds
only for a known byte order. -/
def key_token (host : ByteOrder) (key1 key2 : Nat) : Nat :=
  match host with
  | ByteOrder.little =>
    (mpdccp_key_sha1 ByteOrder.little key1 key2 (some 0) (fun _ => 0)).getD 0
  | ByteOrder.big =>
    (mpdccp_key_sha1 ByteOrder.big key1 key2 (some 0) (fun _ => 0)).getD 0

/-! ## Data model

Debug printing, module reference counting, the service code, the join nonce
and the retransmission timeout hack are left out: no claim reads them.  Locks
are not modelled: every function below runs as one atomic step.  A socket
address that designates no socket (`socks sk = none`) is outside the domain
of the C functions, which would dereference it; the model leaves the state
alone there. -/

/-- Address of a `struct sock`. -/
abbrev SockId := Nat

/-- Identity of a `struct mpdccp_link_info`. -/
abbrev LinkId := Nat

def EAGAIN : Int := 11
def ENOMEM : Int := 12
def EINVAL : Int := 22
def EMSGSIZE : Int := 90
def ENOBUFS : Int := 105
def EINPROGRESS : Int := 115

def AF_INET : Nat := 2
def AF_INET6 : Nat := 10

/-- Values of `enum mpdccp_role`; `other` stands for any further enumerator. -/
inductive Role where
  | MPDCCP_CLIENT
  | MPDCCP_SERVER
  | other
  deriving DecidableEq, Repr

/-- Values of `sk->sk_state` for a DCCP socket. -/
inductive DccpState where
  | DCCP_OPEN
  | DCCP_REQUESTING
  | DCCP_LISTEN
  | DCCP_RESPOND
  | DCCP_ACTIVE_CLOSEREQ
  | DCCP_PASSIVE_CLOSE
  | DCCP_CLOSING
  | DCCP_TIME_WAIT
  | DCCP_CLOSED
  | DCCP_PARTOPEN
  | DCCP_PASSIVE_CLOSEREQ
  deriving DecidableEq, Repr

/-- Values of `dh->dccph_type`. -/
inductive PktType where
  | DCCP_PKT_REQUEST
  | DCCP_PKT_RESPONSE
  | DCCP_PKT_DATA
  | DCCP_PKT_ACK
  | DCCP_PKT_DATAACK
  | DCCP_PKT_CLOSEREQ
  | DCCP_PKT_CLOSE
  | DCCP_PKT_RESET
  | DCCP_PKT_SYNC
  | DCCP_PKT_SYNCACK
  | DCCP_PKT_INVALID
  deriving DecidableEq, Repr

/-- A function a socket callback slot can point to: one of the four handlers
of this file, or a function `orig n` of the transport. -/
inductive Callback where
  | orig (n : Nat)
  | listen_data_ready
  | listen_backlog_rcv
  | my_sock_destruct
  | mp_state_change
  deriving DecidableEq, Repr

/-- The fields of a `struct sk_buff` the controller reads. -/
structure Skb where
  id : Nat
  len : Nat
  dccph_type : PktType
  next : Bool
  deriving DecidableEq, Repr

/-- The fields of a `struct sockaddr` the controller reads. -/
structure SockAddr where
  sa_family : Nat
  deriving DecidableEq, Repr

/-- The `struct my_sock` attached to a subflow socket.  Its list node
`sk_list` is represented by the membership of the socket in the lists of the
session. -/
structure MySock where
  my_sk_sock : Option SockId
  if_idx : Int
  link_info : Option LinkId
  link_cnt : Nat
  link_iscpy : Bool
  closing : Bool
  pcb : Option Nat
  sk_data_ready : Option Callback
  sk_backlog_rcv : Option Callback
  sk_destruct : Option Callback
  sk_state_change : Option Callback
  deriving DecidableEq, Repr

/-- The fields of a `struct sock` / `struct dccp_sock` the controller uses. -/
structure Sock where
  sk_state : DccpState
  is_kex_sk : Bool
  auth_done : Bool
  dccps_mss_cache : Nat
  dccps_tx_qlen : Nat
  sk_data_ready : Option Callback
  sk_backlog_rcv : Option Callback
  sk_destruct : Option Callback
  sk_state_change : Option Callback
  sk_user_data : Option MySock
  sk_receive_queue : List Skb
  sk_write_queue : List Skb
  deriving DecidableEq, Repr

/-- Calls the controller makes into its collaborators, in the order made.
`oops` records that the kernel faulted on an invalid pointer: the function
that was running does not go on. -/
inductive Event where
  | report_destroy (sk : SockId)
  | report_new_subflow (sk : SockId)
  | init_subflow (sk : SockId)
  | link_put (link : LinkId)
  | free_reorder_path_cb (sk : SockId)
  | sk_destruct_call (sk : SockId) (cb : Callback)
  | dccp_done (sk : SockId)
  | schedule_work (sk : SockId)
  | do_reorder (sk : SockId) (skb : Skb)
  | kfree_skb (skb : Skb)
  | qpolicy_unlink (sk : SockId) (skb : Skb)
  | dccp_write_xmit (sk : SockId)
  | connection_list_del
  | cleanup_reordering
  | cleanup_scheduler
  | cleanup_path_manager
  | free_mpcb
  | oops
  deriving DecidableEq, Repr

/-- The fields of `struct mpdccp_cb` the controller uses.  The three lists
hold the sockets whose `my_sock` node is linked into them, head first. -/
structure Mpcb where
  role : Role
  meta_sk : Option SockId
  kex_done : Bool
  mpdccp_loc_key : Nat
  mpdccp_rem_key : Nat
  mpdccp_loc_token : Nat
  mpdccp_rem_token : Nat
  psubflow_list : List SockId
  plisten_list : List SockId
  prequest_list : List SockId
  cnt_subflows : Int
  cnt_listensocks : Int
  has_init_subflow : Bool
  deriving DecidableEq, Repr

/-- One session with the sockets and links around it.  `in_connection_list`
tells whether the control block is linked into `pconnection_list`, the list
of all sessions. -/
structure World where
  host : ByteOrder
  mpcb : Mpcb
  socks : SockId → Option Sock
  next_sk : SockId
  link_refs : LinkId → Int
  link_gen : LinkId → Nat
  in_connection_list : Bool
  events : List Event

/-! ### Primitive updates -/

/-- Record a call into a collaborator. -/
@[simps]
def log (w : World) (e : Event) : World :=
  { w with events := w.events ++ [e] }

/-- Store `s` as the socket at address `sk`. -/
@[simps]
def set_sock (w : World) (sk : SockId) (s : Sock) : World :=
  { w with socks := fun i => if i = sk then some s else w.socks i }

/-- Store `m` as the control block of the session. -/
@[simps]
def set_mpcb (w : World) (m : Mpcb) : World :=
  { w with mpcb := m }

/-- Modelled from the spec: `mpdccp_link_put` (mpdccp_link.c is not among the
sources) gives back one reference of a link-info handle. -/
@[simps]
def mpdccp_link_put (w : World) (link : LinkId) : World :=
  { w with
    link_refs := fun l => if l = link then w.link_refs l - 1 else w.link_refs l
    events := w.events ++ [Event.link_put link] }

/-- The guarded call `if (link) mpdccp_link_put (link)`. -/
def link_put_opt (w : World) (link : Option LinkId) : World :=
  match link with
  | some l => mpdccp_link_put w l
  | none => w

/-- Modelled from the spec: the lookups of the link registry
(`mpdccp_link_find_ip4`, `mpdccp_link_find_ip6`, `mpdccp_getfallbacklink`)
hand out a handle with one more reference, or a null handle. -/
def link_lookup (w : World) (found : Option LinkId) : World :=
  match found with
  | some link =>
    { w with link_refs := fun l => if l = link then w.link_refs l + 1 else w.link_refs l }
  | none => w

/-- Modelled from the spec: `mpdccp_link_cnt`, the generation counter of a
link, 0 for a null handle. -/
def mpdccp_link_cnt (w : World) (link : Option LinkId) : Nat :=
  match link with
  | some l => w.link_gen l
  | none => 0

/-- The test `!list_empty (&my_sk->sk_list)`: the node is linked somewhere. -/
def linked (m : Mpcb) (sk : SockId) : Bool :=
  decide (sk ∈ m.psubflow_list) || decide (sk ∈ m.plisten_list) ||
    decide (sk ∈ m.prequest_list)

/-- Unlink the node of `sk` from the list it is in (`list_del`). -/
@[simps]
def list_del (m : Mpcb) (sk : SockId) : Mpcb :=
  { m with psubflow_list := m.psubflow_list.erase sk
           plisten_list := m.plisten_list.erase sk
           prequest_list := m.prequest_list.erase sk }

/-- The call `list_add_tail (&my_sk->sk_list, &mpcb->psubflow_list)`. -/
@[simps]
def add_tail_subflow (m : Mpcb) (sk : SockId) : Mpcb :=
  { m with psubflow_list := m.psubflow_list ++ [sk] }

/-- The call `list_add_tail_rcu (&my_sk->sk_list, &mpcb->prequest_list)`. -/
@[simps]
def add_tail_request (m : Mpcb) (sk : SockId) : Mpcb :=
  { m with prequest_list := m.prequest_list ++ [sk] }

/-- The call `list_add_tail_rcu (&my_sk->sk_list, &mpcb->plisten_list)`. -/
@[simps]
def add_tail_listen (m : Mpcb) (sk : SockId) : Mpcb :=
  { m with plisten_list := m.plisten_list ++ [sk] }

/-- The assignments `mpcb->cnt_subflows++` (`d = 1`) and
`mpcb->cnt_subflows--` (`d = -1`). -/
@[simps]
def cnt_subflows_add (m : Mpcb) (d : Int) : Mpcb :=
  { m with cnt_subflows := m.cnt_subflows + d }

/-- The assignment `mpcb->cnt_listensocks++`. -/
@[simps]
def cnt_listensocks_inc (m : Mpcb) : Mpcb :=
  { m with cnt_listensocks := m.cnt_listensocks + 1 }

/-- The key-exchange fields as the option processing of the transport
leaves them. -/
@[simps]
def set_kex (m : Mpcb) (done : Bool) (loc_key rem_key : Nat) : Mpcb :=
  { m with kex_done := done, mpdccp_loc_key := loc_key, mpdccp_rem_key := rem_key }

/-- The assignments to `mpcb->mpdccp_loc_token` and `mpcb->mpdccp_rem_token`. -/
@[simps]
def set_tokens (m : Mpcb) (loc rem : Nat) : Mpcb :=
  { m with mpdccp_loc_token := loc, mpdccp_rem_token := rem }

/-- Result of `mpdccp_alloc_mpcb`: a zeroed control block with empty lists.
`sched` tells whether the scheduler picked by `mpdccp_init_scheduler` has an
`init_subflow` hook.  The role and the meta socket are stored by the creator
of the session afterwards (see `init_world`). -/
def mpdccp_alloc_mpcb (sched : Bool) : Mpcb :=
  { role := Role.MPDCCP_CLIENT
    meta_sk := none
    kex_done := false
    mpdccp_loc_key := 0
    mpdccp_rem_key := 0
    mpdccp_loc_token := 0
    mpdccp_rem_token := 0
    psubflow_list := []
    plisten_list := []
    prequest_list := []
    cnt_subflows := 0
    cnt_listensocks := 0
    has_init_subflow := sched }

/-- A socket as `sock_create` returns it: closed, with the callbacks of the
transport in its four slots. -/
def fresh_sock : Sock :=
  { sk_state := DccpState.DCCP_CLOSED
    is_kex_sk := false
    auth_done := false
    dccps_mss_cache := 536
    dccps_tx_qlen := 0
    sk_data_ready := some (Callback.orig 0)
    sk_backlog_rcv := some (Callback.orig 1)
    sk_destruct := some (Callback.orig 2)
    sk_state_change := some (Callback.orig 3)
    sk_user_data := none
    sk_receive_queue := []
    sk_write_queue := [] }

/-- Modelled from the spec: a successful `sock_create` / `sock_create_kern`
(net/socket.c is not among the sources) returns a new socket; its address is
the next unused one, `w.next_sk`. -/
@[simps]
def sock_create (w : World) : World :=
  { w with
    socks := fun i => if i = w.next_sk then some fresh_sock else w.socks i
    next_sk := w.next_sk + 1 }

/-- Modelled from the spec: `dccp_done` (net/dccp/proto.c is not among the
sources) tears the socket down: the call is recorded and the socket is put in
the closed state. -/
def dccp_done (w : World) (sk : SockId) : World :=
  match w.socks sk with
  | some s => set_sock (log w (Event.dccp_done sk)) sk { s with sk_state := DccpState.DCCP_CLOSED }
  | none => log w (Event.dccp_done sk)

/-! ## Subflow attachment and destruction -/

/-- The function `my_sock_init (sk, mpcb, if_idx, role)`; `alloc_ok` tells
whether `kmem_cache_zalloc` returns memory.  An address that designates no
socket is outside the domain of the C function and leaves the model alone. -/
def my_sock_init (alloc_ok : Bool) (w : World) (sk : SockId) (if_idx : Int) (role : Role) :
    Int × World :=
  if alloc_ok = false then (-ENOBUFS, w)
  else
    match w.socks sk with
    | none => (0, w)
    | some s =>
      let my_sk : MySock :=
        { my_sk_sock := some sk
          if_idx := if_idx
          link_info := none
          link_cnt := 0
          link_iscpy := false
          closing := false
          pcb := none
          sk_data_ready := s.sk_data_ready
          sk_backlog_rcv := s.sk_backlog_rcv
          sk_destruct := s.sk_destruct
          sk_state_change := if role = Role.MPDCCP_CLIENT then s.sk_state_change else none }
      let s1 : Sock :=
        { s with
          sk_data_ready := some Callback.listen_data_ready
          sk_backlog_rcv := some Callback.listen_backlog_rcv
          sk_destruct := some Callback.my_sock_destruct
          sk_state_change :=
            if role = Role.MPDCCP_CLIENT then some Callback.mp_state_change
            else s.sk_state_change
          is_kex_sk := if w.mpcb.kex_done = false then true else s.is_kex_sk
          sk_user_data := some my_sk }
      (0, set_sock w sk s1)

/-- The guarded restore `if (my_sk->cb) sk->cb = my_sk->cb`. -/
def restore_cb (saved current : Option Callback) : Option Callback :=
  match saved with
  | some cb => some cb
  | none => current

/-- Lines 349-358 of `my_sock_destruct`: a linked node is unlinked, the link
reference of the subflow is given back and `cnt_subflows` is decremented. -/
def destruct_unlink (w : World) (sk : SockId) (link_info : Option LinkId) : World :=
  if linked w.mpcb sk = true then
    let w1 := set_mpcb w (list_del w.mpcb sk)
    let w2 := link_put_opt w1 link_info
    set_mpcb w2 (cnt_subflows_add w2.mpcb (-1))
  else w

/-- Lines 365-378 of `my_sock_destruct`: the socket is detached and the saved
callbacks are put back, each only when it is non-null. -/
def destruct_restore (s : Sock) (my_sk : MySock) : Sock :=
  { s with
    sk_user_data := none
    sk_data_ready := restore_cb my_sk.sk_data_ready s.sk_data_ready
    sk_backlog_rcv := restore_cb my_sk.sk_backlog_rcv s.sk_backlog_rcv
    sk_destruct := restore_cb my_sk.sk_destruct s.sk_destruct
    sk_state_change := restore_cb my_sk.sk_state_change s.sk_state_change }

/-- Lines 391-394 of `my_sock_destruct`: the meta socket is torn down when
`cnt_subflows` is 0 and the meta socket is not closed.  A session without meta
socket is outside the domain of the C code, which reads it. -/
def destruct_cascade (w : World) : World :=
  if w.mpcb.cnt_subflows = 0 then
    match w.mpcb.meta_sk with
    | none => w
    | some m =>
      match w.socks m with
      | none => w
      | some ms => if ms.sk_state ≠ DccpState.DCCP_CLOSED then dccp_done w m else w
  else w

/-- Lines 385-394 of `my_sock_destruct`: the call of the restored
`sk->sk_destruct`, recorded in the event log, and the cascade.  When the slot
still holds `my_sock_destruct` itself (the saved destructor was null or was
`my_sock_destruct` already) the call re-enters the function with
`sk_user_data` null, so it faults at line 344 and the lines after the call
are not reached. -/
def destruct_finish (w : World) (sk : SockId) (cb : Option Callback) : World :=
  match cb with
  | some Callback.my_sock_destruct => log w Event.oops
  | some cb => destruct_cascade (log w (Event.sk_destruct_call sk cb))
  | none => destruct_cascade w

/-- The function `my_sock_destruct (sk)`.  On a socket without `my_sock`
line 344 reads `my_sk->mpcb` through the null `sk_user_data` and the kernel
faults. -/
def my_sock_destruct (w : World) (sk : SockId) : World :=
  match w.socks sk with
  | none => w
  | some s =>
    match s.sk_user_data with
    | none => log w Event.oops
    | some my_sk =>
      let w1 := log w (Event.report_destroy sk)
      let w2 := destruct_unlink w1 sk my_sk.link_info
      let s1 := destruct_restore s my_sk
      let w3 := set_sock w2 sk s1
      let w4 : World :=
        match my_sk.pcb with
        | some _ => log w3 (Event.free_reorder_path_cb sk)
        | none => w3
      destruct_finish w4 sk s1.sk_destruct

/-- Modelled from the spec: `sock_release` (net/socket.c is not among the
sources) on a socket that never got connected drops its last reference, so
the function in its `sk_destruct` slot runs before `sock_release` returns. -/
def sock_release (w : World) (sk : SockId) : World :=
  match w.socks sk with
  | none => w
  | some s =>
    match s.sk_destruct with
    | some Callback.my_sock_destruct => my_sock_destruct w sk
    | some cb => log w (Event.sk_destruct_call sk cb)
    | none => w

/-! ## Promotion -/

/-- Lines 975-985 of `mp_state_change`: the node is moved to the tail of the
active list, the count is incremented and the scheduler is told. -/
def promote (w : World) (sk : SockId) : World :=
  let w1 := set_mpcb w (cnt_subflows_add (add_tail_subflow (list_del w.mpcb sk) sk) 1)
  let w2 := if w1.mpcb.has_init_subflow = true then log w1 (Event.init_subflow sk) else w1
  log w2 (Event.report_new_subflow sk)

/-- The function `mp_state_change (sk)`. -/
def mp_state_change (w : World) (sk : SockId) : World :=
  match w.socks sk with
  | none => w
  | some s =>
    match s.sk_user_data with
    | none => w
    | some _ =>
      if (s.sk_state = DccpState.DCCP_PARTOPEN ∧ s.is_kex_sk = true) ∨
          (s.sk_state = DccpState.DCCP_OPEN ∧ s.is_kex_sk = false) then
        if sk ∈ w.mpcb.psubflow_list then w
        else promote w sk
      else w

/-! ## Adding subflows -/

/-- What `kernel_connect` did by the time it returns: its result, the state
and segment size the transport left the socket with, the key-exchange fields
the option processing left in the session, and whether the transport invoked
the `sk_state_change` callback of the socket. -/
structure ConnectOutcome where
  ret : Int
  sk_state : DccpState
  mss : Nat
  kex_done : Bool
  loc_key : Nat
  rem_key : Nat
  notify : Bool
  deriving DecidableEq, Repr

/-- Modelled from the spec: `kernel_connect` (the transport is not among the
sources), as far as the controller can observe it. -/
def kernel_connect (w : World) (sk : SockId) (o : ConnectOutcome) : World :=
  match w.socks sk with
  | none => w
  | some s =>
    let w1 := set_sock w sk { s with sk_state := o.sk_state, dccps_mss_cache := o.mss }
    let w2 :=
      set_mpcb w1
        (set_kex w1.mpcb o.kex_done (o.loc_key % 18446744073709551616)
          (o.rem_key % 18446744073709551616))
    if o.notify = true ∧ s.sk_state_change = some Callback.mp_state_change then
      mp_state_change w2 sk
    else w2

/-- Lines 672-674 of `mpdccp_add_client_conn`: the meta socket takes the
segment size of the subflow and becomes open. -/
def meta_open (w : World) (mss : Nat) : World :=
  match w.mpcb.meta_sk with
  | none => w
  | some m =>
    match w.socks m with
    | none => w
    | some ms => set_sock w m { ms with dccps_mss_cache := mss, sk_state := DccpState.DCCP_OPEN }

/-- Lines 656-675 of `mpdccp_add_client_conn`: the key-exchange carrier is
authorised and the tokens are generated. -/
def kex_complete (w : World) (sk : SockId) : World :=
  match w.socks sk with
  | none => w
  | some s =>
    if s.is_kex_sk = true ∧ w.mpcb.kex_done = true then
      let w1 := set_sock w sk { s with auth_done := true, is_kex_sk := false }
      let loc := key_token w1.host w1.mpcb.mpdccp_loc_key w1.mpcb.mpdccp_rem_key
      let rem := key_token w1.host w1.mpcb.mpdccp_rem_key w1.mpcb.mpdccp_loc_key
      let w2 := set_mpcb w1 (set_tokens w1.mpcb loc rem)
      meta_open w2 s.dccps_mss_cache
    else w

/-- The link registry lookup both add functions make after a successful
bind: by address family, then the fallback link. -/
def find_link (family : Nat) (find_ip4 find_ip6 fallback : Option LinkId) : Option LinkId :=
  let found :=
    if family = AF_INET then find_ip4
    else if family = AF_INET6 then find_ip6
    else none
  match found with
  | some l => some l
  | none => fallback

/-- Store the link fields in the `my_sock` of `sk` (lines 631-633, 733-735). -/
def set_link (w : World) (sk : SockId) (link_info : Option LinkId) : World :=
  match w.socks sk with
  | none => w
  | some s =>
    match s.sk_user_data with
    | none => w
    | some my_sk =>
      set_sock w sk
        { s with
          sk_user_data :=
            some { my_sk with
                   link_info := link_info
                   link_cnt := mpdccp_link_cnt w link_info
                   link_iscpy := false } }

/-- The label `out:` of both add functions. -/
def add_out (w : World) (link_info : Option LinkId) (ret : Int) : World :=
  match link_info with
  | some link => if ret ≠ 0 then mpdccp_link_put w link else w
  | none => w

/-- What the collaborators of `mpdccp_add_client_conn` answer. -/
structure ClientEnv where
  create_ret : Int
  alloc_ok : Bool
  bind_ret : Int
  find_ip4 : Option LinkId
  find_ip6 : Option LinkId
  fallback : Option LinkId
  connect : ConnectOutcome
  deriving DecidableEq, Repr

/-- Lines 622-678 of `mpdccp_add_client_conn`, after the successful bind of
the socket `sk`. -/
def client_connect (env : ClientEnv) (w : World) (sk : SockId) (family : Nat) : Int × World :=
  let link_info := find_link family env.find_ip4 env.find_ip6 env.fallback
  let w2 := link_lookup w link_info
  let w3 := set_link w2 sk link_info
  let w4 := set_mpcb w3 (add_tail_request w3.mpcb sk)
  let w5 := kernel_connect w4 sk env.connect
  let ret := env.connect.ret
  if ret < 0 ∧ ret ≠ -EINPROGRESS then (ret, add_out (sock_release w5 sk) link_info ret)
  else (ret, add_out (kex_complete w5 sk) link_info ret)

/-- The function `mpdccp_add_client_conn`.  `mpcb` tells whether the session
pointer is non-null; a null address is `none`. -/
def mpdccp_add_client_conn (env : ClientEnv) (w : World) (mpcb : Bool)
    (local_address : Option SockAddr) (if_idx : Int) (remote_address : Option SockAddr) :
    Int × World :=
  match mpcb, local_address, remote_address with
  | true, some la, some _ =>
    if w.mpcb.role ≠ Role.MPDCCP_CLIENT then (-EINVAL, w)
    else if env.create_ret < 0 then (env.create_ret, w)
    else
      let sk := w.next_sk
      let r := my_sock_init env.alloc_ok (sock_create w) sk if_idx Role.MPDCCP_CLIENT
      if r.1 < 0 then (r.1, sock_release r.2 sk)
      else if env.bind_ret < 0 then (env.bind_ret, sock_release r.2 sk)
      else client_connect env r.2 sk la.sa_family
  | _, _, _ => (-EINVAL, w)

/-- What the collaborators of `mpdccp_add_listen_sock` answer. -/
structure ListenEnv where
  create_ret : Int
  alloc_ok : Bool
  bind_ret : Int
  find_ip4 : Option LinkId
  find_ip6 : Option LinkId
  fallback : Option LinkId
  listen_ret : Int
  deriving DecidableEq, Repr

/-- Modelled from the spec: a successful `listen` (the transport is not among
the sources) leaves the socket in the listen state. -/
def listen_ok (w : World) (sk : SockId) : World :=
  match w.socks sk with
  | some s => set_sock w sk { s with sk_state := DccpState.DCCP_LISTEN }
  | none => w

/-- Lines 724-760 of `mpdccp_add_listen_sock`, after the successful bind of
the socket `sk`. -/
def server_listen (env : ListenEnv) (w : World) (sk : SockId) (family : Nat) : Int × World :=
  let link_info := find_link family env.find_ip4 env.find_ip6 env.fallback
  let w2 := link_lookup w link_info
  let w3 := set_link w2 sk link_info
  if env.listen_ret < 0 then
    (env.listen_ret, add_out (sock_release w3 sk) link_info env.listen_ret)
  else
    let w4 := listen_ok w3 sk
    let w5 := set_mpcb w4 (cnt_listensocks_inc (add_tail_listen w4.mpcb sk))
    (env.listen_ret, add_out w5 link_info env.listen_ret)

/-- The function `mpdccp_add_listen_sock`. -/
def mpdccp_add_listen_sock (env : ListenEnv) (w : World) (mpcb : Bool)
    (local_address : Option SockAddr) (if_idx : Int) : Int × World :=
  match mpcb, local_address with
  | true, some la =>
    if w.mpcb.role ≠ Role.MPDCCP_SERVER then (-EINVAL, w)
    else if env.create_ret < 0 then (env.create_ret, w)
    else
      let sk := w.next_sk
      let r := my_sock_init env.alloc_ok (sock_create w) sk if_idx Role.MPDCCP_SERVER
      if r.1 < 0 then (r.1, sock_release r.2 sk)
      else if env.bind_ret < 0 then (env.bind_ret, sock_release r.2 sk)
      else server_listen env r.2 sk la.sa_family
  | _, _ => (-EINVAL, w)

/-! ## Closing -/

/-- The function `mpdccp_close_subflow (mpcb, sk, destroy)`. -/
def mpdccp_close_subflow (w : World) (mpcb : Bool) (sk : Option SockId) (_destroy : Int) :
    Int × World :=
  match mpcb, sk with
  | true, some sk =>
    match w.socks sk with
    | none => (0, w)
    | some s =>
      match s.sk_user_data with
      | none => (0, w)
      | some my_sk =>
        if my_sk.closing = false then
          let w1 := set_sock w sk { s with sk_user_data := some { my_sk with closing := true } }
          (0, log w1 (Event.schedule_work sk))
        else (0, w)
  | _, _ => (-EINVAL, w)

/-! ## Receive path -/

/-- The conversion of an `unsigned int` to `int`, as in `int sz = skb->len`:
values of 2^31 and more wrap to negative numbers. -/
def int_of_uint (n : Nat) : Int :=
  if n % 4294967296 < 2147483648 then ((n % 4294967296 : Nat) : Int)
  else ((n % 4294967296 : Nat) : Int) - 4294967296

/-- The function `mpdccp_read_from_subflow (sk)`; the result is `none` when
the kernel faults before the function returns.  The initialisers of lines
135-136 read `sk->sk_user_data` and `my_sk->mpcb` before the test of `sk` at
line 138, so a null socket and a socket without `my_sock` fault.
`__skb_recv_datagram` takes the packet at the head of the receive queue of
the socket, if any.  The length of the packet, an `unsigned int`, is stored in
the `int sz`. -/
def mpdccp_read_from_subflow (w : World) (sk : Option SockId) : Option Int × World :=
  match sk with
  | none => (none, log w Event.oops)
  | some sk =>
    match w.socks sk with
    | none => (some 0, w)
    | some s =>
      match s.sk_user_data with
      | none => (none, log w Event.oops)
      | some my_sk =>
        match s.sk_receive_queue with
        | [] => (some 0, w)
        | skb :: rest =>
          let s1 : Sock := { s with sk_receive_queue := rest }
          let w1 := set_sock w sk s1
          let sz : Int := int_of_uint skb.len
          match skb.dccph_type with
          | PktType.DCCP_PKT_DATA | PktType.DCCP_PKT_DATAACK =>
            if sz > 0 then (some sz, log w1 (Event.do_reorder sk skb))
            else (some sz, log w1 (Event.kfree_skb skb))
          | PktType.DCCP_PKT_CLOSE | PktType.DCCP_PKT_CLOSEREQ =>
            let w2 := set_sock w sk { s1 with sk_user_data := some { my_sk with closing := true } }
            (some sz, log (log w2 (Event.schedule_work sk)) (Event.kfree_skb skb))
          | _ => (some (-1), w1)

/-- Modelled from the spec: `sock_queue_rcv_skb` (net/core/sock.c is not among
the sources) appends the packet to the receive queue of the socket and
returns 0, or returns the negative `rcv_ret` and queues nothing. -/
def sock_queue_rcv_skb (rcv_ret : Int) (w : World) (sk : SockId) (skb : Skb) : Int × World :=
  if rcv_ret < 0 then (rcv_ret, w)
  else
    match w.socks sk with
    | none => (0, w)
    | some s => (0, set_sock w sk { s with sk_receive_queue := s.sk_receive_queue ++ [skb] })

/-- The function `mpdccp_forward_skb (skb, mpcb)`; `mpcb` tells whether the
session pointer is non-null.  A meta socket address that designates no socket
is treated like a missing meta socket. -/
def mpdccp_forward_skb (rcv_ret : Int) (w : World) (skb : Option Skb) (mpcb : Bool) :
    Int × World :=
  match skb with
  | none => (-EINVAL, w)
  | some skb =>
    match (if mpcb = true then w.mpcb.meta_sk else none) with
    | none => (-EINVAL, log w (Event.kfree_skb skb))
    | some m =>
      match w.socks m with
      | none => (-EINVAL, log w (Event.kfree_skb skb))
      | some ms =>
        if ms.dccps_tx_qlen ≠ 0 ∧ ms.sk_receive_queue.length ≥ ms.dccps_tx_qlen then
          (-ENOBUFS, log w (Event.kfree_skb skb))
        else
          let r := sock_queue_rcv_skb rcv_ret w m skb
          if r.1 < 0 then (0, log r.2 (Event.kfree_skb skb))
          else (0, r.2)

/-! ## Transmit path -/

/-- What the surroundings of `mpdccp_xmit_to_sk` answer.  `meta_sk_stack` is
the socket the automatic variable `meta_sk` designates before it is assigned
(`none` when its indeterminate value is the address of no socket). -/
structure XmitEnv where
  meta_sk_stack : Option SockId
  qpolicy_full : Bool
  wait_connect_ret : Int
  timer_pending : Bool
  deriving DecidableEq, Repr

/-- The function `mpdccp_xmit_to_sk (sk, skb)`; the result is `none` when the
kernel faults before the function returns.  On the size error line 835 stores
through `meta_sk`, which is assigned only at line 839: when the indeterminate
pointer designates a socket the store lands in that socket, otherwise the
store faults and `return -EMSGSIZE` is not reached.  The comparison of line
834 converts `len` to the unsigned type of `dccps_mss_cache`.  Taking and
releasing the socket lock is not modelled.  `get_mpcb (sk)` is the session for
a socket with `my_sock` and null otherwise. -/
def mpdccp_xmit_to_sk (env : XmitEnv) (w : World) (sk : Option SockId) (skb : Option Skb) :
    Option Int × World :=
  match skb, sk with
  | some skb, some sk =>
    match w.socks sk with
    | none => (some (-EINVAL), w)
    | some s =>
      if skb.len > s.dccps_mss_cache then
        match env.meta_sk_stack with
        | none => (none, log w Event.oops)
        | some g =>
          match w.socks g with
          | none => (none, log w Event.oops)
          | some gs =>
            (some (-EMSGSIZE), set_sock w g { gs with dccps_mss_cache := s.dccps_mss_cache })
      else
        let meta_sk : Option SockId :=
          match s.sk_user_data with
          | some _ => w.mpcb.meta_sk
          | none => none
        if env.qpolicy_full = true then (some (-EAGAIN), w)
        else if (s.sk_state ≠ DccpState.DCCP_OPEN ∧ s.sk_state ≠ DccpState.DCCP_PARTOPEN) ∧
            env.wait_connect_ret ≠ 0 then (some env.wait_connect_ret, w)
        else
          let w1 : World :=
            match meta_sk with
            | some m =>
              if skb.next = true then
                match w.socks m with
                | some ms =>
                  log (set_sock w m { ms with sk_write_queue := ms.sk_write_queue.erase skb })
                    (Event.qpolicy_unlink m skb)
                | none => w
              else w
            | none => w
          let w2 : World :=
            match w1.socks sk with
            | some s1 => set_sock w1 sk { s1 with sk_write_queue := s1.sk_write_queue ++ [skb] }
            | none => w1
          if env.timer_pending = false then (some 0, log w2 (Event.dccp_write_xmit sk))
          else (some 0, w2)
  | _, _ => (some (-EINVAL), w)

/-- The four callback slots of a socket: data-ready, backlog-receive,
destructor and state-change. -/
def callbacks (s : Sock) :
    Option Callback × Option Callback × Option Callback × Option Callback :=
  (s.sk_data_ready, s.sk_backlog_rcv, s.sk_destruct, s.sk_state_change)

/-! ## Session destruction -/

/-- The `my_sock` whose list node stands for `x` in a list of the session. -/
def node (w : World) (x : SockId) : Option MySock :=
  match w.socks x with
  | some s => s.sk_user_data
  | none => none

/-- The list node of `x` is a `my_sock` whose socket pointer `my_sk_sock` is
`x` itself, as `my_sock_init` sets it. -/
def node_ok (w : World) (x : SockId) : Bool :=
  match node w x with
  | some mysk => decide (mysk.my_sk_sock = some x)
  | none => false

/-- The list node of `x` is a `my_sock` whose socket pointer is `x` itself
or null. -/
def node_wf (w : World) (x : SockId) : Bool :=
  match node w x with
  | some mysk => decide (mysk.my_sk_sock = some x) || decide (mysk.my_sk_sock = none)
  | none => false

/-- The closing flag of the subflow `x` is set. -/
def is_closing (w : World) (x : SockId) : Bool :=
  match node w x with
  | some mysk => mysk.closing
  | none => false

/-- The sockets of the three lists in the order in which
`mpdccp_destroy_mpcb` visits them: active, listening, pending. -/
def all_subflows (m : Mpcb) : List SockId :=
  m.psubflow_list ++ m.plisten_list ++ m.prequest_list

/-- One loop `list_for_each_safe` of `mpdccp_destroy_mpcb` over a list of the
session: every node is asked to close through its socket pointer, and the
first negative result ends the function. -/
def close_list (w : World) : List SockId → Int × World
  | [] => (0, w)
  | x :: rest =>
    match node w x with
    | none => close_list w rest
    | some mysk =>
      if (mpdccp_close_subflow w true mysk.my_sk_sock 1).1 < 0 then
        mpdccp_close_subflow w true mysk.my_sk_sock 1
      else close_list (mpdccp_close_subflow w true mysk.my_sk_sock 1).2 rest

/-- Unlink the control block from `pconnection_list` (lines 274-276). -/
@[simps]
def connection_list_del (w : World) : World :=
  { w with
    in_connection_list := false
    events := w.events ++ [Event.connection_list_del] }

/-- Lines 317-325 of `mpdccp_destroy_mpcb`: the three strategies release
what they hold for the session and the control block is freed. -/
def destroy_cleanup (w : World) : World :=
  log (log (log (log w Event.cleanup_reordering) Event.cleanup_scheduler)
    Event.cleanup_path_manager) Event.free_mpcb

/-- The function `mpdccp_destroy_mpcb (mpcb)`; `mpcb` tells whether the
session pointer is non-null. -/
def mpdccp_destroy_mpcb (w : World) (mpcb : Bool) : Int × World :=
  if mpcb = false then (-EINVAL, w)
  else
    let w1 := connection_list_del w
    let r1 := close_list w1 w1.mpcb.psubflow_list
    if r1.1 < 0 then r1
    else
      let r2 := close_list r1.2 r1.2.mpcb.plisten_list
      if r2.1 < 0 then r2
      else
        let r3 := close_list r2.2 r2.2.mpcb.prequest_list
        if r3.1 < 0 then r3
        else (0, destroy_cleanup r3.2)

/-! ## Reachable session states -/

/-- The socket has a `my_sock`: it is a subflow of the session. -/
def attached (w : World) (sk : SockId) : Bool :=
  match w.socks sk with
  | some s => s.sk_user_data.isSome
  | none => false

/-- The transport moves the socket to `st` (before it invokes the
`sk_state_change` callback). -/
def set_state (w : World) (sk : SockId) (st : DccpState) : World :=
  match w.socks sk with
  | some s => set_sock w sk { s with sk_state := st }
  | none => w

/-- A session as it is right after `mpdccp_alloc_mpcb` (which links it into
`pconnection_list`), once its creator has stored the role and created the
meta socket (address 0, in state `st`). -/
def init_world (host : ByteOrder) (role : Role) (sched : Bool) (st : DccpState) : World :=
  { host := host
    mpcb := { mpdccp_alloc_mpcb sched with role := role, meta_sk := some 0 }
    socks := fun i => if i = 0 then some { fresh_sock with sk_state := st } else none
    next_sk := 1
    link_refs := fun _ => 1
    link_gen := fun _ => 0
    in_connection_list := true
    events := [] }

/-- One step of the session: a call of one of the four functions that change
the membership lists.  `mp_state_change` and `my_sock_destruct` are callbacks
of the transport, which invokes them on subflows of the session;
`mp_state_change` follows a state transition of the socket. -/
inductive Step : World → World → Prop where
  | add_client_conn (w : World) (env : ClientEnv) (mpcb : Bool) (la : Option SockAddr)
      (if_idx : Int) (ra : Option SockAddr) :
      Step w (mpdccp_add_client_conn env w mpcb la if_idx ra).2
  | add_listen_sock (w : World) (env : ListenEnv) (mpcb : Bool) (la : Option SockAddr)
      (if_idx : Int) :
      Step w (mpdccp_add_listen_sock env w mpcb la if_idx).2
  | mp_state_change (w : World) (sk : SockId) (st : DccpState) (h : attached w sk = true) :
      Step w (mp_state_change (set_state w sk st) sk)
  | my_sock_destruct (w : World) (sk : SockId) (h : attached w sk = true) :
      Step w (my_sock_destruct w sk)

/-- States reachable from a freshly allocated session. -/
inductive Reachable : World → Prop where
  | init (host : ByteOrder) (role : Role) (sched : Bool) (st : DccpState) :
      Reachable (init_world host role sched st)
  | step (w w2 : World) (h : Reachable w) (hs : Step w w2) : Reachable w2


/-! ## Invariants of the membership lists -/

/-- The three lists hold pairwise different sockets, all created before
`n`: every subflow is in at most one list, at most once. -/
def ListsOk (m : Mpcb) (n : Nat) : Prop :=
  (m.prequest_list ++ m.plisten_list ++ m.psubflow_list).Nodup ∧
  ∀ x, x ∈ m.prequest_list ++ m.plisten_list ++ m.psubflow_list → x < n

/-- The invariant of a session: the lists are well formed and no socket
exists at an address that `sock_create` has not handed out yet. -/
def Inv (w : World) : Prop :=
  ListsOk w.mpcb w.next_sk ∧ ∀ x, w.next_sk ≤ x → w.socks x = none

/-- The step from `w` to `w2` creates no socket. -/
def NoNew (w w2 : World) : Prop :=
  w2.next_sk = w.next_sk ∧ ∀ x, w.socks x = none → w2.socks x = none

/-- The socket pointer of the `my_sock` of `x`, when `x` has one. -/
def nkey (w : World) (x : SockId) : Option (Option SockId) :=
  (node w x).map MySock.my_sk_sock

/-- Every socket with a `my_sock` is the one its `my_sk_sock` points to, and
every socket in one of the three lists has a `my_sock`. -/
def NodesOk (w : World) : Prop :=
  ∀ x, nkey w x = some (some x) ∨
    (nkey w x = none ∧
      x ∉ w.mpcb.prequest_list ++ w.mpcb.plisten_list ++ w.mpcb.psubflow_list)

/-! ## Scenarios -/

/-- The transport queues an incoming packet on the socket. -/
def deliver (w : World) (sk : SockId) (skb : Skb) : World :=
  match w.socks sk with
  | some s => set_sock w sk { s with sk_receive_queue := s.sk_receive_queue ++ [skb] }
  | none => w

/-- A local or remote IPv4 address. -/
def addr4 : SockAddr := { sa_family := AF_INET }

/-- A client session right after its creation, the meta socket requesting. -/
def w_fresh : World :=
  init_world ByteOrder.little Role.MPDCCP_CLIENT true DccpState.DCCP_REQUESTING

/-- Collaborators of a connect that returns 0 with the handshake still under
way: no state change notified, key exchange not done. -/
def env_pending : ClientEnv :=
  { create_ret := 0, alloc_ok := true, bind_ret := 0, find_ip4 := none, find_ip6 := none,
    fallback := none,
    connect := { ret := 0, sk_state := DccpState.DCCP_REQUESTING, mss := 1400, kex_done := false,
                 loc_key := 0, rem_key := 0, notify := false } }

/-- Collaborators of the blocking connect of the key-exchange carrier: the
socket reaches PARTOPEN, its state change is notified, the keys are stored. -/
def env_kex : ClientEnv :=
  { create_ret := 0, alloc_ok := true, bind_ret := 0, find_ip4 := none, find_ip6 := none,
    fallback := none,
    connect := { ret := 0, sk_state := DccpState.DCCP_PARTOPEN, mss := 1400, kex_done := true,
                 loc_key := 4142, rem_key := 126541, notify := true } }

/-- Collaborators of the non-blocking connect of a join subflow. -/
def env_join : ClientEnv :=
  { create_ret := 0, alloc_ok := true, bind_ret := 0, find_ip4 := none, find_ip6 := none,
    fallback := none,
    connect := { ret := -EINPROGRESS, sk_state := DccpState.DCCP_REQUESTING, mss := 1400,
                 kex_done := true, loc_key := 4142, rem_key := 126541, notify := false } }

/-- One pending subflow (socket 1). -/
def w_pending : World :=
  (mpdccp_add_client_conn env_pending w_fresh true (some addr4) 0 (some addr4)).2

/-- The pending subflow is destroyed before it was ever promoted. -/
def w_drift : World :=
  my_sock_destruct w_pending 1

/-- Two pending subflows (sockets 1 and 2); socket 2 is destroyed, then
socket 1 reaches PARTOPEN and is promoted: it is the only active subflow. -/
def w_sole : World :=
  mp_state_change
    (set_state
      (my_sock_destruct
        (mpdccp_add_client_conn env_pending w_pending true (some addr4) 0 (some addr4)).2 2)
      1 DccpState.DCCP_PARTOPEN)
    1

/-- The key-exchange carrier (socket 1) is connected and active. -/
def w_kex : World :=
  (mpdccp_add_client_conn env_kex w_fresh true (some addr4) 0 (some addr4)).2

/-- A join subflow (socket 2) is added, reaches OPEN and is promoted, a
second join subflow (socket 3) is added and destroyed while pending: sockets
1 and 2 are active. -/
def w_two : World :=
  my_sock_destruct
    (mpdccp_add_client_conn env_join
      (mp_state_change
        (set_state (mpdccp_add_client_conn env_join w_kex true (some addr4) 0 (some addr4)).2
          2 DccpState.DCCP_OPEN)
        2)
      true (some addr4) 0 (some addr4)).2
    3

/-- A close packet. -/
def close_pkt : Skb :=
  { id := 7, len := 0, dccph_type := PktType.DCCP_PKT_CLOSE, next := false }

/-- A data packet of 100 bytes. -/
def data_pkt : Skb :=
  { id := 8, len := 100, dccph_type := PktType.DCCP_PKT_DATA, next := false }

/-- A session whose meta socket has queue limit 1 and one packet queued. -/
def w_full : World :=
  set_sock w_fresh 0
    { fresh_sock with dccps_tx_qlen := 1, sk_receive_queue := [data_pkt] }

/-- A client session after the key exchange with a second, join subflow
(socket 2) whose connect is in progress; the local address belongs to link 5. -/
def env_join_link : ClientEnv :=
  { env_join with find_ip4 := some 5 }

/-- The join subflow of `env_join_link` added to `w_kex`. -/
def w_join : World :=
  (mpdccp_add_client_conn env_join_link w_kex true (some addr4) 0 (some addr4)).2

/-- Collaborators of a connect that is refused (-ECONNREFUSED); the local
address belongs to link 5. -/
def env_refused : ClientEnv :=
  { create_ret := 0, alloc_ok := true, bind_ret := 0, find_ip4 := some 5, find_ip6 := none,
    fallback := none,
    connect := { ret := -111, sk_state := DccpState.DCCP_CLOSED, mss := 536, kex_done := false,
                 loc_key := 0, rem_key := 0, notify := false } }

/-- Collaborators of a bind that fails (-EADDRINUSE). -/
def env_bind_fail : ClientEnv :=
  { env_pending with bind_ret := -98 }

/-- Collaborators of a listen that fails (-EADDRINUSE); the local address
belongs to link 5. -/
def env_listen_fail : ListenEnv :=
  { create_ret := 0, alloc_ok := true, bind_ret := 0, find_ip4 := some 5, find_ip6 := none,
    fallback := none, listen_ret := -98 }

/-- A server session right after its creation. -/
def w_server : World :=
  init_world ByteOrder.little Role.MPDCCP_SERVER true DccpState.DCCP_LISTEN

/-- Collaborators of the connect of a join subflow over a path with a
maximum segment size of 1200. -/
def env_join_small : ClientEnv :=
  { env_join with
    connect := { env_join.connect with mss := 1200 } }

/-- After the key exchange (meta socket and socket 1 with segment size 1400)
a join subflow with segment size 1200 (socket 2) is added and promoted. -/
def w_small : World :=
  mp_state_change
    (set_state (mpdccp_add_client_conn env_join_small w_kex true (some addr4) 0 (some addr4)).2
      2 DccpState.DCCP_OPEN)
    2

/-- A buffer of 1300 bytes. -/
def big_skb : Skb :=
  { id := 9, len := 1300, dccph_type := PktType.DCCP_PKT_DATA, next := false }

/-- A subflow socket attached by `my_sock_init` and not yet in any list, as
`mpdccp_add_client_conn` has it before the bind. -/
def w_unlinked : World :=
  (my_sock_init true (sock_create w_fresh) 1 0 Role.MPDCCP_CLIENT).2

/-- The `my_sock` of the key-exchange carrier (socket 1) in `w_kex`. -/
def kex_my_sock : MySock :=
  { my_sk_sock := some 1, if_idx := 0, link_info := none, link_cnt := 0,
    link_iscpy := false, closing := false,
    pcb := none, sk_data_ready := some (Callback.orig 0),
    sk_backlog_rcv := some (Callback.orig 1), sk_destruct := some (Callback.orig 2),
    sk_state_change := some (Callback.orig 3) }

/-- The key-exchange carrier (socket 1) in `w_kex`. -/
def kex_sock : Sock :=
  { sk_state := DccpState.DCCP_PARTOPEN, is_kex_sk := false, auth_done := true,
    dccps_mss_cache := 1400, dccps_tx_qlen := 0,
    sk_data_ready := some Callback.listen_data_ready,
    sk_backlog_rcv := some Callback.listen_backlog_rcv,
    sk_destruct := some Callback.my_sock_destruct,
    sk_state_change := some Callback.mp_state_change,
    sk_user_data := some kex_my_sock,
    sk_receive_queue := [], sk_write_queue := [] }

/-- A buffer of 1500 bytes. -/
def jumbo_skb : Skb :=
  { id := 9, len := 1500, dccph_type := PktType.DCCP_PKT_DATA, next := false }

/-- A packet of a type the read path does not handle. -/
def ack_pkt : Skb :=
  { id := 11, len := 0, dccph_type := PktType.DCCP_PKT_ACK, next := false }

/-! ## Theorems -/

/-- The buffer built by `mpdccp_key_sha1` has the specified bytes at every
index of the block, whatever the array held before. -/
theorem key_sha1_input_eq (host : ByteOrder) (key1 key2 : Nat) (stack : Nat → Nat)
    (i : Nat) (hi : i < 64) :
    key_sha1_input host key1 key2 stack i = spec_block host key1 key2 i := by
  unfold key_sha1_input spec_block store_byte memcpy_u64 memset
  by_cases h63 : i = 63
  · subst h63; simp
  by_cases h16 : i = 16
  · subst h16; simp
  by_cases h8 : i < 8
  · have : ¬ (8 ≤ i) := by omega
    simp [h63, h16, h8, this]
  by_cases h16b : i < 16
  · have h1 : 8 ≤ i := by omega
    simp [h63, h16, h8, h1, h16b]
  · have h1 : 8 ≤ i := by omega
    have h2 : 17 ≤ i := by omega
    have h3 : i < 63 := by omega
    have h4 : ¬ (i < 8 + 8) := by omega
    simp [h63, h16, h8, h1, h16b, h2, h3, h4]

/-- The compression function reads only bytes 0..63 of its data argument. -/
theorem sha_transform_congr (digest : List Nat) (d1 d2 : Nat → Nat)
    (h : ∀ i, i < 64 → d1 i = d2 i) :
    sha_transform digest d1 = sha_transform digest d2 := by
  have hr : sha_round d1 = sha_round d2 := by
    funext r t
    have hin : sha_input d1 r.w t = sha_input d2 r.w t := by
      unfold sha_input
      by_cases ht : t < 16
      · simp only [ht, if_true]
        unfold get_unaligned_be32
        rw [h (4 * t) (by omega), h (4 * t + 1) (by omega), h (4 * t + 2) (by omega),
          h (4 * t + 3) (by omega)]
      · simp only [ht, if_false]
    unfold sha_round
    simp only [hin]
  unfold sha_transform
  simp only [hr]

/-- The word `mpdccp_key_sha1` stores is the token of the specification. -/
theorem key_sha1_value (host : ByteOrder) (key1 key2 old : Nat) (stack : Nat → Nat) :
    mpdccp_key_sha1 host key1 key2 (some old) stack = some (spec_token host key1 key2) := by
  unfold mpdccp_key_sha1 spec_token
  dsimp only
  rw [sha_transform_congr sha_init _ _ (key_sha1_input_eq host key1 key2 stack)]

theorem key_token_eq (host : ByteOrder) (key1 key2 : Nat) :
    key_token host key1 key2 = spec_token host key1 key2 := by
  cases host <;>
  · unfold key_token
    dsimp only
    rw [key_sha1_value, Option.getD_some]

/-! ### Projections of the composite updates -/

@[simp] theorem link_put_opt_mpcb (w : World) (l : Option LinkId) :
    (link_put_opt w l).mpcb = w.mpcb := by
  cases l <;> rfl
@[simp] theorem link_put_opt_socks (w : World) (l : Option LinkId) :
    (link_put_opt w l).socks = w.socks := by
  cases l <;> rfl
@[simp] theorem link_put_opt_next_sk (w : World) (l : Option LinkId) :
    (link_put_opt w l).next_sk = w.next_sk := by
  cases l <;> rfl
@[simp] theorem link_put_opt_host (w : World) (l : Option LinkId) :
    (link_put_opt w l).host = w.host := by
  cases l <;> rfl

@[simp] theorem link_lookup_mpcb (w : World) (l : Option LinkId) :
    (link_lookup w l).mpcb = w.mpcb := by
  cases l <;> rfl
@[simp] theorem link_lookup_socks (w : World) (l : Option LinkId) :
    (link_lookup w l).socks = w.socks := by
  cases l <;> rfl
@[simp] theorem link_lookup_next_sk (w : World) (l : Option LinkId) :
    (link_lookup w l).next_sk = w.next_sk := by
  cases l <;> rfl
@[simp] theorem link_lookup_host (w : World) (l : Option LinkId) :
    (link_lookup w l).host = w.host := by
  cases l <;> rfl
@[simp] theorem link_lookup_events (w : World) (l : Option LinkId) :
    (link_lookup w l).events = w.events := by
  cases l <;> rfl

@[simp] theorem add_out_mpcb (w : World) (l : Option LinkId) (ret : Int) :
    (add_out w l ret).mpcb = w.mpcb := by
  unfold add_out
  repeat (first | rfl | split)
@[simp] theorem add_out_socks (w : World) (l : Option LinkId) (ret : Int) :
    (add_out w l ret).socks = w.socks := by
  unfold add_out
  repeat (first | rfl | split)
@[simp] theorem add_out_next_sk (w : World) (l : Option LinkId) (ret : Int) :
    (add_out w l ret).next_sk = w.next_sk := by
  unfold add_out
  repeat (first | rfl | split)
@[simp] theorem add_out_host (w : World) (l : Option LinkId) (ret : Int) :
    (add_out w l ret).host = w.host := by
  unfold add_out
  repeat (first | rfl | split)

@[simp] theorem dccp_done_mpcb (w : World) (sk : SockId) : (dccp_done w sk).mpcb = w.mpcb := by
  unfold dccp_done
  split <;> rfl
@[simp] theorem dccp_done_next_sk (w : World) (sk : SockId) :
    (dccp_done w sk).next_sk = w.next_sk := by
  unfold dccp_done
  split <;> rfl
@[simp] theorem dccp_done_host (w : World) (sk : SockId) : (dccp_done w sk).host = w.host := by
  unfold dccp_done
  split <;> rfl
@[simp] theorem dccp_done_events (w : World) (sk : SockId) :
    (dccp_done w sk).events = w.events ++ [Event.dccp_done sk] := by
  unfold dccp_done
  split <;> rfl
@[simp] theorem dccp_done_link_refs (w : World) (sk : SockId) :
    (dccp_done w sk).link_refs = w.link_refs := by
  unfold dccp_done
  split <;> rfl

@[simp] theorem set_link_mpcb (w : World) (sk : SockId) (l : Option LinkId) :
    (set_link w sk l).mpcb = w.mpcb := by
  unfold set_link
  repeat (first | rfl | split)
@[simp] theorem set_link_next_sk (w : World) (sk : SockId) (l : Option LinkId) :
    (set_link w sk l).next_sk = w.next_sk := by
  unfold set_link
  repeat (first | rfl | split)
@[simp] theorem set_link_host (w : World) (sk : SockId) (l : Option LinkId) :
    (set_link w sk l).host = w.host := by
  unfold set_link
  repeat (first | rfl | split)

@[simp] theorem promote_socks (w : World) (sk : SockId) : (promote w sk).socks = w.socks := by
  unfold promote
  dsimp only
  split <;> rfl
@[simp] theorem promote_next_sk (w : World) (sk : SockId) :
    (promote w sk).next_sk = w.next_sk := by
  unfold promote
  dsimp only
  split <;> rfl
@[simp] theorem promote_host (w : World) (sk : SockId) : (promote w sk).host = w.host := by
  unfold promote
  dsimp only
  split <;> rfl
@[simp] theorem promote_link_refs (w : World) (sk : SockId) :
    (promote w sk).link_refs = w.link_refs := by
  unfold promote
  dsimp only
  split <;> rfl
@[simp] theorem promote_mpcb (w : World) (sk : SockId) :
    (promote w sk).mpcb = cnt_subflows_add (add_tail_subflow (list_del w.mpcb sk) sk) 1 := by
  unfold promote
  dsimp only
  split <;> rfl

@[simp] theorem mp_state_change_socks (w : World) (sk : SockId) :
    (mp_state_change w sk).socks = w.socks := by
  unfold mp_state_change
  repeat (first | rfl | split | exact promote_socks w sk)
@[simp] theorem mp_state_change_next_sk (w : World) (sk : SockId) :
    (mp_state_change w sk).next_sk = w.next_sk := by
  unfold mp_state_change
  repeat (first | rfl | split | exact promote_next_sk w sk)
@[simp] theorem mp_state_change_host (w : World) (sk : SockId) :
    (mp_state_change w sk).host = w.host := by
  unfold mp_state_change
  repeat (first | rfl | split | exact promote_host w sk)
@[simp] theorem mp_state_change_link_refs (w : World) (sk : SockId) :
    (mp_state_change w sk).link_refs = w.link_refs := by
  unfold mp_state_change
  repeat (first | rfl | split | exact promote_link_refs w sk)
@[simp] theorem mp_state_change_kex_done (w : World) (sk : SockId) :
    (mp_state_change w sk).mpcb.kex_done = w.mpcb.kex_done := by
  unfold mp_state_change
  repeat (first | rfl | split | (rw [promote_mpcb]; rfl))
@[simp] theorem mp_state_change_loc_key (w : World) (sk : SockId) :
    (mp_state_change w sk).mpcb.mpdccp_loc_key = w.mpcb.mpdccp_loc_key := by
  unfold mp_state_change
  repeat (first | rfl | split | (rw [promote_mpcb]; rfl))
@[simp] theorem mp_state_change_rem_key (w : World) (sk : SockId) :
    (mp_state_change w sk).mpcb.mpdccp_rem_key = w.mpcb.mpdccp_rem_key := by
  unfold mp_state_change
  repeat (first | rfl | split | (rw [promote_mpcb]; rfl))
@[simp] theorem mp_state_change_meta_sk (w : World) (sk : SockId) :
    (mp_state_change w sk).mpcb.meta_sk = w.mpcb.meta_sk := by
  unfold mp_state_change
  repeat (first | rfl | split | (rw [promote_mpcb]; rfl))
@[simp] theorem mp_state_change_role (w : World) (sk : SockId) :
    (mp_state_change w sk).mpcb.role = w.mpcb.role := by
  unfold mp_state_change
  repeat (first | rfl | split | (rw [promote_mpcb]; rfl))

@[simp] theorem meta_open_mpcb (w : World) (mss : Nat) : (meta_open w mss).mpcb = w.mpcb := by
  unfold meta_open
  repeat (first | rfl | split)
@[simp] theorem meta_open_host (w : World) (mss : Nat) : (meta_open w mss).host = w.host := by
  unfold meta_open
  repeat (first | rfl | split)
@[simp] theorem meta_open_next_sk (w : World) (mss : Nat) :
    (meta_open w mss).next_sk = w.next_sk := by
  unfold meta_open
  repeat (first | rfl | split)

/-- The key-exchange flag of the socket at `sk`, if there is one. -/
theorem set_link_kex_flag (w : World) (sk : SockId) (l : Option LinkId) :
    ((set_link w sk l).socks sk).map Sock.is_kex_sk = (w.socks sk).map Sock.is_kex_sk := by
  unfold set_link
  split
  · rfl
  · rename_i s hs
    split
    · rfl
    · simp [hs]

theorem kernel_connect_kex (w : World) (sk : SockId) (o : ConnectOutcome) (s : Sock)
    (hs : w.socks sk = some s) :
    ((kernel_connect w sk o).socks sk).map Sock.is_kex_sk = some s.is_kex_sk ∧
    (kernel_connect w sk o).mpcb.kex_done = o.kex_done ∧
    (kernel_connect w sk o).mpcb.mpdccp_loc_key = o.loc_key % 18446744073709551616 ∧
    (kernel_connect w sk o).mpcb.mpdccp_rem_key = o.rem_key % 18446744073709551616 ∧
    (kernel_connect w sk o).host = w.host := by
  unfold kernel_connect
  rw [hs]
  dsimp only
  split <;> simp

theorem kex_complete_tokens (w : World) (sk : SockId)
    (hk : (w.socks sk).map Sock.is_kex_sk = some true) (hd : w.mpcb.kex_done = true) :
    (kex_complete w sk).mpcb.mpdccp_loc_token =
        key_token w.host w.mpcb.mpdccp_loc_key w.mpcb.mpdccp_rem_key ∧
    (kex_complete w sk).mpcb.mpdccp_rem_token =
        key_token w.host w.mpcb.mpdccp_rem_key w.mpcb.mpdccp_loc_key ∧
    (kex_complete w sk).mpcb.mpdccp_loc_key = w.mpcb.mpdccp_loc_key ∧
    (kex_complete w sk).mpcb.mpdccp_rem_key = w.mpcb.mpdccp_rem_key ∧
    (kex_complete w sk).host = w.host := by
  unfold kex_complete
  cases hs : w.socks sk with
  | none => rw [hs] at hk; cases hk
  | some s =>
    rw [hs] at hk
    have hk2 : s.is_kex_sk = true := by simpa using hk
    simp [hk2, hd]

theorem my_sock_init_create (w : World) (if_idx : Int) (role : Role) :
    (my_sock_init true (sock_create w) w.next_sk if_idx role).1 = 0 ∧
    ((my_sock_init true (sock_create w) w.next_sk if_idx role).2.socks w.next_sk).map
        Sock.is_kex_sk = some (if w.mpcb.kex_done = false then true else false) ∧
    (my_sock_init true (sock_create w) w.next_sk if_idx role).2.mpcb = w.mpcb ∧
    (my_sock_init true (sock_create w) w.next_sk if_idx role).2.host = w.host := by
  unfold my_sock_init
  simp [fresh_sock]

theorem client_connect_tokens (env : ClientEnv) (w : World) (sk : SockId) (family : Nat)
    (hconn : 0 ≤ env.connect.ret ∨ env.connect.ret = -EINPROGRESS)
    (hk : (w.socks sk).map Sock.is_kex_sk = some true) (hkex : env.connect.kex_done = true) :
    (client_connect env w sk family).1 = env.connect.ret ∧
    (client_connect env w sk family).2.mpcb.mpdccp_loc_key =
      env.connect.loc_key % 18446744073709551616 ∧
    (client_connect env w sk family).2.mpcb.mpdccp_rem_key =
      env.connect.rem_key % 18446744073709551616 ∧
    (client_connect env w sk family).2.mpcb.mpdccp_loc_token =
      key_token w.host (env.connect.loc_key % 18446744073709551616)
        (env.connect.rem_key % 18446744073709551616) ∧
    (client_connect env w sk family).2.mpcb.mpdccp_rem_token =
      key_token w.host (env.connect.rem_key % 18446744073709551616)
        (env.connect.loc_key % 18446744073709551616) ∧
    (client_connect env w sk family).2.host = w.host := by
  have hnf : ¬ (env.connect.ret < 0 ∧ env.connect.ret ≠ -EINPROGRESS) := by
    rcases hconn with h | h
    · intro hh; omega
    · intro hh; exact hh.2 h
  unfold client_connect
  dsimp only
  rw [if_neg hnf]
  dsimp only
  generalize find_link family env.find_ip4 env.find_ip6 env.fallback = link
  have h3 : ((set_mpcb (set_link (link_lookup w link) sk link)
      (add_tail_request (set_link (link_lookup w link) sk link).mpcb sk)).socks sk).map
        Sock.is_kex_sk = some true := by
    rw [set_mpcb_socks, set_link_kex_flag, link_lookup_socks]
    exact hk
  have h3h : (set_mpcb (set_link (link_lookup w link) sk link)
      (add_tail_request (set_link (link_lookup w link) sk link).mpcb sk)).host = w.host := by
    rw [set_mpcb_host, set_link_host, link_lookup_host]
  generalize set_mpcb (set_link (link_lookup w link) sk link)
      (add_tail_request (set_link (link_lookup w link) sk link).mpcb sk) = w4 at h3 h3h ⊢
  cases hs4 : w4.socks sk with
  | none => rw [hs4] at h3; cases h3
  | some s4 =>
    rw [hs4] at h3
    have hk4 : s4.is_kex_sk = true := by simpa using h3
    obtain ⟨c1, c2, c3, c4, c5⟩ := kernel_connect_kex w4 sk env.connect s4 hs4
    rw [hk4] at c1
    rw [hkex] at c2
    obtain ⟨t1, t2, t3, t4, t5⟩ := kex_complete_tokens (kernel_connect w4 sk env.connect) sk c1 c2
    rw [add_out_mpcb, add_out_host, t1, t2, t3, t4, t5, c3, c4, c5, h3h]
    exact ⟨rfl, rfl, rfl, rfl, rfl, rfl⟩

/-! ### C1 -/

/-- C1: for every pair of keys and every non-null destination,
`mpdccp_key_sha1` stores the first word of one SHA-1 compression, from the
standard initial state, of the block with key1 in bytes 0..7, key2 in bytes
8..15, 0x80 in byte 16, zeros in bytes 17..62 and 0x80 in byte 63; the stored
word depends on nothing but the two keys (not on the previous content of the
destination nor on what the stack array held). -/
theorem mpdccp_key_sha1_spec (host : ByteOrder) (key1 key2 old : Nat) (stack : Nat → Nat) :
    mpdccp_key_sha1 host key1 key2 (some old) stack = some (spec_token host key1 key2) :=
  key_sha1_value host key1 key2 old stack

/-! ### C2 -/

/-- A 64-bit value is determined by the eight bytes of its memory image. -/
theorem u64_byte_inj (host : ByteOrder) (a b : Nat) (ha : a < 18446744073709551616)
    (hb : b < 18446744073709551616) (h : ∀ i, i < 8 → u64_byte host a i = u64_byte host b i) :
    a = b := by
  have h0 := h 0 (by omega)
  have h1 := h 1 (by omega)
  have h2 := h 2 (by omega)
  have h3 := h 3 (by omega)
  have h4 := h 4 (by omega)
  have h5 := h 5 (by omega)
  have h6 := h 6 (by omega)
  have h7 := h 7 (by omega)
  cases host <;>
    simp only [u64_byte, Nat.shiftRight_eq_div_pow] at h0 h1 h2 h3 h4 h5 h6 h7 <;>
    norm_num at h0 h1 h2 h3 h4 h5 h6 h7 <;>
    omega

/-- The tokens of the seed keys 01..08 and 09..10 in the two orders. -/
theorem seed_tokens :
    key_token ByteOrder.little 0x0807060504030201 0x100f0e0d0c0b0a09 = 0x2cc42983 ∧
    key_token ByteOrder.little 0x100f0e0d0c0b0a09 0x0807060504030201 = 0xe055999e := by
  set_option maxRecDepth 100000 in decide

/-- C2 as stated fails: the little-endian keys 4142 and 126541 are different
and give the same token, 0xe07c6db7, in both orders (and so do the big-endian
keys with the same memory images). -/
theorem key_sha1_swap_collision :
    (4142 : Nat) ≠ 126541 ∧
    mpdccp_key_sha1 ByteOrder.little 4142 126541 (some 0) (fun _ => 0) = some 0xe07c6db7 ∧
    mpdccp_key_sha1 ByteOrder.little 126541 4142 (some 0) (fun _ => 0) = some 0xe07c6db7 ∧
    mpdccp_key_sha1 ByteOrder.big 0x2e10000000000000 0x4dee010000000000 (some 0) (fun _ => 0) =
      mpdccp_key_sha1 ByteOrder.big 0x4dee010000000000 0x2e10000000000000 (some 0) (fun _ => 0) := by
  set_option maxRecDepth 100000 in decide

/-- C2, amended: the derivation is sensitive to the order of the keys but not
injective.  For 64-bit keys A, B with A different from B the block hashed for
(A, B) differs from the block hashed for (B, A) in one of its first eight
bytes, and the seed keys 01..08 and 09..10 give different tokens in the two
orders. -/
theorem key_sha1_order_sensitive (host : ByteOrder) (a b : Nat) (stack : Nat → Nat)
    (ha : a < 18446744073709551616) (hb : b < 18446744073709551616) (hne : a ≠ b) :
    (∃ i, i < 8 ∧ key_sha1_input host a b stack i ≠ key_sha1_input host b a stack i) ∧
    key_token ByteOrder.little 0x0807060504030201 0x100f0e0d0c0b0a09 ≠
      key_token ByteOrder.little 0x100f0e0d0c0b0a09 0x0807060504030201 := by
  constructor
  · by_contra hall
    apply hne
    apply u64_byte_inj host a b ha hb
    intro i hi
    have h1 := key_sha1_input_eq host a b stack i (by omega)
    have h2 := key_sha1_input_eq host b a stack i (by omega)
    have h3 : key_sha1_input host a b stack i = key_sha1_input host b a stack i := by
      by_contra hne2
      exact hall ⟨i, hi, hne2⟩
    rw [h1, h2] at h3
    simpa [spec_block, hi] using h3
  · rw [seed_tokens.1, seed_tokens.2]
    decide

theorem key_sha1_order_sensitive_witness :
    (∃ i, i < 8 ∧ key_sha1_input ByteOrder.little 1 2 (fun _ => 0) i ≠
        key_sha1_input ByteOrder.little 2 1 (fun _ => 0) i) ∧
    key_token ByteOrder.little 0x0807060504030201 0x100f0e0d0c0b0a09 ≠
      key_token ByteOrder.little 0x100f0e0d0c0b0a09 0x0807060504030201 :=
  key_sha1_order_sensitive ByteOrder.little 1 2 (fun _ => 0) (by decide) (by decide) (by decide)

/-! ### C3 -/

/-- C3: when `mpdccp_add_client_conn` completes the connect (result 0 or
positive, or in progress) of the key-exchange carrier (the subflow created
while the key exchange of the session was not done) and the key exchange is
done when the connect returns, the session afterwards holds
`local_token = mpdccp_key_sha1 (local_key, remote_key)` and
`remote_token = mpdccp_key_sha1 (remote_key, local_key)` for the keys it has
stored, whatever they are. -/
theorem add_client_conn_tokens (env : ClientEnv) (w : World) (la ra : SockAddr) (if_idx : Int)
    (old : Nat) (stack : Nat → Nat)
    (hrole : w.mpcb.role = Role.MPDCCP_CLIENT) (hcreate : 0 ≤ env.create_ret)
    (halloc : env.alloc_ok = true) (hbind : 0 ≤ env.bind_ret)
    (hconn : 0 ≤ env.connect.ret ∨ env.connect.ret = -EINPROGRESS)
    (hcarrier : w.mpcb.kex_done = false) (hkex : env.connect.kex_done = true) :
    (mpdccp_add_client_conn env w true (some la) if_idx (some ra)).1 = env.connect.ret ∧
    mpdccp_key_sha1 w.host
        (mpdccp_add_client_conn env w true (some la) if_idx (some ra)).2.mpcb.mpdccp_loc_key
        (mpdccp_add_client_conn env w true (some la) if_idx (some ra)).2.mpcb.mpdccp_rem_key
        (some old) stack =
      some (mpdccp_add_client_conn env w true (some la) if_idx (some ra)).2.mpcb.mpdccp_loc_token ∧
    mpdccp_key_sha1 w.host
        (mpdccp_add_client_conn env w true (some la) if_idx (some ra)).2.mpcb.mpdccp_rem_key
        (mpdccp_add_client_conn env w true (some la) if_idx (some ra)).2.mpcb.mpdccp_loc_key
        (some old) stack =
      some (mpdccp_add_client_conn env w true (some la) if_idx (some ra)).2.mpcb.mpdccp_rem_token ∧
    (mpdccp_add_client_conn env w true (some la) if_idx (some ra)).2.mpcb.mpdccp_loc_key =
      env.connect.loc_key % 18446744073709551616 ∧
    (mpdccp_add_client_conn env w true (some la) if_idx (some ra)).2.mpcb.mpdccp_rem_key =
      env.connect.rem_key % 18446744073709551616 := by
  obtain ⟨i1, i2, i3, i4⟩ := my_sock_init_create w if_idx Role.MPDCCP_CLIENT
  rw [hcarrier] at i2
  have hc : ¬ (env.create_ret < 0) := by omega
  have hb : ¬ (env.bind_ret < 0) := by omega
  have hrun : mpdccp_add_client_conn env w true (some la) if_idx (some ra) =
      client_connect env (my_sock_init true (sock_create w) w.next_sk if_idx
        Role.MPDCCP_CLIENT).2 w.next_sk la.sa_family := by
    unfold mpdccp_add_client_conn
    dsimp only
    rw [if_neg (by rw [hrole]; exact fun h => h rfl), if_neg hc, halloc, i1,
      if_neg (by decide), if_neg hb]
  obtain ⟨t0, t1, t2, t3, t4, _⟩ := client_connect_tokens env _ w.next_sk la.sa_family hconn i2 hkex
  rw [hrun, t1, t2, t3, t4, t0, i4, key_sha1_value, key_sha1_value, key_token_eq, key_token_eq]
  exact ⟨rfl, rfl, rfl, rfl, rfl⟩

/-- A client session whose first connect completes the key exchange. -/
theorem add_client_conn_tokens_witness :
    (mpdccp_add_client_conn
        { create_ret := 0, alloc_ok := true, bind_ret := 0, find_ip4 := none, find_ip6 := none,
          fallback := none,
          connect := { ret := 0, sk_state := DccpState.DCCP_PARTOPEN, mss := 1400,
                       kex_done := true, loc_key := 4142, rem_key := 126541, notify := true } }
        (init_world ByteOrder.little Role.MPDCCP_CLIENT true DccpState.DCCP_REQUESTING)
        true (some ⟨2⟩) 0 (some ⟨2⟩)).1 = 0 :=
  (add_client_conn_tokens _ _ ⟨2⟩ ⟨2⟩ 0 0 (fun _ => 0) (by decide) (by decide) (by decide)
    (by decide) (Or.inl (by decide)) (by decide) (by decide)).1

/-! ### Membership lists -/

theorem linked_iff (m : Mpcb) (sk : SockId) :
    linked m sk = true ↔ sk ∈ m.prequest_list ++ m.plisten_list ++ m.psubflow_list := by
  unfold linked
  simp only [Bool.or_eq_true, decide_eq_true_eq, List.mem_append]
  tauto

theorem nodup3_erase (a b c : List SockId) (sk : SockId) (h : (a ++ b ++ c).Nodup) :
    (a.erase sk ++ b.erase sk ++ c.erase sk).Nodup ∧
    sk ∉ a.erase sk ++ b.erase sk ++ c.erase sk ∧
    ∀ x, x ∈ a.erase sk ++ b.erase sk ++ c.erase sk → x ∈ a ++ b ++ c := by
  rw [List.nodup_append, List.nodup_append] at h
  obtain ⟨⟨ha, hb, hab⟩, hc, habc⟩ := h
  refine ⟨?_, ?_, ?_⟩
  · rw [List.nodup_append, List.nodup_append]
    refine ⟨⟨ha.erase sk, hb.erase sk, ?_⟩, hc.erase sk, ?_⟩
    · intro x hx1 hx2
      exact hab (List.mem_of_mem_erase hx1) (List.mem_of_mem_erase hx2)
    · intro x hx1 hx2
      apply habc _ (List.mem_of_mem_erase hx2)
      rcases List.mem_append.1 hx1 with h | h
      · exact List.mem_append.2 (Or.inl (List.mem_of_mem_erase h))
      · exact List.mem_append.2 (Or.inr (List.mem_of_mem_erase h))
  · intro hmem
    rcases List.mem_append.1 hmem with h | h
    · rcases List.mem_append.1 h with h | h
      · exact (List.Nodup.mem_erase_iff ha).1 h |>.1 rfl
      · exact (List.Nodup.mem_erase_iff hb).1 h |>.1 rfl
    · exact (List.Nodup.mem_erase_iff hc).1 h |>.1 rfl
  · intro x hx
    rcases List.mem_append.1 hx with h | h
    · rcases List.mem_append.1 h with h | h
      · exact List.mem_append.2 (Or.inl (List.mem_append.2 (Or.inl (List.mem_of_mem_erase h))))
      · exact List.mem_append.2 (Or.inl (List.mem_append.2 (Or.inr (List.mem_of_mem_erase h))))
    · exact List.mem_append.2 (Or.inr (List.mem_of_mem_erase h))

theorem listsOk_list_del (m : Mpcb) (n : Nat) (sk : SockId) (h : ListsOk m n) :
    ListsOk (list_del m sk) n ∧
    sk ∉ (list_del m sk).prequest_list ++ (list_del m sk).plisten_list ++
      (list_del m sk).psubflow_list := by
  obtain ⟨h1, h2, h3⟩ := nodup3_erase m.prequest_list m.plisten_list m.psubflow_list sk h.1
  exact ⟨⟨h1, fun x hx => h.2 x (h3 x hx)⟩, h2⟩

theorem listsOk_mono (m : Mpcb) (n k : Nat) (h : ListsOk m n) (hk : n ≤ k) : ListsOk m k :=
  ⟨h.1, fun x hx => Nat.lt_of_lt_of_le (h.2 x hx) hk⟩

theorem listsOk_congr (m m2 : Mpcb) (n : Nat) (h : ListsOk m n)
    (h1 : m2.prequest_list = m.prequest_list) (h2 : m2.plisten_list = m.plisten_list)
    (h3 : m2.psubflow_list = m.psubflow_list) : ListsOk m2 n := by
  unfold ListsOk
  rw [h1, h2, h3]
  exact h

theorem listsOk_add_tail_subflow (m : Mpcb) (n : Nat) (sk : SockId) (h : ListsOk m n)
    (hlt : sk < n) (hnew : sk ∉ m.prequest_list ++ m.plisten_list ++ m.psubflow_list) :
    ListsOk (add_tail_subflow m sk) n := by
  unfold ListsOk
  simp only [add_tail_subflow_prequest_list, add_tail_subflow_plisten_list,
    add_tail_subflow_psubflow_list, ← List.append_assoc]
  constructor
  · rw [List.nodup_append]
    refine ⟨h.1, List.nodup_singleton sk, ?_⟩
    intro x hx hx2
    rw [List.mem_singleton] at hx2
    exact hnew (hx2 ▸ hx)
  · intro x hx
    rcases List.mem_append.1 hx with hx | hx
    · exact h.2 x hx
    · rw [List.mem_singleton] at hx
      exact hx ▸ hlt

theorem listsOk_add_tail_request (m : Mpcb) (n : Nat) (sk : SockId) (h : ListsOk m n)
    (hlt : sk < n) (hnew : sk ∉ m.prequest_list ++ m.plisten_list ++ m.psubflow_list) :
    ListsOk (add_tail_request m sk) n := by
  have hp : (m.prequest_list ++ [sk] ++ m.plisten_list ++ m.psubflow_list).Perm
      (m.prequest_list ++ m.plisten_list ++ m.psubflow_list ++ [sk]) := by
    simp only [List.append_assoc]
    apply List.Perm.append_left
    exact List.perm_append_comm.trans (by simp only [List.append_assoc]; exact List.Perm.refl _)
  have hok := listsOk_add_tail_subflow m n sk h hlt hnew
  unfold ListsOk at hok ⊢
  simp only [add_tail_subflow_prequest_list, add_tail_subflow_plisten_list,
    add_tail_subflow_psubflow_list, ← List.append_assoc] at hok
  simp only [add_tail_request_prequest_list, add_tail_request_plisten_list,
    add_tail_request_psubflow_list]
  exact ⟨hp.nodup_iff.2 hok.1, fun x hx => hok.2 x (hp.mem_iff.1 hx)⟩

theorem listsOk_add_tail_listen (m : Mpcb) (n : Nat) (sk : SockId) (h : ListsOk m n)
    (hlt : sk < n) (hnew : sk ∉ m.prequest_list ++ m.plisten_list ++ m.psubflow_list) :
    ListsOk (add_tail_listen m sk) n := by
  have hp : (m.prequest_list ++ (m.plisten_list ++ [sk]) ++ m.psubflow_list).Perm
      (m.prequest_list ++ m.plisten_list ++ m.psubflow_list ++ [sk]) := by
    simp only [List.append_assoc]
    apply List.Perm.append_left
    apply List.Perm.append_left
    exact List.perm_append_comm
  have hok := listsOk_add_tail_subflow m n sk h hlt hnew
  unfold ListsOk at hok ⊢
  simp only [add_tail_subflow_prequest_list, add_tail_subflow_plisten_list,
    add_tail_subflow_psubflow_list, ← List.append_assoc] at hok
  simp only [add_tail_listen_prequest_list, add_tail_listen_plisten_list,
    add_tail_listen_psubflow_list]
  exact ⟨hp.nodup_iff.2 hok.1, fun x hx => hok.2 x (hp.mem_iff.1 hx)⟩

/-! ### Preservation of the invariant -/

@[simp] theorem log_socks_eq (w : World) (e : Event) : (log w e).socks = w.socks := rfl
@[simp] theorem set_mpcb_socks_eq (w : World) (m : Mpcb) : (set_mpcb w m).socks = w.socks := rfl
@[simp] theorem link_put_socks_eq (w : World) (l : LinkId) :
    (mpdccp_link_put w l).socks = w.socks := rfl

theorem noNew_refl (w : World) : NoNew w w := ⟨rfl, fun _ h => h⟩

theorem noNew_trans (w w2 w3 : World) (h1 : NoNew w w2) (h2 : NoNew w2 w3) : NoNew w w3 :=
  ⟨h2.1.trans h1.1, fun x hx => h2.2 x (h1.2 x hx)⟩

theorem noNew_of_socks (w w2 : World) (hn : w2.next_sk = w.next_sk) (hs : w2.socks = w.socks) :
    NoNew w w2 :=
  ⟨hn, fun x hx => by rw [hs]; exact hx⟩

theorem noNew_set_sock (w : World) (sk : SockId) (s0 s : Sock) (h : w.socks sk = some s0) :
    NoNew w (set_sock w sk s) := by
  refine ⟨rfl, fun x hx => ?_⟩
  have hne : x ≠ sk := by
    intro he
    rw [he, h] at hx
    cases hx
  simp [set_sock, hne, hx]

theorem inv_of_noNew (w w2 : World) (h : Inv w) (hn : NoNew w w2)
    (hl : ListsOk w2.mpcb w.next_sk) : Inv w2 := by
  refine ⟨by rw [hn.1]; exact hl, fun x hx => hn.2 x (h.2 x (by rw [hn.1] at hx; exact hx))⟩

theorem noNew_dccp_done (w : World) (sk : SockId) : NoNew w (dccp_done w sk) := by
  unfold dccp_done
  split
  · rename_i s hs
    exact noNew_trans _ _ _ (noNew_of_socks w (log w (Event.dccp_done sk)) rfl rfl)
      (noNew_set_sock _ sk s _ hs)
  · exact noNew_of_socks _ _ rfl rfl

theorem noNew_destruct_cascade (w : World) : NoNew w (destruct_cascade w) := by
  unfold destruct_cascade
  repeat (first | exact noNew_refl w | exact noNew_dccp_done w _ | split)

@[simp] theorem destruct_cascade_mpcb (w : World) : (destruct_cascade w).mpcb = w.mpcb := by
  unfold destruct_cascade
  repeat (first | rfl | exact dccp_done_mpcb w _ | split)

@[simp] theorem destruct_cascade_host (w : World) : (destruct_cascade w).host = w.host := by
  unfold destruct_cascade
  repeat (first | rfl | exact dccp_done_host w _ | split)

@[simp] theorem destruct_unlink_socks (w : World) (sk : SockId) (l : Option LinkId) :
    (destruct_unlink w sk l).socks = w.socks := by
  unfold destruct_unlink
  split
  · simp
  · rfl

@[simp] theorem destruct_unlink_next_sk (w : World) (sk : SockId) (l : Option LinkId) :
    (destruct_unlink w sk l).next_sk = w.next_sk := by
  unfold destruct_unlink
  split
  · simp
  · rfl

@[simp] theorem destruct_unlink_host (w : World) (sk : SockId) (l : Option LinkId) :
    (destruct_unlink w sk l).host = w.host := by
  unfold destruct_unlink
  split
  · simp
  · rfl

@[simp] theorem destruct_finish_mpcb (w : World) (sk : SockId) (cb : Option Callback) :
    (destruct_finish w sk cb).mpcb = w.mpcb := by
  unfold destruct_finish
  split
  · rfl
  · exact destruct_cascade_mpcb _
  · exact destruct_cascade_mpcb _

theorem noNew_destruct_finish (w : World) (sk : SockId) (cb : Option Callback) :
    NoNew w (destruct_finish w sk cb) := by
  unfold destruct_finish
  split
  · exact noNew_of_socks _ _ rfl rfl
  · exact noNew_trans _ _ _ (noNew_of_socks w (log w _) rfl rfl) (noNew_destruct_cascade _)
  · exact noNew_destruct_cascade _

theorem destruct_unlink_mpcb (w : World) (sk : SockId) (l : Option LinkId) :
    (destruct_unlink w sk l).mpcb =
      if linked w.mpcb sk = true then cnt_subflows_add (list_del w.mpcb sk) (-1) else w.mpcb := by
  unfold destruct_unlink
  split
  · simp
  · rfl

/-- The control block after `my_sock_destruct`. -/
theorem my_sock_destruct_mpcb (w : World) (sk : SockId) :
    (my_sock_destruct w sk).mpcb =
      if attached w sk = true ∧ linked w.mpcb sk = true then
        cnt_subflows_add (list_del w.mpcb sk) (-1)
      else w.mpcb := by
  unfold my_sock_destruct attached
  cases hs : w.socks sk with
  | none => simp
  | some s =>
    cases hu : s.sk_user_data with
    | none => simp [hu]
    | some my_sk =>
      simp only [hu, Option.isSome_some, true_and]
      rw [destruct_finish_mpcb]
      cases my_sk.pcb <;> simp [destruct_unlink_mpcb]

theorem noNew_my_sock_destruct (w : World) (sk : SockId) : NoNew w (my_sock_destruct w sk) := by
  unfold my_sock_destruct
  cases hs : w.socks sk with
  | none => exact noNew_refl w
  | some s =>
    dsimp only
    cases hu : s.sk_user_data with
    | none => exact noNew_of_socks _ _ rfl rfl
    | some my_sk =>
      dsimp only
      refine noNew_trans _ _ _ ?_ (noNew_destruct_finish _ _ _)
      have h1 : NoNew w (set_sock (destruct_unlink (log w (Event.report_destroy sk)) sk
          my_sk.link_info) sk (destruct_restore s my_sk)) := by
        refine noNew_trans w (destruct_unlink (log w (Event.report_destroy sk)) sk
          my_sk.link_info) _ (noNew_of_socks _ _ (by simp) (by simp)) ?_
        exact noNew_set_sock _ sk s _ (by simp [hs])
      cases my_sk.pcb
      · exact h1
      · exact noNew_trans _ _ _ h1 (noNew_of_socks _ _ rfl rfl)

theorem listsOk_my_sock_destruct (w : World) (sk : SockId) (n : Nat) (h : ListsOk w.mpcb n) :
    ListsOk (my_sock_destruct w sk).mpcb n := by
  rw [my_sock_destruct_mpcb]
  split
  · exact listsOk_congr _ _ n (listsOk_list_del w.mpcb n sk h).1 rfl rfl rfl
  · exact h

theorem inv_my_sock_destruct (w : World) (sk : SockId) (h : Inv w) :
    Inv (my_sock_destruct w sk) :=
  inv_of_noNew w _ h (noNew_my_sock_destruct w sk) (listsOk_my_sock_destruct w sk _ h.1)

theorem sock_release_cases (w : World) (sk : SockId) :
    sock_release w sk = my_sock_destruct w sk ∨ sock_release w sk = w ∨
      ∃ cb, sock_release w sk = log w (Event.sk_destruct_call sk cb) := by
  unfold sock_release
  split
  · exact Or.inr (Or.inl rfl)
  · split
    · exact Or.inl rfl
    · exact Or.inr (Or.inr ⟨_, rfl⟩)
    · exact Or.inr (Or.inl rfl)

theorem inv_sock_release (w : World) (sk : SockId) (h : Inv w) : Inv (sock_release w sk) := by
  rcases sock_release_cases w sk with h1 | h1 | ⟨cb, h1⟩
  · rw [h1]; exact inv_my_sock_destruct w sk h
  · rw [h1]; exact h
  · rw [h1]; exact h

theorem inv_promote (w : World) (sk : SockId) (h : Inv w) (hlt : sk < w.next_sk) :
    Inv (promote w sk) := by
  refine inv_of_noNew w _ h (noNew_of_socks _ _ (by simp) (by simp)) ?_
  rw [promote_mpcb]
  obtain ⟨h1, h2⟩ := listsOk_list_del w.mpcb w.next_sk sk h.1
  exact listsOk_congr _ _ _ (listsOk_add_tail_subflow _ _ sk h1 hlt h2) rfl rfl rfl

theorem inv_mp_state_change (w : World) (sk : SockId) (h : Inv w) :
    Inv (mp_state_change w sk) := by
  unfold mp_state_change
  cases hs : w.socks sk with
  | none => exact h
  | some s =>
    have hlt : sk < w.next_sk := by
      by_contra hge
      have := h.2 sk (Nat.le_of_not_lt hge)
      rw [hs] at this
      cases this
    dsimp only
    repeat (first | exact h | exact inv_promote w sk h hlt | split)

theorem inv_log (w : World) (e : Event) (h : Inv w) : Inv (log w e) := h

theorem inv_set_sock (w : World) (sk : SockId) (s0 s : Sock) (h : Inv w)
    (hs : w.socks sk = some s0) : Inv (set_sock w sk s) :=
  inv_of_noNew w _ h (noNew_set_sock w sk s0 s hs) h.1

theorem inv_set_mpcb (w : World) (m : Mpcb) (h : Inv w) (hm : ListsOk m w.next_sk) :
    Inv (set_mpcb w m) :=
  ⟨hm, h.2⟩

theorem inv_link_put (w : World) (l : LinkId) (h : Inv w) : Inv (mpdccp_link_put w l) := h

theorem inv_link_lookup (w : World) (l : Option LinkId) (h : Inv w) : Inv (link_lookup w l) := by
  cases l
  · exact h
  · exact h

theorem inv_add_out (w : World) (l : Option LinkId) (ret : Int) (h : Inv w) :
    Inv (add_out w l ret) := by
  unfold add_out
  repeat (first | exact h | exact inv_link_put w _ h | split)

theorem inv_set_link (w : World) (sk : SockId) (l : Option LinkId) (h : Inv w) :
    Inv (set_link w sk l) := by
  unfold set_link
  split
  · exact h
  · rename_i s hs
    split
    · exact h
    · exact inv_set_sock w sk s _ h hs

theorem inv_meta_open (w : World) (mss : Nat) (h : Inv w) : Inv (meta_open w mss) := by
  unfold meta_open
  split
  · exact h
  · split
    · exact h
    · rename_i ms hms
      exact inv_set_sock w _ ms _ h hms

theorem inv_kex_complete (w : World) (sk : SockId) (h : Inv w) : Inv (kex_complete w sk) := by
  unfold kex_complete
  split
  · exact h
  · rename_i s hs
    split
    · dsimp only
      apply inv_meta_open
      apply inv_set_mpcb
      · exact inv_set_sock w sk s _ h hs
      · exact listsOk_congr _ _ _ h.1 rfl rfl rfl
    · exact h

theorem inv_kernel_connect (w : World) (sk : SockId) (o : ConnectOutcome) (h : Inv w) :
    Inv (kernel_connect w sk o) := by
  unfold kernel_connect
  split
  · exact h
  · rename_i s hs
    dsimp only
    have h2 : Inv (set_mpcb (set_sock w sk { s with sk_state := o.sk_state, dccps_mss_cache := o.mss })
        (set_kex (set_sock w sk { s with sk_state := o.sk_state, dccps_mss_cache := o.mss }).mpcb
          o.kex_done (o.loc_key % 18446744073709551616) (o.rem_key % 18446744073709551616))) := by
      apply inv_set_mpcb
      · exact inv_set_sock w sk s _ h hs
      · exact listsOk_congr _ _ _ h.1 rfl rfl rfl
    split
    · exact inv_mp_state_change _ sk h2
    · exact h2

theorem inv_my_sock_init (a : Bool) (w : World) (sk : SockId) (i : Int) (r : Role) (h : Inv w) :
    Inv (my_sock_init a w sk i r).2 := by
  unfold my_sock_init
  split
  · exact h
  · split
    · exact h
    · rename_i s hs
      exact inv_set_sock w sk s _ h hs

@[simp] theorem my_sock_init_mpcb (a : Bool) (w : World) (sk : SockId) (i : Int) (r : Role) :
    (my_sock_init a w sk i r).2.mpcb = w.mpcb := by
  unfold my_sock_init
  repeat (first | rfl | split)

@[simp] theorem my_sock_init_next_sk (a : Bool) (w : World) (sk : SockId) (i : Int) (r : Role) :
    (my_sock_init a w sk i r).2.next_sk = w.next_sk := by
  unfold my_sock_init
  repeat (first | rfl | split)

theorem inv_sock_create (w : World) (h : Inv w) : Inv (sock_create w) := by
  refine ⟨listsOk_mono _ _ _ h.1 (Nat.le_succ _), ?_⟩
  intro x hx
  have hx2 : w.next_sk + 1 ≤ x := hx
  have hne : x ≠ w.next_sk := Nat.ne_of_gt (Nat.lt_of_succ_le hx2)
  simp only [sock_create_socks, hne, if_false]
  exact h.2 x (Nat.le_of_succ_le hx2)

theorem inv_client_connect (env : ClientEnv) (w : World) (sk : SockId) (family : Nat)
    (h : Inv w) (hlt : sk < w.next_sk)
    (hnew : sk ∉ w.mpcb.prequest_list ++ w.mpcb.plisten_list ++ w.mpcb.psubflow_list) :
    Inv (client_connect env w sk family).2 := by
  unfold client_connect
  dsimp only
  generalize find_link family env.find_ip4 env.find_ip6 env.fallback = link
  have h3 : Inv (set_link (link_lookup w link) sk link) :=
    inv_set_link _ sk link (inv_link_lookup w link h)
  have h4 : Inv (set_mpcb (set_link (link_lookup w link) sk link)
      (add_tail_request (set_link (link_lookup w link) sk link).mpcb sk)) := by
    apply inv_set_mpcb _ _ h3
    apply listsOk_add_tail_request
    · exact h3.1
    · simpa using hlt
    · simpa using hnew
  have h5 := inv_kernel_connect _ sk env.connect h4
  split
  · exact inv_add_out _ _ _ (inv_sock_release _ sk h5)
  · exact inv_add_out _ _ _ (inv_kex_complete _ sk h5)

theorem fresh_not_listed (w : World) (h : Inv w) :
    w.next_sk ∉ w.mpcb.prequest_list ++ w.mpcb.plisten_list ++ w.mpcb.psubflow_list :=
  fun hm => Nat.lt_irrefl _ (h.1.2 _ hm)

theorem inv_add_client_conn (env : ClientEnv) (w : World) (mpcb : Bool)
    (la : Option SockAddr) (if_idx : Int) (ra : Option SockAddr) (h : Inv w) :
    Inv (mpdccp_add_client_conn env w mpcb la if_idx ra).2 := by
  have hi : Inv (my_sock_init env.alloc_ok (sock_create w) w.next_sk if_idx
      Role.MPDCCP_CLIENT).2 := inv_my_sock_init _ _ _ _ _ (inv_sock_create w h)
  unfold mpdccp_add_client_conn
  split
  · dsimp only
    split
    · exact h
    · split
      · exact h
      · split
        · exact inv_sock_release _ _ hi
        · split
          · exact inv_sock_release _ _ hi
          · apply inv_client_connect _ _ _ _ hi
            · simp
            · simpa using fresh_not_listed w h
  · exact h

theorem inv_listen_ok (w : World) (sk : SockId) (h : Inv w) : Inv (listen_ok w sk) := by
  unfold listen_ok
  split
  · rename_i s hs
    exact inv_set_sock w sk s _ h hs
  · exact h

@[simp] theorem listen_ok_mpcb (w : World) (sk : SockId) : (listen_ok w sk).mpcb = w.mpcb := by
  unfold listen_ok
  split <;> rfl

@[simp] theorem listen_ok_next_sk (w : World) (sk : SockId) :
    (listen_ok w sk).next_sk = w.next_sk := by
  unfold listen_ok
  split <;> rfl

theorem inv_server_listen (env : ListenEnv) (w : World) (sk : SockId) (family : Nat)
    (h : Inv w) (hlt : sk < w.next_sk)
    (hnew : sk ∉ w.mpcb.prequest_list ++ w.mpcb.plisten_list ++ w.mpcb.psubflow_list) :
    Inv (server_listen env w sk family).2 := by
  unfold server_listen
  dsimp only
  generalize find_link family env.find_ip4 env.find_ip6 env.fallback = link
  have h3 : Inv (set_link (link_lookup w link) sk link) :=
    inv_set_link _ sk link (inv_link_lookup w link h)
  split
  · exact inv_add_out _ _ _ (inv_sock_release _ sk h3)
  · apply inv_add_out
    have h4 := inv_listen_ok _ sk h3
    apply inv_set_mpcb _ _ h4
    refine listsOk_congr _ (add_tail_listen (listen_ok (set_link (link_lookup w link) sk link) sk).mpcb
      sk) _ ?_ rfl rfl rfl
    apply listsOk_add_tail_listen
    · exact h4.1
    · simpa using hlt
    · simpa using hnew

theorem inv_add_listen_sock (env : ListenEnv) (w : World) (mpcb : Bool)
    (la : Option SockAddr) (if_idx : Int) (h : Inv w) :
    Inv (mpdccp_add_listen_sock env w mpcb la if_idx).2 := by
  have hi : Inv (my_sock_init env.alloc_ok (sock_create w) w.next_sk if_idx
      Role.MPDCCP_SERVER).2 := inv_my_sock_init _ _ _ _ _ (inv_sock_create w h)
  unfold mpdccp_add_listen_sock
  split
  · dsimp only
    split
    · exact h
    · split
      · exact h
      · split
        · exact inv_sock_release _ _ hi
        · split
          · exact inv_sock_release _ _ hi
          · apply inv_server_listen _ _ _ _ hi
            · simp
            · simpa using fresh_not_listed w h
  · exact h

theorem inv_set_state (w : World) (sk : SockId) (st : DccpState) (h : Inv w) :
    Inv (set_state w sk st) := by
  unfold set_state
  split
  · rename_i s hs
    exact inv_set_sock w sk s _ h hs
  · exact h

theorem inv_init_world (host : ByteOrder) (role : Role) (sched : Bool) (st : DccpState) :
    Inv (init_world host role sched st) := by
  refine ⟨⟨by simp [init_world, mpdccp_alloc_mpcb], by simp [init_world, mpdccp_alloc_mpcb]⟩, ?_⟩
  intro x hx
  have hx2 : 1 ≤ x := hx
  have hne : x ≠ 0 := Nat.ne_of_gt hx2
  simp [init_world, hne]

theorem inv_step (w w2 : World) (h : Inv w) (hs : Step w w2) : Inv w2 := by
  cases hs with
  | add_client_conn env mpcb la if_idx ra => exact inv_add_client_conn env w mpcb la if_idx ra h
  | add_listen_sock env mpcb la if_idx => exact inv_add_listen_sock env w mpcb la if_idx h
  | mp_state_change sk st hatt => exact inv_mp_state_change _ sk (inv_set_state w sk st h)
  | my_sock_destruct sk hatt => exact inv_my_sock_destruct w sk h

theorem inv_reachable (w : World) (h : Reachable w) : Inv w := by
  induction h with
  | init host role sched st => exact inv_init_world host role sched st
  | step w w2 _ hs ih => exact inv_step w w2 ih hs

/-! ### Reachability of the scenarios -/

theorem reachable_w_pending : Reachable w_pending :=
  Reachable.step _ _ (Reachable.init _ _ _ _)
    (Step.add_client_conn _ env_pending true (some addr4) 0 (some addr4))

theorem reachable_w_drift : Reachable w_drift :=
  Reachable.step _ _ reachable_w_pending (Step.my_sock_destruct _ 1 (by decide))

theorem reachable_w_sole : Reachable w_sole :=
  Reachable.step _ _
    (Reachable.step _ _
      (Reachable.step _ _ reachable_w_pending
        (Step.add_client_conn _ env_pending true (some addr4) 0 (some addr4)))
      (Step.my_sock_destruct _ 2 (by decide)))
    (Step.mp_state_change _ 1 DccpState.DCCP_PARTOPEN (by decide))

theorem reachable_w_kex : Reachable w_kex :=
  Reachable.step _ _ (Reachable.init _ _ _ _)
    (Step.add_client_conn _ env_kex true (some addr4) 0 (some addr4))

theorem reachable_w_two : Reachable w_two :=
  Reachable.step _ _
    (Reachable.step _ _
      (Reachable.step _ _
        (Reachable.step _ _ reachable_w_kex
          (Step.add_client_conn _ env_join true (some addr4) 0 (some addr4)))
        (Step.mp_state_change _ 2 DccpState.DCCP_OPEN (by decide)))
      (Step.add_client_conn _ env_join true (some addr4) 0 (some addr4)))
    (Step.my_sock_destruct _ 3 (by decide))

/-! ### C4 -/

/-- C4 fails on the code: a client session adds one subflow (socket 1, in the
pending list) and the subflow is destroyed before it was promoted.  The state
is reachable, the active list is empty and `cnt_subflows` is -1:
`my_sock_destruct` decrements the count for a node unlinked from any list. -/
theorem cnt_subflows_drift :
    Reachable w_drift ∧ w_pending.mpcb.prequest_list = [1] ∧ w_pending.mpcb.cnt_subflows = 0 ∧
    w_drift.mpcb.psubflow_list = [] ∧ w_drift.mpcb.cnt_subflows = -1 ∧
    w_drift.mpcb.cnt_subflows ≠ (w_drift.mpcb.psubflow_list.length : Int) :=
  ⟨reachable_w_drift, by decide, by decide, by decide, by decide, by decide⟩

/-! ### C5 -/

/-- C5: in every state reachable from a freshly allocated session by
`mpdccp_add_client_conn`, `mpdccp_add_listen_sock`, `mp_state_change` and
`my_sock_destruct` steps, every subflow occurs at most once in the pending,
listening and active lists taken together: it is a member of at most one of
them, and at most once in that one. -/
theorem reachable_membership (w : World) (h : Reachable w) (sk : SockId) :
    w.mpcb.prequest_list.count sk + w.mpcb.plisten_list.count sk +
      w.mpcb.psubflow_list.count sk ≤ 1 := by
  have hn := (inv_reachable w h).1.1
  rw [← List.count_append, ← List.count_append]
  exact List.nodup_iff_count_le_one.1 hn sk

theorem reachable_membership_witness :
    w_two.mpcb.prequest_list.count 2 + w_two.mpcb.plisten_list.count 2 +
      w_two.mpcb.psubflow_list.count 2 ≤ 1 :=
  reachable_membership w_two reachable_w_two 2

/-! ### C6 -/

/-- C6 fails on the code: on the active subflow 1 an explicit
`mpdccp_close_subflow` finds the closing flag false, sets it and schedules
`close_work`; a close packet read afterwards by `mpdccp_read_from_subflow`
finds the flag true and schedules `close_work` again: `schedule_work` is
called twice. -/
theorem close_work_scheduled_twice :
    ((w_kex.socks 1).bind Sock.sk_user_data).map MySock.closing = some false ∧
    (((mpdccp_close_subflow w_kex true (some 1) 1).2.socks 1).bind Sock.sk_user_data).map
      MySock.closing = some true ∧
    (mpdccp_close_subflow w_kex true (some 1) 1).2.events.count (Event.schedule_work 1) = 1 ∧
    (mpdccp_read_from_subflow
        (deliver (mpdccp_close_subflow w_kex true (some 1) 1).2 1 close_pkt)
        (some 1)).2.events.count (Event.schedule_work 1) = 2 := by
  decide

/-! ### C7 -/

theorem mp_state_change_promote (w : World) (sk : SockId) :
    mp_state_change w sk = w ∨
    (mp_state_change w sk = promote w sk ∧ sk ∉ w.mpcb.psubflow_list ∧
      ∃ s my_sk, w.socks sk = some s ∧ s.sk_user_data = some my_sk ∧
        ((s.sk_state = DccpState.DCCP_PARTOPEN ∧ s.is_kex_sk = true) ∨
          (s.sk_state = DccpState.DCCP_OPEN ∧ s.is_kex_sk = false))) := by
  unfold mp_state_change
  split
  · exact Or.inl rfl
  · rename_i s hs
    split
    · exact Or.inl rfl
    · rename_i my_sk hu
      split
      · rename_i hc
        split
        · exact Or.inl rfl
        · rename_i hn
          exact Or.inr ⟨rfl, hn, s, my_sk, hs, hu, hc⟩
      · exact Or.inl rfl

theorem promote_events (w : World) (sk : SockId) :
    (promote w sk).events =
      w.events ++ (if w.mpcb.has_init_subflow = true then [Event.init_subflow sk] else []) ++
        [Event.report_new_subflow sk] := by
  unfold promote
  dsimp only
  split <;> rename_i h <;> simp at h <;> simp [h]

/-- C7: promotion is idempotent.  For every session state and subflow,
`mp_state_change` applied twice (the transport state of the subflow is not
touched in between) gives the same state as applied once: the same three
lists, the same `cnt_subflows`, the same calls of the scheduler hook.  One
application raises `cnt_subflows` by at most one, leaves the subflow in the
active list at most once (when it was there at most once before) and calls
`init_subflow` at most once. -/
theorem mp_state_change_idempotent (w : World) (sk : SockId) :
    mp_state_change (mp_state_change w sk) sk = mp_state_change w sk ∧
    ((mp_state_change w sk).mpcb.cnt_subflows = w.mpcb.cnt_subflows ∨
      (mp_state_change w sk).mpcb.cnt_subflows = w.mpcb.cnt_subflows + 1) ∧
    (mp_state_change w sk).mpcb.psubflow_list.count sk ≤
      max 1 (w.mpcb.psubflow_list.count sk) ∧
    (mp_state_change w sk).events.count (Event.init_subflow sk) ≤
      w.events.count (Event.init_subflow sk) + 1 := by
  rcases mp_state_change_promote w sk with h | ⟨h, hn, s, my_sk, hs, hu, hc⟩
  · rw [h, h]
    exact ⟨rfl, Or.inl rfl, le_max_right _ _, Nat.le_succ _⟩
  · rw [h]
    refine ⟨?_, Or.inr ?_, ?_, ?_⟩
    · unfold mp_state_change
      rw [promote_socks, hs]
      dsimp only
      rw [hu]
      dsimp only
      rw [if_pos hc, if_pos]
      rw [promote_mpcb]
      simp
    · rw [promote_mpcb]
      rfl
    · rw [promote_mpcb]
      simp only [cnt_subflows_add_psubflow_list, add_tail_subflow_psubflow_list,
        list_del_psubflow_list, List.count_append]
      rw [List.erase_of_not_mem hn, List.count_eq_zero_of_not_mem hn]
      simp
    · rw [promote_events]
      simp only [List.count_append]
      split <;> simp

/-! ### C8 -/

/-- The size-error path of `mpdccp_xmit_to_sk` when the indeterminate
`meta_sk` designates a socket: the store of line 835 lands in that socket,
the function returns `-EMSGSIZE`, the send queue of every socket is what it
was and no collaborator is called. -/
theorem xmit_to_sk_too_big (env : XmitEnv) (w : World) (sk g : SockId) (skb : Skb)
    (s gs : Sock) (hs : w.socks sk = some s) (hbig : skb.len > s.dccps_mss_cache)
    (hg : env.meta_sk_stack = some g) (hgs : w.socks g = some gs) :
    (mpdccp_xmit_to_sk env w (some sk) (some skb)).1 = some (-EMSGSIZE) ∧
    (∀ x, ((mpdccp_xmit_to_sk env w (some sk) (some skb)).2.socks x).map Sock.sk_write_queue =
      (w.socks x).map Sock.sk_write_queue) ∧
    (mpdccp_xmit_to_sk env w (some sk) (some skb)).2.events = w.events := by
  unfold mpdccp_xmit_to_sk
  dsimp only
  rw [hs]
  dsimp only
  rw [if_pos hbig, hg]
  dsimp only
  rw [hgs]
  refine ⟨rfl, ?_, rfl⟩
  intro x
  by_cases hx : x = g
  · subst hx
    simp [hgs]
  · simp [set_sock, hx]

/-- The size-error path of `mpdccp_xmit_to_sk` when the indeterminate
`meta_sk` designates no socket: the store of line 835 faults, nothing is
returned and no socket is changed. -/
theorem xmit_to_sk_too_big_wild (env : XmitEnv) (w : World) (sk : SockId) (skb : Skb)
    (s : Sock) (hs : w.socks sk = some s) (hbig : skb.len > s.dccps_mss_cache)
    (hg : ∀ g, env.meta_sk_stack = some g → w.socks g = none) :
    mpdccp_xmit_to_sk env w (some sk) (some skb) = (none, log w Event.oops) := by
  unfold mpdccp_xmit_to_sk
  dsimp only
  rw [hs]
  dsimp only
  rw [if_pos hbig]
  cases hm : env.meta_sk_stack with
  | none => rfl
  | some g =>
    dsimp only
    rw [hg g hm]

/-- C8 fails on the code.  In the reachable state `w_kex` subflow 1 has
segment size 1400 and the buffer has 1500 bytes.  Line 835 stores through
`meta_sk` before that variable is assigned.  When its indeterminate value is
the address of no socket the store faults: `mpdccp_xmit_to_sk` does not
return `-EMSGSIZE`.  Only when the value happens to be the address of a
socket (here socket 0) does the function return `-EMSGSIZE` with the send
queue of the subflow unchanged and no call made; the segment size of that
socket is overwritten. -/
theorem xmit_to_sk_too_big_oops :
    Reachable w_kex ∧
    (w_kex.socks 1).map Sock.dccps_mss_cache = some 1400 ∧
    (mpdccp_xmit_to_sk
        { meta_sk_stack := none, qpolicy_full := false, wait_connect_ret := 0,
          timer_pending := false } w_kex (some 1) (some jumbo_skb)).1 = none ∧
    (mpdccp_xmit_to_sk
        { meta_sk_stack := none, qpolicy_full := false, wait_connect_ret := 0,
          timer_pending := false } w_kex (some 1) (some jumbo_skb)).2.events =
      w_kex.events ++ [Event.oops] ∧
    (mpdccp_xmit_to_sk
        { meta_sk_stack := some 7, qpolicy_full := false, wait_connect_ret := 0,
          timer_pending := false } w_kex (some 1) (some jumbo_skb)).1 = none ∧
    (mpdccp_xmit_to_sk
        { meta_sk_stack := some 0, qpolicy_full := false, wait_connect_ret := 0,
          timer_pending := false } w_kex (some 1) (some jumbo_skb)).1 = some (-EMSGSIZE) ∧
    ((mpdccp_xmit_to_sk
        { meta_sk_stack := some 0, qpolicy_full := false, wait_connect_ret := 0,
          timer_pending := false } w_kex (some 1) (some jumbo_skb)).2.socks 1).map
      Sock.sk_write_queue = (w_kex.socks 1).map Sock.sk_write_queue ∧
    (mpdccp_xmit_to_sk
        { meta_sk_stack := some 0, qpolicy_full := false, wait_connect_ret := 0,
          timer_pending := false } w_kex (some 1) (some jumbo_skb)).2.events = w_kex.events :=
  ⟨reachable_w_kex, by decide, by decide, by decide, by decide, by decide, by decide, by decide⟩

/-! ### C9 -/

/-- C9 as stated fails for the limit 0: the delivery queue of the fresh
session is empty, so it holds at least as many records as the limit 0, and
`mpdccp_forward_skb` queues the packet and returns 0. -/
theorem forward_skb_limit_zero :
    w_fresh.mpcb.meta_sk = some 0 ∧
    (w_fresh.socks 0).map Sock.dccps_tx_qlen = some 0 ∧
    (w_fresh.socks 0).map Sock.sk_receive_queue = some [] ∧
    (mpdccp_forward_skb 0 w_fresh (some data_pkt) true).1 = 0 ∧
    ((mpdccp_forward_skb 0 w_fresh (some data_pkt) true).2.socks 0).map Sock.sk_receive_queue =
      some [data_pkt] := by
  decide

/-- C9, amended: for every session with a meta socket, every configured queue
limit other than 0 and every non-null packet, if the delivery queue already
holds at least as many records as the limit then `mpdccp_forward_skb` frees
the packet, leaves every socket (so the delivery queue) unchanged and returns
`-ENOBUFS`. -/
theorem forward_skb_queue_full (rcv_ret : Int) (w : World) (skb : Skb) (m : SockId) (ms : Sock)
    (hm : w.mpcb.meta_sk = some m) (hms : w.socks m = some ms)
    (hlimit : ms.dccps_tx_qlen ≠ 0)
    (hfull : ms.sk_receive_queue.length ≥ ms.dccps_tx_qlen) :
    (mpdccp_forward_skb rcv_ret w (some skb) true).1 = -ENOBUFS ∧
    (mpdccp_forward_skb rcv_ret w (some skb) true).2.socks = w.socks ∧
    (mpdccp_forward_skb rcv_ret w (some skb) true).2.events = w.events ++ [Event.kfree_skb skb] := by
  unfold mpdccp_forward_skb
  simp only [if_true, hm, hms]
  rw [if_pos ⟨hlimit, hfull⟩]
  exact ⟨rfl, rfl, rfl⟩

theorem forward_skb_queue_full_witness :
    (mpdccp_forward_skb 0 w_full (some data_pkt) true).1 = -ENOBUFS :=
  (forward_skb_queue_full 0 w_full data_pkt 0
    { fresh_sock with dccps_tx_qlen := 1, sk_receive_queue := [data_pkt] }
    (by decide) (by decide) (by decide) (by decide)).1

/-! ### C10 -/

/-- C10 fails on the code, in both directions.  In the reachable state
`w_sole` socket 1 is the only active subflow and the meta socket is not
closed, yet destroying socket 1 does not call `dccp_done`: `cnt_subflows` was
0, not 1, because an earlier destruction of a pending subflow decremented it.
In the reachable state `w_two` sockets 1 and 2 are active, and destroying
socket 1 calls `dccp_done` on the meta socket although socket 2 remains
active: `cnt_subflows` was 1, not 2. -/
theorem cascade_follows_count :
    Reachable w_sole ∧ w_sole.mpcb.psubflow_list = [1] ∧ w_sole.mpcb.cnt_subflows = 0 ∧
    w_sole.mpcb.meta_sk = some 0 ∧
    (w_sole.socks 0).map Sock.sk_state = some DccpState.DCCP_REQUESTING ∧
    (my_sock_destruct w_sole 1).mpcb.psubflow_list = [] ∧
    Event.dccp_done 0 ∉ (my_sock_destruct w_sole 1).events ∧
    Reachable w_two ∧ w_two.mpcb.psubflow_list = [1, 2] ∧ w_two.mpcb.cnt_subflows = 1 ∧
    (my_sock_destruct w_two 1).mpcb.psubflow_list = [2] ∧
    Event.dccp_done 0 ∉ w_two.events ∧
    Event.dccp_done 0 ∈ (my_sock_destruct w_two 1).events :=
  ⟨reachable_w_sole, by decide, by decide, by decide, by decide, by decide, by decide,
    reachable_w_two, by decide, by decide, by decide, by decide, by decide⟩

/-! ### C11 -/

theorem set_sock_self (w : World) (sk : SockId) (s : Sock) :
    (set_sock w sk s).socks sk = some s := by
  simp

theorem set_sock_other (w : World) (sk x : SockId) (s : Sock) (h : x ≠ sk) :
    (set_sock w sk s).socks x = w.socks x := by
  simp [h]

theorem dccp_done_callbacks (w : World) (m x : SockId) :
    ((dccp_done w m).socks x).map callbacks = (w.socks x).map callbacks := by
  unfold dccp_done
  split
  · rename_i s hs
    by_cases hx : x = m
    · subst hx
      simp [hs, callbacks]
    · simp [hx]
  · rfl

theorem destruct_cascade_callbacks (w : World) (x : SockId) :
    ((destruct_cascade w).socks x).map callbacks = (w.socks x).map callbacks := by
  unfold destruct_cascade
  repeat (first | rfl | exact dccp_done_callbacks w _ x | split)

theorem destruct_finish_callbacks (w : World) (sk x : SockId) (cb : Option Callback) :
    ((destruct_finish w sk cb).socks x).map callbacks = (w.socks x).map callbacks := by
  unfold destruct_finish
  split
  · rfl
  · exact destruct_cascade_callbacks _ x
  · exact destruct_cascade_callbacks _ x

/-- The socket slot after `my_sock_destruct` of an attached socket. -/
theorem my_sock_destruct_callbacks (w : World) (sk : SockId) (s : Sock) (my_sk : MySock)
    (hs : w.socks sk = some s) (hu : s.sk_user_data = some my_sk) :
    ((my_sock_destruct w sk).socks sk).map callbacks =
      some (callbacks (destruct_restore s my_sk)) := by
  unfold my_sock_destruct
  rw [hs]
  dsimp only
  rw [hu]
  dsimp only
  rw [destruct_finish_callbacks]
  cases my_sk.pcb <;> simp

theorem my_sock_init_destruct_callbacks (w : World) (sk : SockId) (s : Sock) (if_idx : Int)
    (role : Role) (hs : w.socks sk = some s) :
    ((my_sock_destruct (my_sock_init true w sk if_idx role).2 sk).socks sk).map callbacks =
      some (restore_cb s.sk_data_ready (some Callback.listen_data_ready),
        restore_cb s.sk_backlog_rcv (some Callback.listen_backlog_rcv),
        restore_cb s.sk_destruct (some Callback.my_sock_destruct),
        if role = Role.MPDCCP_CLIENT then
          restore_cb s.sk_state_change (some Callback.mp_state_change)
        else s.sk_state_change) := by
  have hi : (my_sock_init true w sk if_idx role).2 = set_sock w sk
      { s with
        sk_data_ready := some Callback.listen_data_ready
        sk_backlog_rcv := some Callback.listen_backlog_rcv
        sk_destruct := some Callback.my_sock_destruct
        sk_state_change :=
          if role = Role.MPDCCP_CLIENT then some Callback.mp_state_change
          else s.sk_state_change
        is_kex_sk := if w.mpcb.kex_done = false then true else s.is_kex_sk
        sk_user_data := some
          { my_sk_sock := some sk
            if_idx := if_idx
            link_info := none
            link_cnt := 0
            link_iscpy := false
            closing := false
            pcb := none
            sk_data_ready := s.sk_data_ready
            sk_backlog_rcv := s.sk_backlog_rcv
            sk_destruct := s.sk_destruct
            sk_state_change := if role = Role.MPDCCP_CLIENT then s.sk_state_change else none } } := by
    unfold my_sock_init
    rw [hs]
    rfl
  rw [hi, my_sock_destruct_callbacks _ sk _ _ (set_sock_self w sk _) rfl]
  by_cases hr : role = Role.MPDCCP_CLIENT
  · simp [callbacks, destruct_restore, hr]
  · simp [callbacks, destruct_restore, hr, restore_cb]

theorem count_oops_log (w : World) (e : Event) (he : e ≠ Event.oops) :
    (log w e).events.count Event.oops = w.events.count Event.oops := by
  simp [List.count_append, List.count_cons, he]

theorem count_oops_dccp_done (w : World) (m : SockId) :
    (dccp_done w m).events.count Event.oops = w.events.count Event.oops := by
  rw [dccp_done_events]
  simp [List.count_append, List.count_cons]

theorem count_oops_destruct_cascade (w : World) :
    (destruct_cascade w).events.count Event.oops = w.events.count Event.oops := by
  unfold destruct_cascade
  repeat (first | rfl | exact count_oops_dccp_done w _ | split)

theorem count_oops_destruct_unlink (w : World) (sk : SockId) (l : Option LinkId) :
    (destruct_unlink w sk l).events.count Event.oops = w.events.count Event.oops := by
  unfold destruct_unlink
  split
  · cases l with
    | none => rfl
    | some l => simp [link_put_opt, List.count_append, List.count_cons]
  · rfl

theorem count_oops_destruct_finish (w : World) (sk : SockId) (cb : Option Callback)
    (h : cb ≠ some Callback.my_sock_destruct) :
    (destruct_finish w sk cb).events.count Event.oops = w.events.count Event.oops := by
  unfold destruct_finish
  split
  · exact absurd rfl h
  · rw [count_oops_destruct_cascade]
    exact count_oops_log w _ (by simp)
  · exact count_oops_destruct_cascade w

/-- The `my_sock_destruct` of an attached socket whose restored destructor is
not `my_sock_destruct` itself runs to its end. -/
theorem count_oops_my_sock_destruct (w : World) (sk : SockId) (s : Sock) (my_sk : MySock)
    (hs : w.socks sk = some s) (hu : s.sk_user_data = some my_sk)
    (hd : (destruct_restore s my_sk).sk_destruct ≠ some Callback.my_sock_destruct) :
    (my_sock_destruct w sk).events.count Event.oops = w.events.count Event.oops := by
  unfold my_sock_destruct
  rw [hs]
  dsimp only
  rw [hu]
  dsimp only
  rw [count_oops_destruct_finish _ _ _ hd]
  have h1 : (set_sock (destruct_unlink (log w (Event.report_destroy sk)) sk my_sk.link_info) sk
      (destruct_restore s my_sk)).events.count Event.oops = w.events.count Event.oops := by
    rw [set_sock_events, count_oops_destruct_unlink]
    exact count_oops_log w _ (by simp)
  cases my_sk.pcb
  · exact h1
  · dsimp only
    rw [count_oops_log _ _ (by simp)]
    exact h1

theorem my_sock_init_eq (w : World) (sk : SockId) (s : Sock) (if_idx : Int) (role : Role)
    (hs : w.socks sk = some s) :
    my_sock_init true w sk if_idx role = (0, set_sock w sk
      { s with
        sk_data_ready := some Callback.listen_data_ready
        sk_backlog_rcv := some Callback.listen_backlog_rcv
        sk_destruct := some Callback.my_sock_destruct
        sk_state_change :=
          if role = Role.MPDCCP_CLIENT then some Callback.mp_state_change
          else s.sk_state_change
        is_kex_sk := if w.mpcb.kex_done = false then true else s.is_kex_sk
        sk_user_data := some
          { my_sk_sock := some sk
            if_idx := if_idx
            link_info := none
            link_cnt := 0
            link_iscpy := false
            closing := false
            pcb := none
            sk_data_ready := s.sk_data_ready
            sk_backlog_rcv := s.sk_backlog_rcv
            sk_destruct := s.sk_destruct
            sk_state_change := if role = Role.MPDCCP_CLIENT then s.sk_state_change else none } }) := by
  unfold my_sock_init
  rw [hs]
  rfl

/-- A socket whose data-ready, backlog-receive and destructor slots (and, for
the initiator role, state-change slot) are set, and whose destructor is not
`my_sock_destruct` already: `my_sock_init` followed by `my_sock_destruct`
puts the four callbacks back and runs to its end. -/
theorem init_destruct_restores (w : World) (sk : SockId) (s : Sock) (if_idx : Int)
    (role : Role) (hs : w.socks sk = some s)
    (h1 : s.sk_data_ready ≠ none) (h2 : s.sk_backlog_rcv ≠ none) (h3 : s.sk_destruct ≠ none)
    (h3b : s.sk_destruct ≠ some Callback.my_sock_destruct)
    (h4 : role = Role.MPDCCP_CLIENT → s.sk_state_change ≠ none) :
    ((my_sock_destruct (my_sock_init true w sk if_idx role).2 sk).socks sk).map callbacks =
      (w.socks sk).map callbacks ∧
    (my_sock_destruct (my_sock_init true w sk if_idx role).2 sk).events.count Event.oops =
      w.events.count Event.oops := by
  obtain ⟨c1, hc1⟩ := Option.ne_none_iff_exists.1 h1
  obtain ⟨c2, hc2⟩ := Option.ne_none_iff_exists.1 h2
  obtain ⟨c3, hc3⟩ := Option.ne_none_iff_exists.1 h3
  constructor
  · rw [my_sock_init_destruct_callbacks w sk s if_idx role hs, hs]
    by_cases hr : role = Role.MPDCCP_CLIENT
    · obtain ⟨c4, hc4⟩ := Option.ne_none_iff_exists.1 (h4 hr)
      simp [callbacks, restore_cb, ← hc1, ← hc2, ← hc3, ← hc4, hr]
    · simp [callbacks, restore_cb, ← hc1, ← hc2, ← hc3, hr]
  · rw [my_sock_init_eq w sk s if_idx role hs]
    dsimp only
    rw [count_oops_my_sock_destruct _ sk _ _ (set_sock_self w sk _) rfl]
    · rfl
    · rw [← hc3] at h3b ⊢
      simpa [destruct_restore, restore_cb] using h3b

/-- C11: for every socket as `sock_create` hands it out, in every state, and
for every role, `my_sock_init` followed by `my_sock_destruct` leaves the
data-ready, backlog-receive, destructor and state-change callbacks of the
socket equal to what they were before `my_sock_init`, and the destructor runs
to its end.  The same holds for every socket whose data-ready,
backlog-receive, destructor and (for the initiator role) state-change slots
are set and whose destructor is not `my_sock_destruct` already.  For every
role other than the initiator role `my_sock_init` leaves the state-change
slot alone and saves a null pointer, so `my_sock_destruct` writes nothing
back. -/
theorem my_sock_init_destruct_restores (w : World) (if_idx : Int) (role : Role) :
    ((my_sock_init true (sock_create w) w.next_sk if_idx role).1 = 0 ∧
      ((my_sock_destruct (my_sock_init true (sock_create w) w.next_sk if_idx role).2
          w.next_sk).socks w.next_sk).map callbacks =
        ((sock_create w).socks w.next_sk).map callbacks ∧
      (my_sock_destruct (my_sock_init true (sock_create w) w.next_sk if_idx role).2
          w.next_sk).events.count Event.oops = w.events.count Event.oops) ∧
    (∀ sk s, w.socks sk = some s →
      s.sk_data_ready ≠ none → s.sk_backlog_rcv ≠ none → s.sk_destruct ≠ none →
      s.sk_destruct ≠ some Callback.my_sock_destruct →
      (role = Role.MPDCCP_CLIENT → s.sk_state_change ≠ none) →
      ((my_sock_destruct (my_sock_init true w sk if_idx role).2 sk).socks sk).map callbacks =
        (w.socks sk).map callbacks ∧
      (my_sock_destruct (my_sock_init true w sk if_idx role).2 sk).events.count Event.oops =
        w.events.count Event.oops) ∧
    (∀ sk s, w.socks sk = some s → role ≠ Role.MPDCCP_CLIENT →
      ((my_sock_init true w sk if_idx role).2.socks sk).map Sock.sk_state_change =
        some s.sk_state_change ∧
      (node (my_sock_init true w sk if_idx role).2 sk).map MySock.sk_state_change =
        some none ∧
      ((my_sock_destruct (my_sock_init true w sk if_idx role).2 sk).socks sk).map
        Sock.sk_state_change = some s.sk_state_change) := by
  refine ⟨⟨(my_sock_init_create w if_idx role).1, ?_⟩, ?_, ?_⟩
  · exact init_destruct_restores (sock_create w) w.next_sk fresh_sock if_idx role
      (by simp) (by simp [fresh_sock]) (by simp [fresh_sock]) (by simp [fresh_sock])
      (by simp [fresh_sock]) (by simp [fresh_sock])
  · intro sk s hs h1 h2 h3 h3b h4
    exact init_destruct_restores w sk s if_idx role hs h1 h2 h3 h3b h4
  · intro sk s hs hr
    refine ⟨?_, ?_, ?_⟩
    · rw [my_sock_init_eq w sk s if_idx role hs]
      simp [hr]
    · rw [my_sock_init_eq w sk s if_idx role hs]
      simp [node, hr]
    · have h := my_sock_init_destruct_callbacks w sk s if_idx role hs
      rw [if_neg hr] at h
      cases hsock : (my_sock_destruct (my_sock_init true w sk if_idx role).2 sk).socks sk with
      | none => rw [hsock] at h; cases h
      | some s2 =>
        rw [hsock] at h
        simp only [Option.map_some', Option.some.injEq, callbacks, Prod.mk.injEq] at h
        simp [h.2.2.2]

theorem my_sock_init_destruct_restores_witness :
    ((my_sock_destruct (my_sock_init true (sock_create w_kex) 2 0 Role.MPDCCP_CLIENT).2
        2).socks 2).map callbacks =
      some (some (Callback.orig 0), some (Callback.orig 1), some (Callback.orig 2),
        some (Callback.orig 3)) ∧
    ((my_sock_destruct (my_sock_init true (sock_create w_fresh) 1 0 Role.MPDCCP_SERVER).2
        1).socks 1).map callbacks =
      ((sock_create w_fresh).socks 1).map callbacks ∧
    ((my_sock_destruct (my_sock_init true (sock_create w_fresh) 1 0 Role.MPDCCP_CLIENT).2
        1).socks 1).map callbacks =
      ((sock_create w_fresh).socks 1).map callbacks ∧
    ((my_sock_init true (sock_create w_fresh) 1 0 Role.MPDCCP_SERVER).2.socks 1).map
      Sock.sk_state_change = some fresh_sock.sk_state_change :=
  ⟨(my_sock_init_destruct_restores w_kex 0 Role.MPDCCP_CLIENT).1.2.1,
    (my_sock_init_destruct_restores w_fresh 0 Role.MPDCCP_SERVER).1.2.1,
    ((my_sock_init_destruct_restores (sock_create w_fresh) 0 Role.MPDCCP_CLIENT).2.1 1
      fresh_sock (by decide) (by decide) (by decide) (by decide) (by decide) (by decide)).1,
    ((my_sock_init_destruct_restores (sock_create w_fresh) 0 Role.MPDCCP_SERVER).2.2 1
      fresh_sock (by decide) (by decide)).1⟩

theorem reachable_w_join : Reachable w_join :=
  Reachable.step _ _ reachable_w_kex
    (Step.add_client_conn _ env_join_link true (some addr4) 0 (some addr4))

theorem reachable_w_small : Reachable w_small :=
  Reachable.step _ _
    (Reachable.step _ _ reachable_w_kex
      (Step.add_client_conn _ env_join_small true (some addr4) 0 (some addr4)))
    (Step.mp_state_change _ 2 DccpState.DCCP_OPEN (by decide))

/-! ### C12 -/

/-- C12 fails on the code for the connect failure: a fresh client session
adds a subflow whose local address belongs to link 5 and whose connect is
refused.  The error is returned and the subflow is in none of the lists, but
the reference taken on link 5 is given back twice (once by
`my_sock_destruct`, once at the label `out:`), so the count of the link is
one less than before the call.  On the listen failure of
`mpdccp_add_listen_sock` the reference is given back once and the count is
what it was. -/
theorem connect_failure_puts_link_twice :
    (mpdccp_add_client_conn env_refused w_fresh true (some addr4) 0 (some addr4)).1 = -111 ∧
    linked (mpdccp_add_client_conn env_refused w_fresh true (some addr4) 0 (some addr4)).2.mpcb 1
      = false ∧
    w_fresh.link_refs 5 = 1 ∧
    (mpdccp_add_client_conn env_refused w_fresh true (some addr4) 0
      (some addr4)).2.link_refs 5 = 0 ∧
    (mpdccp_add_client_conn env_refused w_fresh true (some addr4) 0
      (some addr4)).2.events.count (Event.link_put 5) = 2 ∧
    (mpdccp_add_listen_sock env_listen_fail w_server true (some addr4) 0).1 = -98 ∧
    w_server.link_refs 5 = 1 ∧
    (mpdccp_add_listen_sock env_listen_fail w_server true (some addr4) 0).2.link_refs 5 = 1 ∧
    (mpdccp_add_listen_sock env_listen_fail w_server true (some addr4)
      0).2.events.count (Event.link_put 5) = 1 := by
  decide

/-! ### C15 -/

/-- C15 fails on the code: in `w_small` the meta socket (socket 0) and
subflow 1 have segment size 1400 and subflow 2 has 1200.  Sending 1300 bytes
on subflow 2 takes the size-error path, and the segment size of the meta
socket is still 1400 afterwards: the store of line 835 goes through `meta_sk`
before that variable is assigned.  When the indeterminate pointer designates
no socket the store faults and nothing in the session changes; when it
happens to designate socket 1 the function returns `-EMSGSIZE` and the
segment size of socket 1 becomes 1200. -/
theorem mss_not_propagated :
    Reachable w_small ∧ w_small.mpcb.psubflow_list = [1, 2] ∧
    w_small.mpcb.meta_sk = some 0 ∧
    (w_small.socks 0).map Sock.dccps_mss_cache = some 1400 ∧
    (w_small.socks 2).map Sock.dccps_mss_cache = some 1200 ∧
    (mpdccp_xmit_to_sk
        { meta_sk_stack := none, qpolicy_full := false, wait_connect_ret := 0,
          timer_pending := false } w_small (some 2) (some big_skb)).1 = none ∧
    ((mpdccp_xmit_to_sk
        { meta_sk_stack := none, qpolicy_full := false, wait_connect_ret := 0,
          timer_pending := false } w_small (some 2) (some big_skb)).2.socks 0).map
      Sock.dccps_mss_cache = some 1400 ∧
    (mpdccp_xmit_to_sk
        { meta_sk_stack := some 1, qpolicy_full := false, wait_connect_ret := 0,
          timer_pending := false } w_small (some 2) (some big_skb)).1 = some (-EMSGSIZE) ∧
    ((mpdccp_xmit_to_sk
        { meta_sk_stack := some 1, qpolicy_full := false, wait_connect_ret := 0,
          timer_pending := false } w_small (some 2) (some big_skb)).2.socks 0).map
      Sock.dccps_mss_cache = some 1400 ∧
    ((mpdccp_xmit_to_sk
        { meta_sk_stack := some 1, qpolicy_full := false, wait_connect_ret := 0,
          timer_pending := false } w_small (some 2) (some big_skb)).2.socks 1).map
      Sock.dccps_mss_cache = some 1200 :=
  ⟨reachable_w_small, by decide, by decide, by decide, by decide, by decide, by decide,
    by decide, by decide, by decide⟩

/-! ### C16 -/

/-- C16 fails on the code: on a session without queue limit
`sock_queue_rcv_skb` fails with `-ENOMEM`; `mpdccp_forward_skb` frees the
packet, queues nothing and returns 0. -/
theorem forward_skb_enqueue_failure :
    (mpdccp_forward_skb (-ENOMEM) w_fresh (some data_pkt) true).1 = 0 ∧
    ((mpdccp_forward_skb (-ENOMEM) w_fresh (some data_pkt) true).2.socks 0).map
      Sock.sk_receive_queue = some [] ∧
    (mpdccp_forward_skb (-ENOMEM) w_fresh (some data_pkt) true).2.events =
      [Event.kfree_skb data_pkt] := by
  decide

/-! ### C17 -/

/-- C17 fails on the code: after the key exchange a join subflow (socket 2)
is added over link 5 and its connect returns `-EINPROGRESS`.  The subflow
stays in the pending list and its `my_sock` holds the handle of link 5, but
`mpdccp_add_client_conn` gives the reference back at the label `out:`
(`ret != 0`): the count of link 5 is what it was before the call. -/
theorem in_progress_puts_link :
    Reachable w_join ∧
    (mpdccp_add_client_conn env_join_link w_kex true (some addr4) 0 (some addr4)).1 =
      -EINPROGRESS ∧
    w_join.mpcb.prequest_list = [2] ∧
    (node w_join 2).map MySock.link_info = some (some 5) ∧
    w_kex.link_refs 5 = 1 ∧
    w_join.link_refs 5 = 1 ∧
    w_join.events.count (Event.link_put 5) = 1 :=
  ⟨reachable_w_join, by decide, by decide, by decide, by decide, by decide, by decide⟩

/-! ### C18 -/

/-- C18 fails on the code.  The socket 1 of `w_unlinked` has a `my_sock` and
is in no list (the state in which a failed bind leaves it to `sock_release`);
`cnt_subflows` is 0 and the meta socket is not closed, and
`my_sock_destruct` calls `dccp_done` on the meta socket: so does
`mpdccp_add_client_conn` when the bind fails.  In `w_join` socket 1 is active
and socket 2 is pending; destroying the pending socket 2 takes
`cnt_subflows` from 1 to 0 and calls `dccp_done` as well. -/
theorem destruct_of_inactive_tears_down :
    linked w_unlinked.mpcb 1 = false ∧ attached w_unlinked 1 = true ∧
    w_unlinked.mpcb.cnt_subflows = 0 ∧
    Event.dccp_done 0 ∉ w_unlinked.events ∧
    Event.dccp_done 0 ∈ (my_sock_destruct w_unlinked 1).events ∧
    (mpdccp_add_client_conn env_bind_fail w_fresh true (some addr4) 0 (some addr4)).1 = -98 ∧
    Event.dccp_done 0 ∈
      (mpdccp_add_client_conn env_bind_fail w_fresh true (some addr4) 0 (some addr4)).2.events ∧
    Reachable w_join ∧
    w_join.mpcb.psubflow_list = [1] ∧ w_join.mpcb.prequest_list = [2] ∧
    w_join.mpcb.cnt_subflows = 1 ∧
    Event.dccp_done 0 ∉ w_join.events ∧
    (my_sock_destruct w_join 2).mpcb.psubflow_list = [1] ∧
    Event.dccp_done 0 ∈ (my_sock_destruct w_join 2).events :=
  ⟨by decide, by decide, by decide, by decide, by decide, by decide, by decide,
    reachable_w_join, by decide, by decide, by decide, by decide, by decide, by decide⟩

/-! ### C14 -/

theorem int_of_uint_small (n : Nat) (h : n < 2147483648) : int_of_uint n = (n : Int) := by
  unfold int_of_uint
  have h1 : n % 4294967296 = n := Nat.mod_eq_of_lt (by omega)
  rw [h1, if_pos h]

theorem int_of_uint_big (n : Nat) (h1 : 2147483648 ≤ n) (h2 : n < 4294967296) :
    int_of_uint n = (n : Int) - 4294967296 := by
  unfold int_of_uint
  have h3 : n % 4294967296 = n := Nat.mod_eq_of_lt h2
  rw [h3, if_neg (by omega)]

theorem read_data (w : World) (sk : SockId) (s : Sock) (my_sk : MySock) (skb : Skb)
    (rest : List Skb) (hs : w.socks sk = some s) (hu : s.sk_user_data = some my_sk)
    (hq : s.sk_receive_queue = skb :: rest)
    (ht : skb.dccph_type = PktType.DCCP_PKT_DATA ∨ skb.dccph_type = PktType.DCCP_PKT_DATAACK) :
    mpdccp_read_from_subflow w (some sk) =
      if int_of_uint skb.len > 0 then
        (some (int_of_uint skb.len),
          log (set_sock w sk { s with sk_receive_queue := rest }) (Event.do_reorder sk skb))
      else
        (some (int_of_uint skb.len),
          log (set_sock w sk { s with sk_receive_queue := rest }) (Event.kfree_skb skb)) := by
  unfold mpdccp_read_from_subflow
  simp only [hs, hu, hq]
  rcases ht with h | h <;> simp only [h]

theorem read_close (w : World) (sk : SockId) (s : Sock) (my_sk : MySock) (skb : Skb)
    (rest : List Skb) (hs : w.socks sk = some s) (hu : s.sk_user_data = some my_sk)
    (hq : s.sk_receive_queue = skb :: rest)
    (ht : skb.dccph_type = PktType.DCCP_PKT_CLOSE ∨ skb.dccph_type = PktType.DCCP_PKT_CLOSEREQ) :
    mpdccp_read_from_subflow w (some sk) =
      (some (int_of_uint skb.len),
        log (log (set_sock w sk
          { s with sk_receive_queue := rest
                   sk_user_data := some { my_sk with closing := true } })
          (Event.schedule_work sk)) (Event.kfree_skb skb)) := by
  unfold mpdccp_read_from_subflow
  simp only [hs, hu, hq]
  rcases ht with h | h <;> simp only [h]

theorem read_other (w : World) (sk : SockId) (s : Sock) (my_sk : MySock) (skb : Skb)
    (rest : List Skb) (hs : w.socks sk = some s) (hu : s.sk_user_data = some my_sk)
    (hq : s.sk_receive_queue = skb :: rest)
    (h1 : skb.dccph_type ≠ PktType.DCCP_PKT_DATA) (h2 : skb.dccph_type ≠ PktType.DCCP_PKT_DATAACK)
    (h3 : skb.dccph_type ≠ PktType.DCCP_PKT_CLOSE)
    (h4 : skb.dccph_type ≠ PktType.DCCP_PKT_CLOSEREQ) :
    mpdccp_read_from_subflow w (some sk) =
      (some (-1), set_sock w sk { s with sk_receive_queue := rest }) := by
  unfold mpdccp_read_from_subflow
  simp only [hs, hu, hq]

/-- A data packet whose length does not fit the `int sz`: the stored value is
negative, so the packet is freed, not handed to the reorder engine, and the
negative value is returned. -/
theorem read_data_wrapped (w : World) (sk : SockId) (s : Sock) (my_sk : MySock) (skb : Skb)
    (rest : List Skb) (hs : w.socks sk = some s) (hu : s.sk_user_data = some my_sk)
    (hq : s.sk_receive_queue = skb :: rest)
    (ht : skb.dccph_type = PktType.DCCP_PKT_DATA ∨ skb.dccph_type = PktType.DCCP_PKT_DATAACK)
    (h1 : 2147483648 ≤ skb.len) (h2 : skb.len < 4294967296) :
    mpdccp_read_from_subflow w (some sk) =
      (some ((skb.len : Int) - 4294967296),
        log (set_sock w sk { s with sk_receive_queue := rest }) (Event.kfree_skb skb)) := by
  rw [read_data w sk s my_sk skb rest hs hu hq ht, int_of_uint_big skb.len h1 h2]
  rw [if_neg (by omega)]

/-- C14: `mpdccp_read_from_subflow` on a subflow socket pulls the packet at
the head of the receive queue and classifies it.  No packet: result 0 and no
effect.  A data or data-ack packet of length n > 0 (a length that the `int`
result can hold, n < 2^31): result n, the packet is handed to the reorder
engine once and nothing else is called.  A data or data-ack packet of length
0: result 0, the packet is freed and not handed to the reorder engine.  A
close or close-request packet: the closing flag of the subflow is set and
`close_work` is scheduled.  Any other type: the result is -1, no collaborator
is called (no reorder engine, no teardown) and the closing flag is what it
was. -/
theorem read_from_subflow_classifies (w : World) (sk : SockId) (s : Sock) (my_sk : MySock)
    (hs : w.socks sk = some s) (hu : s.sk_user_data = some my_sk) :
    (s.sk_receive_queue = [] → mpdccp_read_from_subflow w (some sk) = (some 0, w)) ∧
    (∀ skb rest, s.sk_receive_queue = skb :: rest →
      ((skb.dccph_type = PktType.DCCP_PKT_DATA ∨ skb.dccph_type = PktType.DCCP_PKT_DATAACK) →
        0 < skb.len → skb.len < 2147483648 →
        (mpdccp_read_from_subflow w (some sk)).1 = some (skb.len : Int) ∧
        (mpdccp_read_from_subflow w (some sk)).2.events =
          w.events ++ [Event.do_reorder sk skb] ∧
        (node (mpdccp_read_from_subflow w (some sk)).2 sk).map MySock.closing =
          some my_sk.closing) ∧
      ((skb.dccph_type = PktType.DCCP_PKT_DATA ∨ skb.dccph_type = PktType.DCCP_PKT_DATAACK) →
        skb.len = 0 →
        (mpdccp_read_from_subflow w (some sk)).1 = some 0 ∧
        (mpdccp_read_from_subflow w (some sk)).2.events = w.events ++ [Event.kfree_skb skb] ∧
        (node (mpdccp_read_from_subflow w (some sk)).2 sk).map MySock.closing =
          some my_sk.closing) ∧
      ((skb.dccph_type = PktType.DCCP_PKT_CLOSE ∨ skb.dccph_type = PktType.DCCP_PKT_CLOSEREQ) →
        (node (mpdccp_read_from_subflow w (some sk)).2 sk).map MySock.closing = some true ∧
        (mpdccp_read_from_subflow w (some sk)).2.events =
          w.events ++ [Event.schedule_work sk, Event.kfree_skb skb]) ∧
      ((skb.dccph_type ≠ PktType.DCCP_PKT_DATA ∧ skb.dccph_type ≠ PktType.DCCP_PKT_DATAACK ∧
          skb.dccph_type ≠ PktType.DCCP_PKT_CLOSE ∧
          skb.dccph_type ≠ PktType.DCCP_PKT_CLOSEREQ) →
        (mpdccp_read_from_subflow w (some sk)).1 = some (-1) ∧
        (mpdccp_read_from_subflow w (some sk)).2.events = w.events ∧
        (node (mpdccp_read_from_subflow w (some sk)).2 sk).map MySock.closing =
          some my_sk.closing)) := by
  constructor
  · intro hq
    unfold mpdccp_read_from_subflow
    simp only [hs, hu, hq]
  · intro skb rest hq
    refine ⟨?_, ?_, ?_, ?_⟩
    · intro ht hlen hmax
      have hpos : int_of_uint skb.len > 0 := by
        rw [int_of_uint_small skb.len hmax]
        exact_mod_cast hlen
      rw [read_data w sk s my_sk skb rest hs hu hq ht, if_pos hpos,
        int_of_uint_small skb.len hmax]
      simp [node, hu]
    · intro ht hlen
      have hnpos : ¬ (int_of_uint skb.len > 0) := by
        rw [hlen]
        decide
      rw [read_data w sk s my_sk skb rest hs hu hq ht, if_neg hnpos, hlen]
      refine ⟨rfl, ?_, ?_⟩
      · simp
      · simp [node, hu]
    · intro ht
      rw [read_close w sk s my_sk skb rest hs hu hq ht]
      simp [node]
    · intro ht
      rw [read_other w sk s my_sk skb rest hs hu hq ht.1 ht.2.1 ht.2.2.1 ht.2.2.2]
      simp [node, hu]

theorem read_from_subflow_classifies_witness :
    (mpdccp_read_from_subflow (deliver w_kex 1 data_pkt) (some 1)).1 = some 100 ∧
    (mpdccp_read_from_subflow (deliver w_kex 1 data_pkt) (some 1)).2.events =
      w_kex.events ++ [Event.do_reorder 1 data_pkt] ∧
    (node (mpdccp_read_from_subflow (deliver w_kex 1 close_pkt) (some 1)).2 1).map
      MySock.closing = some true ∧
    (mpdccp_read_from_subflow (deliver w_kex 1 ack_pkt) (some 1)).1 = some (-1) ∧
    mpdccp_read_from_subflow w_kex (some 1) = (some 0, w_kex) :=
  ⟨(((read_from_subflow_classifies (deliver w_kex 1 data_pkt) 1
        { kex_sock with sk_receive_queue := [data_pkt] } kex_my_sock
        (by decide) rfl).2 data_pkt [] rfl).1 (Or.inl rfl) (by decide) (by decide)).1,
    (((read_from_subflow_classifies (deliver w_kex 1 data_pkt) 1
        { kex_sock with sk_receive_queue := [data_pkt] } kex_my_sock
        (by decide) rfl).2 data_pkt [] rfl).1 (Or.inl rfl) (by decide) (by decide)).2.1,
    (((read_from_subflow_classifies (deliver w_kex 1 close_pkt) 1
        { kex_sock with sk_receive_queue := [close_pkt] } kex_my_sock
        (by decide) rfl).2 close_pkt [] rfl).2.2.1 (Or.inl rfl)).1,
    (((read_from_subflow_classifies (deliver w_kex 1 ack_pkt) 1
        { kex_sock with sk_receive_queue := [ack_pkt] } kex_my_sock
        (by decide) rfl).2 ack_pkt [] rfl).2.2.2
      ⟨by decide, by decide, by decide, by decide⟩).1,
    (read_from_subflow_classifies w_kex 1 kex_sock kex_my_sock (by decide) rfl).1 rfl⟩

/-! ### C13 -/

theorem close_subflow_null (w : World) (d : Int) :
    mpdccp_close_subflow w true none d = (-EINVAL, w) := rfl

theorem close_subflow_ret (w : World) (t : SockId) (d : Int) :
    (mpdccp_close_subflow w true (some t) d).1 = 0 := by
  unfold mpdccp_close_subflow
  dsimp only
  repeat (first | rfl | split)

theorem close_subflow_mpcb (w : World) (t : Option SockId) (d : Int) :
    (mpdccp_close_subflow w true t d).2.mpcb = w.mpcb := by
  unfold mpdccp_close_subflow
  repeat (first | rfl | split)

theorem close_subflow_in_list (w : World) (t : Option SockId) (d : Int) :
    (mpdccp_close_subflow w true t d).2.in_connection_list = w.in_connection_list := by
  unfold mpdccp_close_subflow
  repeat (first | rfl | split)

theorem close_subflow_events (w : World) (t : SockId) (d : Int) :
    (mpdccp_close_subflow w true (some t) d).2.events = w.events ∨
    (mpdccp_close_subflow w true (some t) d).2.events = w.events ++ [Event.schedule_work t] := by
  unfold mpdccp_close_subflow
  dsimp only
  repeat (first | exact Or.inl rfl | exact Or.inr rfl | split)

theorem close_subflow_other (w : World) (t x : SockId) (d : Int) (h : x ≠ t) :
    (mpdccp_close_subflow w true (some t) d).2.socks x = w.socks x := by
  unfold mpdccp_close_subflow
  dsimp only
  repeat (first | rfl | exact set_sock_other _ _ _ _ h | split)

/-- The `my_sock` of the closed socket afterwards. -/
theorem close_subflow_node_self (w : World) (t : SockId) (d : Int) (mysk : MySock)
    (h : node w t = some mysk) :
    node (mpdccp_close_subflow w true (some t) d).2 t = some { mysk with closing := true } := by
  unfold node at h
  unfold mpdccp_close_subflow
  dsimp only
  cases hs : w.socks t with
  | none => rw [hs] at h; cases h
  | some s =>
    rw [hs] at h
    dsimp only at h ⊢
    rw [h]
    dsimp only
    by_cases hc : mysk.closing = false
    · rw [if_pos hc]
      simp [node]
    · rw [if_neg hc]
      have hc2 : mysk.closing = true := by simpa using hc
      simp [node, hs, h, ← hc2]

theorem close_subflow_node_other (w : World) (t x : SockId) (d : Int) (h : x ≠ t) :
    node (mpdccp_close_subflow w true (some t) d).2 x = node w x := by
  unfold node
  rw [close_subflow_other w t x d h]

/-- Every node keeps its socket pointer, and a closing flag that is set
stays set. -/
theorem close_subflow_node (w : World) (t x : SockId) (d : Int) (mysk : MySock)
    (h : node w x = some mysk) :
    ∃ m2, node (mpdccp_close_subflow w true (some t) d).2 x = some m2 ∧
      m2.my_sk_sock = mysk.my_sk_sock ∧ (mysk.closing = true → m2.closing = true) := by
  by_cases hx : x = t
  · subst hx
    exact ⟨_, close_subflow_node_self w x d mysk h, rfl, fun _ => rfl⟩
  · exact ⟨mysk, by rw [close_subflow_node_other w t x d hx]; exact h, rfl, fun hc => hc⟩

theorem close_any_node (w : World) (t : Option SockId) (x : SockId) (d : Int) (mysk : MySock)
    (h : node w x = some mysk) :
    ∃ m2, node (mpdccp_close_subflow w true t d).2 x = some m2 ∧
      m2.my_sk_sock = mysk.my_sk_sock ∧ (mysk.closing = true → m2.closing = true) := by
  cases t with
  | none => exact ⟨mysk, h, rfl, fun hc => hc⟩
  | some t => exact close_subflow_node w t x d mysk h

theorem close_list_cons_none (w : World) (x : SockId) (rest : List SockId)
    (h : node w x = none) : close_list w (x :: rest) = close_list w rest := by
  rw [close_list, h]

theorem close_list_cons_some (w : World) (x : SockId) (rest : List SockId) (mysk : MySock)
    (h : node w x = some mysk) :
    close_list w (x :: rest) =
      if (mpdccp_close_subflow w true mysk.my_sk_sock 1).1 < 0 then
        mpdccp_close_subflow w true mysk.my_sk_sock 1
      else close_list (mpdccp_close_subflow w true mysk.my_sk_sock 1).2 rest := by
  rw [close_list, h]

theorem close_list_cons_ok (w : World) (x : SockId) (rest : List SockId)
    (h : node_ok w x = true) :
    close_list w (x :: rest) = close_list (mpdccp_close_subflow w true (some x) 1).2 rest := by
  unfold node_ok at h
  cases hn : node w x with
  | none => rw [hn] at h; cases h
  | some mysk =>
    rw [hn] at h
    have hp : mysk.my_sk_sock = some x := by simpa using h
    rw [close_list_cons_some w x rest mysk hn, hp, close_subflow_ret]
    rfl

/-- Every node keeps its socket pointer through a loop, and a closing flag
that is set stays set. -/
theorem close_list_node (l : List SockId) :
    ∀ (w : World) (x : SockId) (mysk : MySock), node w x = some mysk →
      ∃ m2, node (close_list w l).2 x = some m2 ∧
        m2.my_sk_sock = mysk.my_sk_sock ∧ (mysk.closing = true → m2.closing = true) := by
  induction l with
  | nil => intro w x mysk h; exact ⟨mysk, h, rfl, fun hc => hc⟩
  | cons y rest ih =>
    intro w x mysk h
    cases hn : node w y with
    | none =>
      rw [close_list_cons_none w y rest hn]
      exact ih w x mysk h
    | some my =>
      rw [close_list_cons_some w y rest my hn]
      obtain ⟨m1, h1, h2, h3⟩ := close_any_node w my.my_sk_sock x 1 mysk h
      split
      · exact ⟨m1, h1, h2, h3⟩
      · obtain ⟨m2, g1, g2, g3⟩ := ih _ x m1 h1
        exact ⟨m2, g1, g2.trans h2, fun hc => g3 (h3 hc)⟩

theorem node_ok_close (w : World) (t x : SockId) (h : node_ok w x = true) :
    node_ok (mpdccp_close_subflow w true (some t) 1).2 x = true := by
  unfold node_ok at h ⊢
  cases hn : node w x with
  | none => rw [hn] at h; cases h
  | some mysk =>
    rw [hn] at h
    obtain ⟨m2, h1, h2, _⟩ := close_subflow_node w t x 1 mysk hn
    rw [h1]
    dsimp only at h ⊢
    rw [h2]
    exact h

theorem node_wf_close (w : World) (t x : SockId) (h : node_wf w x = true) :
    node_wf (mpdccp_close_subflow w true (some t) 1).2 x = true := by
  unfold node_wf at h ⊢
  cases hn : node w x with
  | none => rw [hn] at h; cases h
  | some mysk =>
    rw [hn] at h
    obtain ⟨m2, h1, h2, _⟩ := close_subflow_node w t x 1 mysk hn
    rw [h1]
    dsimp only at h ⊢
    rw [h2]
    exact h

theorem is_closing_close_list (l : List SockId) (w : World) (x : SockId)
    (h : is_closing w x = true) : is_closing (close_list w l).2 x = true := by
  unfold is_closing at h ⊢
  cases hn : node w x with
  | none => rw [hn] at h; cases h
  | some mysk =>
    rw [hn] at h
    obtain ⟨m2, h1, _, h3⟩ := close_list_node l w x mysk hn
    rw [h1]
    exact h3 h

theorem is_closing_after_close (w : World) (x : SockId) (h : node_ok w x = true) :
    is_closing (mpdccp_close_subflow w true (some x) 1).2 x = true := by
  unfold node_ok at h
  unfold is_closing
  cases hn : node w x with
  | none => rw [hn] at h; cases h
  | some mysk => rw [close_subflow_node_self w x 1 mysk hn]

theorem close_list_mpcb (l : List SockId) :
    ∀ w : World, (close_list w l).2.mpcb = w.mpcb ∧
      (close_list w l).2.in_connection_list = w.in_connection_list := by
  induction l with
  | nil => intro w; exact ⟨rfl, rfl⟩
  | cons y rest ih =>
    intro w
    cases hn : node w y with
    | none =>
      rw [close_list_cons_none w y rest hn]
      exact ih w
    | some my =>
      rw [close_list_cons_some w y rest my hn]
      split
      · exact ⟨close_subflow_mpcb w _ 1, close_subflow_in_list w _ 1⟩
      · exact ⟨(ih _).1.trans (close_subflow_mpcb w _ 1),
          (ih _).2.trans (close_subflow_in_list w _ 1)⟩

theorem close_list_mpcb_eq (w : World) (l : List SockId) :
    (close_list w l).2.mpcb = w.mpcb := (close_list_mpcb l w).1

/-- A loop over nodes with their own socket pointers. -/
theorem close_list_ok (l : List SockId) :
    ∀ w : World, (∀ x, x ∈ l → node_ok w x = true) →
      (close_list w l).1 = 0 ∧
      (∀ y, y ∉ l → (close_list w l).2.socks y = w.socks y) ∧
      (∀ x, x ∈ l → is_closing (close_list w l).2 x = true) ∧
      ∃ sched, (close_list w l).2.events = w.events ++ sched ∧
        sched.Sublist (l.map Event.schedule_work) := by
  induction l with
  | nil =>
    intro w _
    refine ⟨rfl, fun _ _ => rfl, ?_, [], ?_, ?_⟩
    · intro x hx
      cases hx
    · rw [close_list, List.append_nil]
    · exact List.Sublist.slnil
  | cons y rest ih =>
    intro w hok
    have hy := hok y (List.mem_cons_self y rest)
    rw [close_list_cons_ok w y rest hy]
    have hrest : ∀ x, x ∈ rest → node_ok (mpdccp_close_subflow w true (some y) 1).2 x = true :=
      fun x hx => node_ok_close w y x (hok x (List.mem_cons_of_mem y hx))
    obtain ⟨r1, r2, r3, sched, r4, r5⟩ := ih _ hrest
    refine ⟨r1, ?_, ?_, ?_⟩
    · intro z hz
      have hz1 : z ≠ y := fun he => hz (he ▸ List.mem_cons_self _ _)
      have hz2 : z ∉ rest := fun hm => hz (List.mem_cons_of_mem y hm)
      rw [r2 z hz2, close_subflow_other w y z 1 hz1]
    · intro x hx
      rcases List.mem_cons.1 hx with he | hm
      · rw [he]
        exact is_closing_close_list rest _ y (is_closing_after_close w y hy)
      · exact r3 x hm
    · rcases close_subflow_events w y 1 with he | he
      · refine ⟨sched, by rw [r4, he], ?_⟩
        rw [List.map_cons]
        exact List.Sublist.cons _ r5
      · refine ⟨Event.schedule_work y :: sched, by rw [r4, he]; simp, ?_⟩
        rw [List.map_cons]
        exact List.Sublist.cons₂ _ r5

/-- A loop that returns 0 has set every closing flag. -/
theorem close_list_wf (l : List SockId) :
    ∀ w : World, (∀ x, x ∈ l → node_wf w x = true) → (close_list w l).1 = 0 →
      ∀ x, x ∈ l → is_closing (close_list w l).2 x = true := by
  induction l with
  | nil => intro w _ _ x hx; cases hx
  | cons y rest ih =>
    intro w hwf hret x hx
    have hy := hwf y (List.mem_cons_self y rest)
    unfold node_wf at hy
    cases hn : node w y with
    | none => rw [hn] at hy; cases hy
    | some my =>
      rw [hn] at hy
      rw [close_list_cons_some w y rest my hn] at hret ⊢
      cases hp : my.my_sk_sock with
      | none =>
        rw [hp, close_subflow_null] at hret
        simp [EINVAL] at hret
      | some t =>
        have ht : t = y := by
          dsimp only at hy
          rw [hp] at hy
          simpa using hy
        subst ht
        rw [hp] at hret
        rw [close_subflow_ret] at hret ⊢
        rw [if_neg (by decide)] at hret ⊢
        have hok : node_ok w t = true := by
          unfold node_ok
          rw [hn]
          simp [hp]
        rcases List.mem_cons.1 hx with he | hm
        · rw [he]
          exact is_closing_close_list rest _ t (is_closing_after_close w t hok)
        · exact ih _ (fun z hz => node_wf_close w t z (hwf z (List.mem_cons_of_mem t hz)))
            hret x hm

/-- A loop that meets a node with a null socket pointer. -/
theorem close_list_fail (pre : List SockId) :
    ∀ (w : World) (x : SockId) (post : List SockId) (mysk : MySock),
      (∀ y, y ∈ pre → node_ok w y = true) → node w x = some mysk → mysk.my_sk_sock = none →
      close_list w (pre ++ x :: post) = (-EINVAL, (close_list w pre).2) := by
  induction pre with
  | nil =>
    intro w x post mysk _ hn hp
    rw [List.nil_append, close_list_cons_some w x post mysk hn, hp, close_subflow_null]
    rfl
  | cons y rest ih =>
    intro w x post mysk hok hn hp
    have hy := hok y (List.mem_cons_self y rest)
    rw [List.cons_append, close_list_cons_ok w y _ hy, close_list_cons_ok w y _ hy]
    obtain ⟨m2, h1, h2, _⟩ := close_subflow_node w y x 1 mysk hn
    exact ih _ x post m2
      (fun z hz => node_ok_close w y z (hok z (List.mem_cons_of_mem y hz))) h1 (h2.trans hp)

theorem close_list_append (a : List SockId) :
    ∀ (w : World) (b : List SockId),
      close_list w (a ++ b) =
        if (close_list w a).1 < 0 then close_list w a
        else close_list (close_list w a).2 b := by
  induction a with
  | nil =>
    intro w b
    simp [close_list]
  | cons y rest ih =>
    intro w b
    rw [List.cons_append]
    cases hn : node w y with
    | none =>
      rw [close_list_cons_none w y _ hn, close_list_cons_none w y _ hn]
      exact ih w b
    | some my =>
      rw [close_list_cons_some w y _ my hn, close_list_cons_some w y _ my hn]
      by_cases hc : (mpdccp_close_subflow w true my.my_sk_sock 1).1 < 0
      · simp only [if_pos hc]
      · simp only [if_neg hc]
        exact ih _ b

/-- The three loops of `mpdccp_destroy_mpcb` are one loop over the active,
listening and pending sockets in this order. -/
theorem destroy_mpcb_eq (w : World) :
    mpdccp_destroy_mpcb w true =
      if (close_list (connection_list_del w) (all_subflows w.mpcb)).1 < 0 then
        close_list (connection_list_del w) (all_subflows w.mpcb)
      else (0, destroy_cleanup (close_list (connection_list_del w) (all_subflows w.mpcb)).2) := by
  unfold mpdccp_destroy_mpcb all_subflows
  rw [if_neg (by decide)]
  dsimp only
  rw [close_list_append, close_list_append]
  simp only [close_list_mpcb_eq, connection_list_del_mpcb]
  by_cases h1 : (close_list (connection_list_del w) w.mpcb.psubflow_list).1 < 0
  · simp only [h1, if_true]
  · simp only [h1, if_false]
    by_cases h2 : (close_list (close_list (connection_list_del w) w.mpcb.psubflow_list).2
        w.mpcb.plisten_list).1 < 0
    · simp only [h2, if_true]
    · simp only [h2, if_false]

theorem close_subflow_events_closed (w : World) (t : SockId) (d : Int)
    (h : is_closing w t = true) :
    (mpdccp_close_subflow w true (some t) d).2.events = w.events := by
  unfold is_closing node at h
  unfold mpdccp_close_subflow
  dsimp only
  cases hs : w.socks t with
  | none => rfl
  | some s =>
    rw [hs] at h
    dsimp only at h ⊢
    cases hu : s.sk_user_data with
    | none => rfl
    | some mysk =>
      rw [hu] at h
      dsimp only at h ⊢
      rw [if_neg (by simp [h])]

theorem close_subflow_events_open (w : World) (t : SockId) (d : Int)
    (hok : node_ok w t = true) (h : is_closing w t = false) :
    (mpdccp_close_subflow w true (some t) d).2.events = w.events ++ [Event.schedule_work t] := by
  unfold node_ok node at hok
  unfold is_closing node at h
  unfold mpdccp_close_subflow
  dsimp only
  cases hs : w.socks t with
  | none => rw [hs] at hok; cases hok
  | some s =>
    rw [hs] at h hok
    dsimp only at h hok ⊢
    cases hu : s.sk_user_data with
    | none => rw [hu] at hok; cases hok
    | some mysk =>
      rw [hu] at h
      dsimp only at h ⊢
      rw [if_pos h]
      rfl

theorem is_closing_close_other (w : World) (t x : SockId) (d : Int) (h : x ≠ t) :
    is_closing (mpdccp_close_subflow w true (some t) d).2 x = is_closing w x := by
  unfold is_closing
  rw [close_subflow_node_other w t x d h]

/-- The work items scheduled by a loop over nodes with their own socket
pointers: one for each socket whose closing flag was clear, in list order. -/
theorem close_list_sched (l : List SockId) :
    ∀ w : World, (∀ x, x ∈ l → node_ok w x = true) →
      ∃ sched, (close_list w l).2.events = w.events ++ sched ∧
        sched.Sublist (l.map Event.schedule_work) ∧
        ∀ x, x ∈ l → is_closing w x = false → Event.schedule_work x ∈ sched := by
  induction l with
  | nil =>
    intro w _
    refine ⟨[], ?_, List.Sublist.slnil, ?_⟩
    · rw [close_list, List.append_nil]
    · intro x hx
      cases hx
  | cons y rest ih =>
    intro w hok
    have hy := hok y (List.mem_cons_self y rest)
    rw [close_list_cons_ok w y rest hy]
    have hrest : ∀ x, x ∈ rest → node_ok (mpdccp_close_subflow w true (some y) 1).2 x = true :=
      fun x hx => node_ok_close w y x (hok x (List.mem_cons_of_mem y hx))
    obtain ⟨sched, r4, r5, r6⟩ := ih _ hrest
    cases hcl : is_closing w y with
    | true =>
      refine ⟨sched, by rw [r4, close_subflow_events_closed w y 1 hcl], ?_, ?_⟩
      · rw [List.map_cons]
        exact List.Sublist.cons _ r5
      · intro x hx hc
        have hne : x ≠ y := fun he => by rw [he, hcl] at hc; cases hc
        rcases List.mem_cons.1 hx with he | hm
        · exact absurd he hne
        · exact r6 x hm (by rw [is_closing_close_other w y x 1 hne]; exact hc)
    | false =>
      refine ⟨Event.schedule_work y :: sched, ?_, ?_, ?_⟩
      · rw [r4, close_subflow_events_open w y 1 hy hcl, List.append_assoc]
        rfl
      · rw [List.map_cons]
        exact List.Sublist.cons₂ _ r5
      · intro x hx hc
        by_cases hne : x = y
        · rw [hne]
          exact List.mem_cons_self _ _
        · rcases List.mem_cons.1 hx with he | hm
          · exact absurd he hne
          · exact List.mem_cons_of_mem _
              (r6 x hm (by rw [is_closing_close_other w y x 1 hne]; exact hc))

/-- A loop only appends to the event log. -/
theorem close_list_events (l : List SockId) :
    ∀ w : World, ∃ tail, (close_list w l).2.events = w.events ++ tail := by
  induction l with
  | nil =>
    intro w
    exact ⟨[], by rw [close_list, List.append_nil]⟩
  | cons y rest ih =>
    intro w
    cases hn : node w y with
    | none =>
      rw [close_list_cons_none w y rest hn]
      exact ih w
    | some my =>
      rw [close_list_cons_some w y rest my hn]
      have hstep : ∃ t1, (mpdccp_close_subflow w true my.my_sk_sock 1).2.events =
          w.events ++ t1 := by
        cases my.my_sk_sock with
        | none => exact ⟨[], by rw [close_subflow_null, List.append_nil]⟩
        | some t =>
          rcases close_subflow_events w t 1 with he | he
          · exact ⟨[], by rw [he, List.append_nil]⟩
          · exact ⟨_, he⟩
      obtain ⟨t1, h1⟩ := hstep
      split
      · exact ⟨t1, h1⟩
      · obtain ⟨t2, h2⟩ := ih (mpdccp_close_subflow w true my.my_sk_sock 1).2
        exact ⟨t1 ++ t2, by rw [h2, h1, List.append_assoc]⟩

/-- A list of well-formed nodes either has all socket pointers set or has a
first node with a null socket pointer. -/
theorem node_wf_first_null (w : World) (l : List SockId) :
    (∀ x, x ∈ l → node_wf w x = true) →
      (∀ x, x ∈ l → node_ok w x = true) ∨
      ∃ pre x post mysk, l = pre ++ x :: post ∧ (∀ y, y ∈ pre → node_ok w y = true) ∧
        node w x = some mysk ∧ mysk.my_sk_sock = none := by
  induction l with
  | nil =>
    intro _
    exact Or.inl (fun x hx => by cases hx)
  | cons y rest ih =>
    intro hwf
    have hy := hwf y (List.mem_cons_self y rest)
    unfold node_wf at hy
    cases hn : node w y with
    | none => rw [hn] at hy; cases hy
    | some my =>
      rw [hn] at hy
      dsimp only at hy
      cases hp : my.my_sk_sock with
      | none =>
        exact Or.inr ⟨[], y, rest, my, rfl, fun z hz => absurd hz (List.not_mem_nil z), hn, hp⟩
      | some t =>
        have hok : node_ok w y = true := by
          unfold node_ok
          rw [hn]
          rw [hp] at hy
          simpa [hp] using hy
        rcases ih (fun z hz => hwf z (List.mem_cons_of_mem y hz)) with hall | hex
        · refine Or.inl (fun z hz => ?_)
          rcases List.mem_cons.1 hz with he | hm
          · rw [he]
            exact hok
          · exact hall z hm
        · obtain ⟨pre, x, post, mysk, h1, h2, h3, h4⟩ := hex
          refine Or.inr ⟨y :: pre, x, post, mysk, by rw [h1]; rfl, fun z hz => ?_, h3, h4⟩
          rcases List.mem_cons.1 hz with he | hm
          · rw [he]
            exact hok
          · exact h2 z hm

theorem node_ok_wf (w : World) (x : SockId) (h : node_ok w x = true) : node_wf w x = true := by
  unfold node_ok at h
  unfold node_wf
  cases hn : node w x with
  | none => rw [hn] at h; cases h
  | some my =>
    rw [hn] at h
    dsimp only at h ⊢
    rw [h]
    rfl

theorem node_connection_list_del (w : World) (x : SockId) :
    node (connection_list_del w) x = node w x := rfl

theorem node_destroy_cleanup (w : World) (x : SockId) :
    node (destroy_cleanup w) x = node w x := rfl

theorem destroy_cleanup_events (w : World) :
    (destroy_cleanup w).events = w.events ++ [Event.cleanup_reordering,
      Event.cleanup_scheduler, Event.cleanup_path_manager, Event.free_mpcb] := by
  simp [destroy_cleanup]

theorem destroy_cleanup_in_list (w : World) :
    (destroy_cleanup w).in_connection_list = w.in_connection_list := rfl

/-! ### Well-formed nodes in reachable states -/

theorem nkey_of_socks (w w2 : World) (x : SockId) (h : w2.socks x = w.socks x) :
    nkey w2 x = nkey w x := by
  unfold nkey node
  rw [h]

theorem nkey_set_sock_self (w : World) (sk : SockId) (s : Sock) :
    nkey (set_sock w sk s) sk = s.sk_user_data.map MySock.my_sk_sock := by
  unfold nkey node
  rw [set_sock_self]

theorem nkey_set_sock_other (w : World) (sk x : SockId) (s : Sock) (h : x ≠ sk) :
    nkey (set_sock w sk s) x = nkey w x :=
  nkey_of_socks _ _ _ (set_sock_other w sk x s h)

theorem nkey_set_sock_keep (w : World) (sk : SockId) (s0 s : Sock) (x : SockId)
    (hs : w.socks sk = some s0)
    (hu : s.sk_user_data.map MySock.my_sk_sock = s0.sk_user_data.map MySock.my_sk_sock) :
    nkey (set_sock w sk s) x = nkey w x := by
  by_cases hx : x = sk
  · subst hx
    rw [nkey_set_sock_self, hu]
    unfold nkey node
    rw [hs]
  · exact nkey_set_sock_other w sk x s hx

theorem nodesOk_of (w w2 : World) (h : NodesOk w)
    (H : ∀ x, nkey w2 x = some (some x) ∨
      (nkey w2 x = none ∧
        x ∉ w2.mpcb.prequest_list ++ w2.mpcb.plisten_list ++ w2.mpcb.psubflow_list) ∨
      (nkey w2 x = nkey w x ∧
        (x ∈ w2.mpcb.prequest_list ++ w2.mpcb.plisten_list ++ w2.mpcb.psubflow_list →
          x ∈ w.mpcb.prequest_list ++ w.mpcb.plisten_list ++ w.mpcb.psubflow_list))) :
    NodesOk w2 := by
  intro x
  rcases H x with h1 | h1 | ⟨h1, h2⟩
  · exact Or.inl h1
  · exact Or.inr h1
  · rcases h x with g | ⟨g1, g2⟩
    · exact Or.inl (h1.trans g)
    · exact Or.inr ⟨h1.trans g1, fun hm => g2 (h2 hm)⟩

theorem nodesOk_keep (w w2 : World) (h : NodesOk w) (hk : ∀ x, nkey w2 x = nkey w x)
    (h1 : w2.mpcb.prequest_list = w.mpcb.prequest_list)
    (h2 : w2.mpcb.plisten_list = w.mpcb.plisten_list)
    (h3 : w2.mpcb.psubflow_list = w.mpcb.psubflow_list) : NodesOk w2 :=
  nodesOk_of w w2 h (fun x => Or.inr (Or.inr ⟨hk x, fun hm => by
    rw [h1, h2, h3] at hm
    exact hm⟩))

theorem nodesOk_set_sock (w : World) (sk : SockId) (s0 s : Sock) (h : NodesOk w)
    (hs : w.socks sk = some s0)
    (hu : s.sk_user_data.map MySock.my_sk_sock = s0.sk_user_data.map MySock.my_sk_sock) :
    NodesOk (set_sock w sk s) :=
  nodesOk_keep w _ h (fun x => nkey_set_sock_keep w sk s0 s x hs hu) rfl rfl rfl

theorem nodesOk_link_lookup (w : World) (l : Option LinkId) (h : NodesOk w) :
    NodesOk (link_lookup w l) := by
  cases l
  · exact h
  · exact h

theorem nodesOk_add_out (w : World) (l : Option LinkId) (ret : Int) (h : NodesOk w) :
    NodesOk (add_out w l ret) := by
  unfold add_out
  repeat (first | exact h | split)

theorem nkey_dccp_done (w : World) (m x : SockId) : nkey (dccp_done w m) x = nkey w x := by
  unfold dccp_done
  split
  · rename_i s hs
    exact nkey_set_sock_keep (log w (Event.dccp_done m)) m s _ x hs rfl
  · rfl

theorem nkey_destruct_cascade (w : World) (x : SockId) :
    nkey (destruct_cascade w) x = nkey w x := by
  unfold destruct_cascade
  repeat (first | rfl | exact nkey_dccp_done w _ x | split)

theorem nkey_destruct_finish (w : World) (sk x : SockId) (cb : Option Callback) :
    nkey (destruct_finish w sk cb) x = nkey w x := by
  unfold destruct_finish
  split
  · rfl
  · exact nkey_destruct_cascade _ x
  · exact nkey_destruct_cascade _ x

theorem nkey_my_sock_destruct_other (w : World) (sk x : SockId) (h : x ≠ sk) :
    nkey (my_sock_destruct w sk) x = nkey w x := by
  unfold my_sock_destruct
  cases hs : w.socks sk with
  | none => rfl
  | some s =>
    dsimp only
    cases hu : s.sk_user_data with
    | none => rfl
    | some my_sk =>
      dsimp only
      rw [nkey_destruct_finish]
      have h1 : nkey (set_sock (destruct_unlink (log w (Event.report_destroy sk)) sk
          my_sk.link_info) sk (destruct_restore s my_sk)) x = nkey w x := by
        rw [nkey_set_sock_other _ sk x _ h]
        exact nkey_of_socks _ _ _ (by simp)
      cases my_sk.pcb <;> exact h1

theorem nkey_my_sock_destruct_self (w : World) (sk : SockId) :
    nkey (my_sock_destruct w sk) sk = none := by
  unfold my_sock_destruct
  cases hs : w.socks sk with
  | none =>
    unfold nkey node
    rw [hs]
    rfl
  | some s =>
    dsimp only
    cases hu : s.sk_user_data with
    | none =>
      show nkey w sk = none
      unfold nkey node
      rw [hs]
      dsimp only
      rw [hu]
      rfl
    | some my_sk =>
      dsimp only
      rw [nkey_destruct_finish]
      have h1 : nkey (set_sock (destruct_unlink (log w (Event.report_destroy sk)) sk
          my_sk.link_info) sk (destruct_restore s my_sk)) sk = none := by
        rw [nkey_set_sock_self]
        rfl
      cases my_sk.pcb <;> exact h1

theorem nodesOk_my_sock_destruct (w : World) (sk : SockId) (hi : Inv w) (h : NodesOk w) :
    NodesOk (my_sock_destruct w sk) := by
  apply nodesOk_of w _ h
  intro x
  by_cases hx : x = sk
  · subst hx
    rcases h x with g | ⟨g1, g2⟩
    · refine Or.inr (Or.inl ⟨nkey_my_sock_destruct_self w x, ?_⟩)
      rw [my_sock_destruct_mpcb]
      split
      · exact (listsOk_list_del w.mpcb w.next_sk x hi.1).2
      · rename_i hn
        intro hm
        apply hn
        refine ⟨?_, (linked_iff w.mpcb x).2 hm⟩
        unfold nkey node at g
        unfold attached
        cases hs : w.socks x with
        | none => rw [hs] at g; cases g
        | some s =>
          rw [hs] at g
          dsimp only at g ⊢
          cases hu : s.sk_user_data with
          | none => rw [hu] at g; cases g
          | some m => rfl
    · refine Or.inr (Or.inl ⟨nkey_my_sock_destruct_self w x, ?_⟩)
      rw [my_sock_destruct_mpcb]
      split
      · exact (listsOk_list_del w.mpcb w.next_sk x hi.1).2
      · exact g2
  · refine Or.inr (Or.inr ⟨nkey_my_sock_destruct_other w sk x hx, ?_⟩)
    rw [my_sock_destruct_mpcb]
    split
    · exact (nodup3_erase _ _ _ sk hi.1.1).2.2 x
    · exact fun hm => hm

theorem nodesOk_sock_release (w : World) (sk : SockId) (hi : Inv w) (h : NodesOk w) :
    NodesOk (sock_release w sk) := by
  rcases sock_release_cases w sk with h1 | h1 | ⟨cb, h1⟩
  · rw [h1]; exact nodesOk_my_sock_destruct w sk hi h
  · rw [h1]; exact h
  · rw [h1]; exact h

theorem mem_lists_add_tail (m : Mpcb) (sk x : SockId) :
    (x ∈ (add_tail_subflow m sk).prequest_list ++ (add_tail_subflow m sk).plisten_list ++
        (add_tail_subflow m sk).psubflow_list →
      x = sk ∨ x ∈ m.prequest_list ++ m.plisten_list ++ m.psubflow_list) ∧
    (x ∈ (add_tail_request m sk).prequest_list ++ (add_tail_request m sk).plisten_list ++
        (add_tail_request m sk).psubflow_list →
      x = sk ∨ x ∈ m.prequest_list ++ m.plisten_list ++ m.psubflow_list) ∧
    (x ∈ (add_tail_listen m sk).prequest_list ++ (add_tail_listen m sk).plisten_list ++
        (add_tail_listen m sk).psubflow_list →
      x = sk ∨ x ∈ m.prequest_list ++ m.plisten_list ++ m.psubflow_list) := by
  simp only [add_tail_subflow_prequest_list, add_tail_subflow_plisten_list,
    add_tail_subflow_psubflow_list, add_tail_request_prequest_list,
    add_tail_request_plisten_list, add_tail_request_psubflow_list,
    add_tail_listen_prequest_list, add_tail_listen_plisten_list,
    add_tail_listen_psubflow_list, List.mem_append, List.mem_singleton]
  refine ⟨?_, ?_, ?_⟩ <;> tauto

/-- Adding a socket that has its `my_sock` to one of the lists. -/
theorem nodesOk_add (w w2 : World) (sk : SockId) (h : NodesOk w)
    (hsk : nkey w sk = some (some sk)) (hk : ∀ x, nkey w2 x = nkey w x)
    (hl : ∀ x, x ∈ w2.mpcb.prequest_list ++ w2.mpcb.plisten_list ++ w2.mpcb.psubflow_list →
      x = sk ∨ x ∈ w.mpcb.prequest_list ++ w.mpcb.plisten_list ++ w.mpcb.psubflow_list) :
    NodesOk w2 := by
  apply nodesOk_of w _ h
  intro x
  by_cases hx : x = sk
  · subst hx
    exact Or.inl ((hk x).trans hsk)
  · refine Or.inr (Or.inr ⟨hk x, fun hm => ?_⟩)
    rcases hl x hm with he | hm2
    · exact absurd he hx
    · exact hm2

theorem nodesOk_promote (w : World) (sk : SockId) (hi : Inv w) (h : NodesOk w)
    (hsk : nkey w sk = some (some sk)) : NodesOk (promote w sk) := by
  apply nodesOk_add w _ sk h hsk
  · intro x
    exact nkey_of_socks _ _ _ (by simp)
  · intro x hm
    rw [promote_mpcb] at hm
    rcases (mem_lists_add_tail (list_del w.mpcb sk) sk x).1 hm with he | hm2
    · exact Or.inl he
    · exact Or.inr ((nodup3_erase _ _ _ sk hi.1.1).2.2 x hm2)

theorem nodesOk_mp_state_change (w : World) (sk : SockId) (hi : Inv w) (h : NodesOk w) :
    NodesOk (mp_state_change w sk) := by
  unfold mp_state_change
  cases hs : w.socks sk with
  | none => exact h
  | some s =>
    dsimp only
    cases hu : s.sk_user_data with
    | none => exact h
    | some my =>
      dsimp only
      have hsk : nkey w sk = some (some sk) := by
        rcases h sk with g | ⟨g, _⟩
        · exact g
        · unfold nkey node at g
          rw [hs] at g
          dsimp only at g
          rw [hu] at g
          cases g
      repeat (first | exact h | exact nodesOk_promote w sk hi h hsk | split)

theorem nodesOk_set_state (w : World) (sk : SockId) (st : DccpState) (h : NodesOk w) :
    NodesOk (set_state w sk st) := by
  unfold set_state
  split
  · rename_i s hs
    exact nodesOk_set_sock w sk s _ h hs rfl
  · exact h

theorem nodesOk_set_link (w : World) (sk : SockId) (l : Option LinkId) (h : NodesOk w) :
    NodesOk (set_link w sk l) := by
  unfold set_link
  split
  · exact h
  · rename_i s hs
    split
    · exact h
    · rename_i my hu
      exact nodesOk_set_sock w sk s _ h hs (by rw [hu]; rfl)

theorem nkey_set_link (w : World) (sk x : SockId) (l : Option LinkId) :
    nkey (set_link w sk l) x = nkey w x := by
  unfold set_link
  split
  · rfl
  · rename_i s hs
    split
    · rfl
    · rename_i my hu
      exact nkey_set_sock_keep w sk s _ x hs (by rw [hu]; rfl)

theorem nkey_link_lookup (w : World) (l : Option LinkId) (x : SockId) :
    nkey (link_lookup w l) x = nkey w x := by
  cases l
  · rfl
  · rfl

theorem nodesOk_meta_open (w : World) (mss : Nat) (h : NodesOk w) :
    NodesOk (meta_open w mss) := by
  unfold meta_open
  split
  · exact h
  · split
    · exact h
    · rename_i ms hms
      exact nodesOk_set_sock w _ ms _ h hms rfl

theorem nodesOk_set_mpcb (w : World) (m : Mpcb) (h : NodesOk w)
    (h1 : m.prequest_list = w.mpcb.prequest_list) (h2 : m.plisten_list = w.mpcb.plisten_list)
    (h3 : m.psubflow_list = w.mpcb.psubflow_list) : NodesOk (set_mpcb w m) :=
  nodesOk_keep w _ h (fun _ => rfl) h1 h2 h3

theorem nodesOk_kex_complete (w : World) (sk : SockId) (h : NodesOk w) :
    NodesOk (kex_complete w sk) := by
  unfold kex_complete
  split
  · exact h
  · rename_i s hs
    split
    · dsimp only
      apply nodesOk_meta_open
      apply nodesOk_set_mpcb
      · exact nodesOk_set_sock w sk s _ h hs rfl
      · rfl
      · rfl
      · rfl
    · exact h

theorem nodesOk_kernel_connect (w : World) (sk : SockId) (o : ConnectOutcome) (hi : Inv w)
    (h : NodesOk w) : NodesOk (kernel_connect w sk o) := by
  unfold kernel_connect
  split
  · exact h
  · rename_i s hs
    dsimp only
    have i2 : Inv (set_mpcb (set_sock w sk { s with sk_state := o.sk_state, dccps_mss_cache := o.mss })
        (set_kex (set_sock w sk { s with sk_state := o.sk_state, dccps_mss_cache := o.mss }).mpcb
          o.kex_done (o.loc_key % 18446744073709551616) (o.rem_key % 18446744073709551616))) := by
      apply inv_set_mpcb
      · exact inv_set_sock w sk s _ hi hs
      · exact listsOk_congr _ _ _ hi.1 rfl rfl rfl
    have h2 : NodesOk (set_mpcb (set_sock w sk { s with sk_state := o.sk_state, dccps_mss_cache := o.mss })
        (set_kex (set_sock w sk { s with sk_state := o.sk_state, dccps_mss_cache := o.mss }).mpcb
          o.kex_done (o.loc_key % 18446744073709551616) (o.rem_key % 18446744073709551616))) := by
      apply nodesOk_set_mpcb
      · exact nodesOk_set_sock w sk s _ h hs rfl
      · rfl
      · rfl
      · rfl
    split
    · exact nodesOk_mp_state_change _ sk i2 h2
    · exact h2

theorem nodesOk_listen_ok (w : World) (sk : SockId) (h : NodesOk w) :
    NodesOk (listen_ok w sk) := by
  unfold listen_ok
  split
  · rename_i s hs
    exact nodesOk_set_sock w sk s _ h hs rfl
  · exact h

theorem nkey_listen_ok (w : World) (sk x : SockId) : nkey (listen_ok w sk) x = nkey w x := by
  unfold listen_ok
  split
  · rename_i s hs
    exact nkey_set_sock_keep w sk s _ x hs rfl
  · rfl

theorem nodesOk_my_sock_init (a : Bool) (w : World) (sk : SockId) (i : Int) (r : Role)
    (h : NodesOk w) : NodesOk (my_sock_init a w sk i r).2 := by
  unfold my_sock_init
  split
  · exact h
  · split
    · exact h
    · rename_i s hs
      apply nodesOk_of w _ h
      intro x
      by_cases hx : x = sk
      · subst hx
        exact Or.inl (by rw [nkey_set_sock_self]; rfl)
      · exact Or.inr (Or.inr ⟨nkey_set_sock_other w sk x _ hx, fun hm => hm⟩)

theorem nkey_my_sock_init (w : World) (sk : SockId) (s : Sock) (i : Int) (r : Role)
    (hs : w.socks sk = some s) :
    nkey (my_sock_init true w sk i r).2 sk = some (some sk) := by
  unfold my_sock_init
  rw [hs]
  dsimp only
  rw [if_neg (by decide)]
  dsimp only
  rw [nkey_set_sock_self]
  rfl

theorem nodesOk_sock_create (w : World) (hi : Inv w) (h : NodesOk w) :
    NodesOk (sock_create w) := by
  apply nodesOk_of w _ h
  intro x
  by_cases hx : x = w.next_sk
  · subst hx
    refine Or.inr (Or.inl ⟨?_, fresh_not_listed w hi⟩)
    unfold nkey node
    simp [fresh_sock]
  · refine Or.inr (Or.inr ⟨nkey_of_socks _ _ _ (by simp [hx]), fun hm => hm⟩)

theorem nodesOk_client_connect (env : ClientEnv) (w : World) (sk : SockId) (family : Nat)
    (hi : Inv w) (h : NodesOk w) (hlt : sk < w.next_sk)
    (hnew : sk ∉ w.mpcb.prequest_list ++ w.mpcb.plisten_list ++ w.mpcb.psubflow_list)
    (hsk : nkey w sk = some (some sk)) :
    NodesOk (client_connect env w sk family).2 := by
  unfold client_connect
  dsimp only
  generalize find_link family env.find_ip4 env.find_ip6 env.fallback = link
  have h3 : Inv (set_link (link_lookup w link) sk link) :=
    inv_set_link _ sk link (inv_link_lookup w link hi)
  have n3 : NodesOk (set_link (link_lookup w link) sk link) :=
    nodesOk_set_link _ sk link (nodesOk_link_lookup w link h)
  have k3 : nkey (set_link (link_lookup w link) sk link) sk = some (some sk) := by
    rw [nkey_set_link, nkey_link_lookup]
    exact hsk
  have h4 : Inv (set_mpcb (set_link (link_lookup w link) sk link)
      (add_tail_request (set_link (link_lookup w link) sk link).mpcb sk)) := by
    apply inv_set_mpcb _ _ h3
    apply listsOk_add_tail_request
    · exact h3.1
    · simpa using hlt
    · simpa using hnew
  have n4 : NodesOk (set_mpcb (set_link (link_lookup w link) sk link)
      (add_tail_request (set_link (link_lookup w link) sk link).mpcb sk)) :=
    nodesOk_add _ _ sk n3 k3 (fun _ => rfl)
      (fun x hm => (mem_lists_add_tail (set_link (link_lookup w link) sk link).mpcb sk x).2.1 hm)
  have h5 := inv_kernel_connect _ sk env.connect h4
  have n5 := nodesOk_kernel_connect _ sk env.connect h4 n4
  split
  · exact nodesOk_add_out _ _ _ (nodesOk_sock_release _ sk h5 n5)
  · exact nodesOk_add_out _ _ _ (nodesOk_kex_complete _ sk n5)

theorem neg_ENOBUFS_lt : -ENOBUFS < (0 : Int) := by decide

theorem my_sock_init_alloc (a : Bool) (w : World) (sk : SockId) (i : Int) (r : Role)
    (h : ¬ (my_sock_init a w sk i r).1 < 0) : a = true := by
  cases a with
  | true => rfl
  | false => exact absurd (show (my_sock_init false w sk i r).1 < 0 from neg_ENOBUFS_lt) h

theorem nkey_my_sock_init_create (w : World) (i : Int) (r : Role) :
    nkey (my_sock_init true (sock_create w) w.next_sk i r).2 w.next_sk =
      some (some w.next_sk) :=
  nkey_my_sock_init (sock_create w) w.next_sk fresh_sock i r (by simp)

theorem nodesOk_add_client_conn (env : ClientEnv) (w : World) (mpcb : Bool)
    (la : Option SockAddr) (if_idx : Int) (ra : Option SockAddr) (hi : Inv w) (h : NodesOk w) :
    NodesOk (mpdccp_add_client_conn env w mpcb la if_idx ra).2 := by
  have i1 : Inv (my_sock_init env.alloc_ok (sock_create w) w.next_sk if_idx
      Role.MPDCCP_CLIENT).2 := inv_my_sock_init _ _ _ _ _ (inv_sock_create w hi)
  have n1 : NodesOk (my_sock_init env.alloc_ok (sock_create w) w.next_sk if_idx
      Role.MPDCCP_CLIENT).2 :=
    nodesOk_my_sock_init _ _ _ _ _ (nodesOk_sock_create w hi h)
  unfold mpdccp_add_client_conn
  split
  · dsimp only
    split
    · exact h
    · split
      · exact h
      · split
        · exact nodesOk_sock_release _ _ i1 n1
        · split
          · exact nodesOk_sock_release _ _ i1 n1
          · rename_i hneg _
            have ha := my_sock_init_alloc _ _ _ _ _ hneg
            apply nodesOk_client_connect _ _ _ _ i1 n1
            · simp
            · simpa using fresh_not_listed w hi
            · rw [ha]
              exact nkey_my_sock_init_create w if_idx Role.MPDCCP_CLIENT
  · exact h

theorem nodesOk_server_listen (env : ListenEnv) (w : World) (sk : SockId) (family : Nat)
    (hi : Inv w) (h : NodesOk w)
    (hsk : nkey w sk = some (some sk)) :
    NodesOk (server_listen env w sk family).2 := by
  unfold server_listen
  dsimp only
  generalize find_link family env.find_ip4 env.find_ip6 env.fallback = link
  have h3 : Inv (set_link (link_lookup w link) sk link) :=
    inv_set_link _ sk link (inv_link_lookup w link hi)
  have n3 : NodesOk (set_link (link_lookup w link) sk link) :=
    nodesOk_set_link _ sk link (nodesOk_link_lookup w link h)
  have k3 : nkey (set_link (link_lookup w link) sk link) sk = some (some sk) := by
    rw [nkey_set_link, nkey_link_lookup]
    exact hsk
  split
  · exact nodesOk_add_out _ _ _ (nodesOk_sock_release _ sk h3 n3)
  · apply nodesOk_add_out
    have n4 := nodesOk_listen_ok _ sk n3
    have k4 : nkey (listen_ok (set_link (link_lookup w link) sk link) sk) sk =
        some (some sk) := by
      rw [nkey_listen_ok]
      exact k3
    exact nodesOk_add _ _ sk n4 k4 (fun _ => rfl)
      (fun x hm => (mem_lists_add_tail
        (listen_ok (set_link (link_lookup w link) sk link) sk).mpcb sk x).2.2 hm)

theorem nodesOk_add_listen_sock (env : ListenEnv) (w : World) (mpcb : Bool)
    (la : Option SockAddr) (if_idx : Int) (hi : Inv w) (h : NodesOk w) :
    NodesOk (mpdccp_add_listen_sock env w mpcb la if_idx).2 := by
  have i1 : Inv (my_sock_init env.alloc_ok (sock_create w) w.next_sk if_idx
      Role.MPDCCP_SERVER).2 := inv_my_sock_init _ _ _ _ _ (inv_sock_create w hi)
  have n1 : NodesOk (my_sock_init env.alloc_ok (sock_create w) w.next_sk if_idx
      Role.MPDCCP_SERVER).2 :=
    nodesOk_my_sock_init _ _ _ _ _ (nodesOk_sock_create w hi h)
  unfold mpdccp_add_listen_sock
  split
  · dsimp only
    split
    · exact h
    · split
      · exact h
      · split
        · exact nodesOk_sock_release _ _ i1 n1
        · split
          · exact nodesOk_sock_release _ _ i1 n1
          · rename_i hneg _
            have ha := my_sock_init_alloc _ _ _ _ _ hneg
            apply nodesOk_server_listen _ _ _ _ i1 n1
            rw [ha]
            exact nkey_my_sock_init_create w if_idx Role.MPDCCP_SERVER
  · exact h

theorem nodesOk_init_world (host : ByteOrder) (role : Role) (sched : Bool) (st : DccpState) :
    NodesOk (init_world host role sched st) := by
  intro x
  refine Or.inr ⟨?_, by simp [init_world, mpdccp_alloc_mpcb]⟩
  unfold nkey node
  by_cases hx : x = 0
  · simp [init_world, hx, fresh_sock]
  · simp [init_world, hx]

theorem nodesOk_step (w w2 : World) (hi : Inv w) (h : NodesOk w) (hs : Step w w2) :
    NodesOk w2 := by
  cases hs with
  | add_client_conn env mpcb la if_idx ra =>
    exact nodesOk_add_client_conn env w mpcb la if_idx ra hi h
  | add_listen_sock env mpcb la if_idx => exact nodesOk_add_listen_sock env w mpcb la if_idx hi h
  | mp_state_change sk st hatt =>
    exact nodesOk_mp_state_change _ sk (inv_set_state w sk st hi) (nodesOk_set_state w sk st h)
  | my_sock_destruct sk hatt => exact nodesOk_my_sock_destruct w sk hi h

/-- In every reachable state each socket of the three lists has a `my_sock`
whose `my_sk_sock` points to that socket. -/
theorem nodesOk_reachable (w : World) (h : Reachable w) : NodesOk w := by
  induction h with
  | init host role sched st => exact nodesOk_init_world host role sched st
  | step w w2 hr hs ih => exact nodesOk_step w w2 (inv_reachable w hr) ih hs

theorem node_ok_of_nodesOk (w : World) (h : NodesOk w) (x : SockId)
    (hx : x ∈ all_subflows w.mpcb) : node_ok w x = true := by
  have hm : x ∈ w.mpcb.prequest_list ++ w.mpcb.plisten_list ++ w.mpcb.psubflow_list := by
    unfold all_subflows at hx
    simp only [List.mem_append] at hx ⊢
    tauto
  rcases h x with g | ⟨_, g⟩
  · unfold nkey at g
    unfold node_ok
    cases hn : node w x with
    | none => rw [hn] at g; cases g
    | some my =>
      rw [hn] at g
      have hp : my.my_sk_sock = some x := by simpa using g
      simp [hp]
  · exact absurd hm g

theorem is_closing_of_node_eq (w1 w2 : World) (x : SockId) (h : node w1 x = node w2 x) :
    is_closing w1 x = is_closing w2 x := by
  unfold is_closing
  rw [h]

theorem node_ok_connection_list_del (w : World) (x : SockId) :
    node_ok (connection_list_del w) x = node_ok w x := rfl

theorem node_wf_connection_list_del (w : World) (x : SockId) :
    node_wf (connection_list_del w) x = node_wf w x := rfl

theorem is_closing_connection_list_del (w : World) (x : SockId) :
    is_closing (connection_list_del w) x = is_closing w x := rfl

theorem is_closing_destroy_cleanup (w : World) (x : SockId) :
    is_closing (destroy_cleanup w) x = is_closing w x := rfl

theorem neg_einval_lt : -EINVAL < (0 : Int) := by decide

/-- The call on a session all of whose nodes have their socket pointer. -/
theorem destroy_mpcb_all_ok (w : World)
    (hok : ∀ x, x ∈ all_subflows w.mpcb → node_ok w x = true) :
    (mpdccp_destroy_mpcb w true).1 = 0 ∧
    (∀ x, x ∈ all_subflows w.mpcb → is_closing (mpdccp_destroy_mpcb w true).2 x = true) ∧
    ∃ sched, (mpdccp_destroy_mpcb w true).2.events =
        w.events ++ Event.connection_list_del :: sched ++
          [Event.cleanup_reordering, Event.cleanup_scheduler,
            Event.cleanup_path_manager, Event.free_mpcb] ∧
      sched.Sublist ((all_subflows w.mpcb).map Event.schedule_work) ∧
      ∀ x, x ∈ all_subflows w.mpcb → is_closing w x = false →
        Event.schedule_work x ∈ sched := by
  have hok1 : ∀ x, x ∈ all_subflows w.mpcb → node_ok (connection_list_del w) x = true := hok
  obtain ⟨hret, _, hfl, _⟩ := close_list_ok _ (connection_list_del w) hok1
  obtain ⟨sched, h1, h2, h3⟩ := close_list_sched _ (connection_list_del w) hok1
  rw [destroy_mpcb_eq, hret, if_neg (by decide)]
  refine ⟨rfl, ?_, sched, ?_, h2, h3⟩
  · intro x hx
    show is_closing (destroy_cleanup _) x = true
    rw [is_closing_destroy_cleanup]
    exact hfl x hx
  · show (destroy_cleanup _).events = _
    rw [destroy_cleanup_events, h1, connection_list_del_events]
    simp

/-- C13: `mpdccp_destroy_mpcb` on a session whose list entries are `my_sock`
nodes with their own socket or a null pointer in `my_sk_sock`.  A null
session gives `-EINVAL` and no change.  Otherwise the session leaves the
connection list and this is the first event of the call.  When every node
has its socket pointer, as is the case in every reachable state, the call
returns 0, every socket of the three lists has its closing flag set, and the
events after the removal are the `schedule_work` calls for the sockets whose
closing flag was clear, in the order active, listening, pending, followed by
the three cleanup calls and the release of the session.  Whenever the call
returns 0 every socket of the three lists has its closing flag set.  When
the first node with a null socket pointer comes after the sockets `pre`, the
call returns the error `-EINVAL` of that close request, only sockets of
`pre` are changed and got their flag set, only they may have work scheduled,
and no cleanup runs.  One of the two cases always holds. -/
theorem destroy_mpcb_spec (w : World)
    (hwf : ∀ x, x ∈ all_subflows w.mpcb → node_wf w x = true) :
    mpdccp_destroy_mpcb w false = (-EINVAL, w) ∧
    (mpdccp_destroy_mpcb w true).2.in_connection_list = false ∧
    (∃ tail, (mpdccp_destroy_mpcb w true).2.events =
      w.events ++ Event.connection_list_del :: tail) ∧
    ((∀ x, x ∈ all_subflows w.mpcb → node_ok w x = true) →
      (mpdccp_destroy_mpcb w true).1 = 0 ∧
      ∃ sched, (mpdccp_destroy_mpcb w true).2.events =
          w.events ++ Event.connection_list_del :: sched ++
            [Event.cleanup_reordering, Event.cleanup_scheduler,
              Event.cleanup_path_manager, Event.free_mpcb] ∧
        sched.Sublist ((all_subflows w.mpcb).map Event.schedule_work) ∧
        ∀ x, x ∈ all_subflows w.mpcb → is_closing w x = false →
          Event.schedule_work x ∈ sched) ∧
    ((mpdccp_destroy_mpcb w true).1 = 0 →
      ∀ x, x ∈ all_subflows w.mpcb → is_closing (mpdccp_destroy_mpcb w true).2 x = true) ∧
    (∀ pre x post mysk, all_subflows w.mpcb = pre ++ x :: post →
      (∀ y, y ∈ pre → node_ok w y = true) → node w x = some mysk → mysk.my_sk_sock = none →
      (mpdccp_destroy_mpcb w true).1 = -EINVAL ∧
      (∀ y, y ∉ pre → (mpdccp_destroy_mpcb w true).2.socks y = w.socks y) ∧
      (∀ y, y ∈ pre → is_closing (mpdccp_destroy_mpcb w true).2 y = true) ∧
      ∃ sched, (mpdccp_destroy_mpcb w true).2.events =
          w.events ++ Event.connection_list_del :: sched ∧
        sched.Sublist (pre.map Event.schedule_work)) ∧
    ((∀ x, x ∈ all_subflows w.mpcb → node_ok w x = true) ∨
      ∃ pre x post mysk, all_subflows w.mpcb = pre ++ x :: post ∧
        (∀ y, y ∈ pre → node_ok w y = true) ∧ node w x = some mysk ∧
        mysk.my_sk_sock = none) ∧
    (Reachable w →
      (mpdccp_destroy_mpcb w true).1 = 0 ∧
      ∀ x, x ∈ all_subflows w.mpcb →
        is_closing (mpdccp_destroy_mpcb w true).2 x = true) := by
  refine ⟨rfl, ?_, ?_, ?_, ?_, ?_, node_wf_first_null w _ hwf, ?_⟩
  · rw [destroy_mpcb_eq]
    split
    · rw [(close_list_mpcb _ _).2]
      rfl
    · show (destroy_cleanup _).in_connection_list = false
      rw [destroy_cleanup_in_list, (close_list_mpcb _ _).2]
      rfl
  · rw [destroy_mpcb_eq]
    obtain ⟨tail, ht⟩ := close_list_events (all_subflows w.mpcb) (connection_list_del w)
    split
    · exact ⟨tail, by rw [ht, connection_list_del_events, List.append_assoc]; rfl⟩
    · refine ⟨tail ++ [Event.cleanup_reordering, Event.cleanup_scheduler,
        Event.cleanup_path_manager, Event.free_mpcb], ?_⟩
      show (destroy_cleanup _).events = _
      rw [destroy_cleanup_events, ht, connection_list_del_events]
      simp
  · intro hok
    exact ⟨(destroy_mpcb_all_ok w hok).1, (destroy_mpcb_all_ok w hok).2.2⟩
  · intro h0 x hx
    rcases node_wf_first_null w _ hwf with hall | ⟨pre, y, post, mysk, e1, e2, e3, e4⟩
    · exact (destroy_mpcb_all_ok w hall).2.1 x hx
    · have hf := close_list_fail pre (connection_list_del w) y post mysk e2 e3 e4
      rw [destroy_mpcb_eq, e1, hf, if_pos neg_einval_lt] at h0
      exact absurd h0 (Int.ne_of_lt neg_einval_lt)
  · intro pre x post mysk e1 e2 e3 e4
    have hf := close_list_fail pre (connection_list_del w) x post mysk e2 e3 e4
    obtain ⟨_, g2, g3, _⟩ := close_list_ok pre (connection_list_del w) e2
    obtain ⟨sched, s1, s2, _⟩ := close_list_sched pre (connection_list_del w) e2
    rw [destroy_mpcb_eq, e1, hf, if_pos neg_einval_lt]
    refine ⟨rfl, fun y hy => g2 y hy, g3, sched, ?_, s2⟩
    show (close_list (connection_list_del w) pre).2.events = _
    rw [s1, connection_list_del_events, List.append_assoc]
    rfl
  · intro hr
    have hok := node_ok_of_nodesOk w (nodesOk_reachable w hr)
    exact ⟨(destroy_mpcb_all_ok w hok).1, (destroy_mpcb_all_ok w hok).2.1⟩

theorem destroy_mpcb_spec_witness :
    (∀ x, x ∈ all_subflows w_join.mpcb → node_wf w_join x = true) ∧
    all_subflows w_join.mpcb = [1, 2] ∧
    (mpdccp_destroy_mpcb w_join true).1 = 0 ∧
    (∀ x, x ∈ all_subflows w_join.mpcb →
      is_closing (mpdccp_destroy_mpcb w_join true).2 x = true) :=
  ⟨by decide, by decide,
    ((destroy_mpcb_spec w_join (by decide)).2.2.2.2.2.2.2 reachable_w_join).1,
    ((destroy_mpcb_spec w_join (by decide)).2.2.2.2.2.2.2 reachable_w_join).2⟩

end Mpdccp
